import Mathlib

/-!
# Vehicle store and validator: a shallow embedding

Source files embedded here:

* `internal/vehicle_repository.go`, `internal/vehicle_service.go`: the error values;
* `internal/repository/vehicle_map.go`: the in-memory store `VehicleMap`;
* `internal/service/vehicle_default.go`: `ValidateVehicle` and the service `VehicleDefault`.

Modelling conventions.

* A Go `map[int]Vehicle` is an association list with pairwise distinct keys
  (`AList`); `db[k] = v` is `AList.insert`, `delete(db, k)` is `AList.erase`, `db[k]` with
  the comma-ok form is `AList.lookup`, and `range db` visits `entries` in list order
  (Go leaves the order unspecified, every loop modelled here is order-insensitive or is
  stated for every order).
* Go `int` is `Int`. `Save` computes the id counter in `Int`, without the wrap at 64 bits:
  from counter `0` a wrap needs `2^63` successful calls of `Save`. `Save64` and
  `SaveMany64` are the same methods with the increment wrapping as a 64-bit `int` does;
  they agree with `Save` and `SaveMany` while the counter is below `math.MaxInt64`.
* The float64 fields of a vehicle are `ℚ`, the finite values. A float64 that can be NaN or
  an infinity, as a criteria value can, is a `GoFloat64`, compared as Go compares. The
  averages come in two forms. In `VelocityAveragebyBrand` and `CapacityAveragebyBrand` a
  float64 addition, division or conversion from an integer is the exact operation followed
  by a rounding `rnd : ℚ → ℚ` taken as a parameter; nothing is assumed of `rnd`, and
  `rnd = id` is exact arithmetic. In `VelocityAveragebyBrand64` and
  `CapacityAveragebyBrand64` the operations are those of IEEE 754 binary64 on `GoFloat64`,
  with `float64.round` as the rounding and an infinity on overflow.
* A map value is a reference in Go. The store is modelled by value, which is enough for
  every method but `FindAll`, whose result must not share the table: `VehicleMapRef.FindAll`
  is `FindAll` on a heap of map objects.
* A method with a pointer receiver returns the new receiver; a method mutating an
  argument passed by pointer returns the new value of the argument as well.
* A Go `error` result is `Option GoError`, `none` being `nil`.
-/

namespace internal

/-- Modelled from the spec: the declaration of `internal.Vehicle` is not among the source
files. The fields are the attributes of section 3 of the specification, with the names the
repository, the service and the handler use to access them (`Id` and the promoted fields
of the embedded `VehicleAttributes` and `Dimensions`). -/
structure Vehicle where
  Id : Int
  Brand : String
  Model : String
  Registration : String
  Color : String
  FabricationYear : Int
  Capacity : Int
  MaxSpeed : ℚ
  FuelType : String
  Transmission : String
  Weight : ℚ
  Height : ℚ
  Length : ℚ
  Width : ℚ
  deriving DecidableEq, Repr

/-- The zero value of `Vehicle`, what an absent map key reads as. -/
def Vehicle.zero : Vehicle :=
  { Id := 0, Brand := "", Model := "", Registration := "", Color := "",
    FabricationYear := 0, Capacity := 0, MaxSpeed := 0, FuelType := "",
    Transmission := "", Weight := 0, Height := 0, Length := 0, Width := 0 }

/-- The package-level error variables of `vehicle_repository.go` and `vehicle_service.go`.
Each `errors.New` call yields a value of its own identity, whatever its text. -/
inductive ErrVar where
  | ErrAlreadyExists
  | ErrorNotFound
  | ErrInvalidQuery
  | ErrFieldRequired
  | ErrVehicleAlreadyExists
  | ErrNotFound
  | ErrVehicleNotFound
  | ErrVehicleNotUpdated
  | ErrVelocityOutOfRange
  deriving DecidableEq, Repr

/-- The text given to `errors.New` for each error variable. -/
def ErrVar.text : ErrVar → String
  | .ErrAlreadyExists => "vehicle already exists"
  | .ErrorNotFound => "There is no vehicle with this characteristics"
  | .ErrInvalidQuery => "repository: invalid query"
  | .ErrFieldRequired => "field required"
  | .ErrVehicleAlreadyExists => "vehicle already exists"
  | .ErrNotFound => "There is no vehicle with this color and year"
  | .ErrVehicleNotFound => "Not found"
  | .ErrVehicleNotUpdated => "Vehicle not updated"
  | .ErrVelocityOutOfRange => "Velocity out of range"

/-- A Go `error` value as this program builds them: one of the package-level variables,
or the result of `fmt.Errorf` with a `%w` verb, which carries its formatted text and the
error it wraps. -/
inductive GoError where
  | var (e : ErrVar)
  | wrapped (text : String) (inner : GoError)
  deriving DecidableEq, Repr

/-- The method `Error()`. -/
def GoError.Error : GoError → String
  | .var e => e.text
  | .wrapped text _ => text

/-- The call `errors.Is(err, target)` for a package-level variable `target`: `err` is the
variable itself or wraps, at some depth, the variable. -/
def errorsIs : GoError → ErrVar → Bool
  | .var e, target => e == target
  | .wrapped _ inner, target => errorsIs inner target

/-- The call `fmt.Errorf("%w" ++ rest, target, ...)`, `suffix` being the formatted `rest`. -/
def Errorf (target : GoError) (suffix : String) : GoError :=
  .wrapped (target.Error ++ suffix) target

def ErrAlreadyExists : GoError := .var .ErrAlreadyExists
def ErrorNotFound : GoError := .var .ErrorNotFound
def ErrInvalidQuery : GoError := .var .ErrInvalidQuery
def ErrFieldRequired : GoError := .var .ErrFieldRequired
def ErrVehicleAlreadyExists : GoError := .var .ErrVehicleAlreadyExists
def ErrNotFound : GoError := .var .ErrNotFound
def ErrVelocityOutOfRange : GoError := .var .ErrVelocityOutOfRange

end internal

namespace repository

open internal

/-- The Go type `map[int]internal.Vehicle`. -/
abbrev Table := AList (fun _ : Int => Vehicle)

/-- The struct `VehicleMap`. -/
structure VehicleMap where
  db : Table
  lastId : Int
  deriving DecidableEq

/-- `NewVehicleMap(db, lastId)`; `none` is the `nil` map. -/
def NewVehicleMap (db : Option Table) (lastId : Int) : VehicleMap :=
  let defaultDb : Table := ∅
  match db with
  | some db => { db := db, lastId := lastId }
  | none => { db := defaultDb, lastId := lastId }

namespace VehicleMap

/-- `GetbyID`: the vehicle under `id`, or the zero vehicle and `ErrorNotFound`. -/
def GetbyID (r : VehicleMap) (id : Int) : Vehicle × Option GoError :=
  match r.db.lookup id with
  | none => (Vehicle.zero, some ErrorNotFound)
  | some vehicle => (vehicle, none)

/-- The condition of the `if` inside the loop of `Save`. -/
def sameKey (vehicles vehicule : Vehicle) : Bool :=
  vehicles.Model == vehicule.Model && vehicles.Brand == vehicule.Brand &&
    vehicles.FabricationYear == vehicule.FabricationYear

/-- `Save`: returns the store, the vehicle behind the pointer `vehicule`, and the error. -/
def Save (r : VehicleMap) (vehicule : Vehicle) : VehicleMap × Vehicle × Option GoError :=
  if r.db.entries.any (fun kv => sameKey kv.2 vehicule) then
    (r, vehicule, some ErrAlreadyExists)
  else
    let lastId := r.lastId + 1
    let vehicule := { vehicule with Id := lastId }
    ({ db := r.db.insert vehicule.Id vehicule, lastId := lastId }, vehicule, none)

/-- `SaveMany`: `Save` on a copy of each element in turn, returning at the first error. -/
def SaveMany (r : VehicleMap) : List Vehicle → VehicleMap × Option GoError
  | [] => (r, none)
  | vehicle :: rest =>
    match r.Save vehicle with
    | (r1, _, some err) => (r1, some err)
    | (r1, _, none) => SaveMany r1 rest

/-- `UpdateVehicle`. -/
def UpdateVehicle (r : VehicleMap) (vehicle : Vehicle) : VehicleMap × Option GoError :=
  match r.db.lookup vehicle.Id with
  | none => (r, some ErrorNotFound)
  | some _ => ({ r with db := r.db.insert vehicle.Id vehicle }, none)

/-- `Delete`. -/
def Delete (r : VehicleMap) (id : Int) : VehicleMap × Option GoError :=
  match r.db.lookup id with
  | none => (r, some ErrorNotFound)
  | some _ => ({ r with db := r.db.erase id }, none)

end VehicleMap

end repository

namespace service

open internal repository

/-- `ValidateVehicle`: the `switch` takes the first case whose condition holds. -/
def ValidateVehicle (vehicle : Vehicle) : Option GoError :=
  if vehicle.Brand = "" then some (Errorf ErrFieldRequired ": Brand")
  else if vehicle.Model = "" then some (Errorf ErrFieldRequired ": Model")
  else if vehicle.Color = "" then some (Errorf ErrFieldRequired ": color")
  else if vehicle.FabricationYear = 0 then some (Errorf ErrFieldRequired ": Year")
  else if vehicle.Capacity = 0 then some (Errorf ErrFieldRequired ": Passengers")
  else if vehicle.Transmission = "" then some (Errorf ErrFieldRequired ": Transmission")
  else if vehicle.MaxSpeed = 0 then some (Errorf ErrVelocityOutOfRange ": Max Speed")
  else none

/-- The struct `VehicleDefault`, its repository being the map store. -/
structure VehicleDefault where
  rp : VehicleMap
  deriving DecidableEq

namespace VehicleDefault

/-- The service `Save`. -/
def Save (s : VehicleDefault) (vehicle : Vehicle) : VehicleDefault × Vehicle × Option GoError :=
  match ValidateVehicle vehicle with
  | some err => (s, vehicle, some err)
  | none =>
    match s.rp.Save vehicle with
    | (rp, vehicle, some err) =>
      if err = ErrAlreadyExists then
        ({ rp := rp }, vehicle, some (Errorf ErrVehicleAlreadyExists (": " ++ err.Error)))
      else ({ rp := rp }, vehicle, some err)
    | (rp, vehicle, none) => ({ rp := rp }, vehicle, none)

/-- The service `SaveMany`. -/
def SaveMany (s : VehicleDefault) (vehicles : List Vehicle) : VehicleDefault × Option GoError :=
  match s.rp.SaveMany vehicles with
  | (rp, some err) =>
    if err = ErrAlreadyExists then
      ({ rp := rp }, some (Errorf ErrVehicleAlreadyExists (": " ++ err.Error)))
    else ({ rp := rp }, some err)
  | (rp, none) => ({ rp := rp }, none)

/-- The service `UpdateVehicle`. -/
def UpdateVehicle (s : VehicleDefault) (vehicle : Vehicle) : VehicleDefault × Option GoError :=
  match ValidateVehicle vehicle with
  | some err => (s, some err)
  | none =>
    match s.rp.UpdateVehicle vehicle with
    | (rp, some err) =>
      if err = ErrorNotFound then
        ({ rp := rp }, some (Errorf ErrNotFound (": " ++ err.Error)))
      else ({ rp := rp }, some err)
    | (rp, none) => ({ rp := rp }, none)

/-- The service `Delete`. -/
def Delete (s : VehicleDefault) (id : Int) : VehicleDefault × Option GoError :=
  match s.rp.Delete id with
  | (rp, some err) =>
    if err = ErrorNotFound then
      ({ rp := rp }, some (Errorf ErrNotFound (": " ++ err.Error)))
    else ({ rp := rp }, some err)
  | (rp, none) => ({ rp := rp }, none)

end VehicleDefault

end service

/-! ## The checks of `ValidateVehicle`, as the specification lists them -/

namespace service

open internal

/-- The seven required attributes, one check each. -/
inductive Check where
  | brand
  | model
  | color
  | fabricationYear
  | capacity
  | transmission
  | maxSpeed
  deriving DecidableEq, Repr

/-- The fixed order of the checks: brand, model, color, fabricationYear, capacity,
transmission, maxSpeed. -/
def Check.order : List Check :=
  [.brand, .model, .color, .fabricationYear, .capacity, .transmission, .maxSpeed]

/-- A vehicle violates a check when the attribute is empty (strings) or zero (numbers). -/
def Check.violated (vehicle : Vehicle) : Check → Bool
  | .brand => vehicle.Brand == ""
  | .model => vehicle.Model == ""
  | .color => vehicle.Color == ""
  | .fabricationYear => vehicle.FabricationYear == 0
  | .capacity => vehicle.Capacity == 0
  | .transmission => vehicle.Transmission == ""
  | .maxSpeed => vehicle.MaxSpeed == 0

/-- The first violated check in the fixed order, if there is one. -/
def firstViolation (vehicle : Vehicle) : Option Check :=
  Check.order.find? (Check.violated vehicle)

/-- The field name that the `case` of a check writes after the colon of its message. -/
def Check.label : Check → String
  | .brand => "Brand"
  | .model => "Model"
  | .color => "color"
  | .fabricationYear => "Year"
  | .capacity => "Passengers"
  | .transmission => "Transmission"
  | .maxSpeed => "Max Speed"

/-- The error variable that the `case` of a check wraps. -/
def Check.errVar : Check → ErrVar
  | .brand => .ErrFieldRequired
  | .model => .ErrFieldRequired
  | .color => .ErrFieldRequired
  | .fabricationYear => .ErrFieldRequired
  | .capacity => .ErrFieldRequired
  | .transmission => .ErrFieldRequired
  | .maxSpeed => .ErrVelocityOutOfRange

/-- The error that the `case` of a check returns. -/
def Check.error (c : Check) : GoError :=
  Errorf (.var c.errVar) (": " ++ c.label)

/-- The required-attribute predicate: the four strings non-empty, the three numbers
non-zero. -/
def Required (vehicle : Vehicle) : Prop :=
  vehicle.Brand ≠ "" ∧ vehicle.Model ≠ "" ∧ vehicle.Color ≠ "" ∧ vehicle.Transmission ≠ "" ∧
    vehicle.FabricationYear ≠ 0 ∧ vehicle.Capacity ≠ 0 ∧ vehicle.MaxSpeed ≠ 0

instance (vehicle : Vehicle) : Decidable (Required vehicle) := by
  unfold Required; infer_instance

end service

namespace handler

open internal

/-- The status code that the handlers `Save` and `SaveMany` of `handler/vehicle.go` answer
for the result of the service `Save`: the `switch` on `errors.Is`, and `201` without error. -/
def saveStatus : Option GoError → Nat
  | none => 201
  | some err =>
    if errorsIs err .ErrVehicleAlreadyExists then 409
    else if errorsIs err .ErrFieldRequired then 400
    else 500

end handler

/-! ## Sequences of store operations -/

namespace repository

open internal

/-- The mutating methods of the store, each with its arguments. -/
inductive Op where
  | save (vehicule : Vehicle)
  | saveMany (vehicles : List Vehicle)
  | updateVehicle (vehicle : Vehicle)
  | delete (id : Int)
  deriving DecidableEq

namespace VehicleMap

/-- The store after one operation, whether it failed or not. -/
def step (r : VehicleMap) : Op → VehicleMap
  | .save vehicule => (r.Save vehicule).1
  | .saveMany vehicles => (r.SaveMany vehicles).1
  | .updateVehicle vehicle => (r.UpdateVehicle vehicle).1
  | .delete id => (r.Delete id).1

/-- The store after a sequence of operations. -/
def run (r : VehicleMap) (ops : List Op) : VehicleMap :=
  ops.foldl step r

/-- The ids that the calls of `Save` made by `SaveMany` write into their argument, in
order; the loop of `SaveMany` ends at the first failing call. -/
def savedIdsMany (r : VehicleMap) : List Vehicle → List Int
  | [] => []
  | vehicle :: rest =>
    match r.Save vehicle with
    | (_, _, some _) => []
    | (r1, vehicule, none) => vehicule.Id :: savedIdsMany r1 rest

/-- The ids written by the successful calls of `Save` that one operation makes. -/
def savedIds (r : VehicleMap) : Op → List Int
  | .save vehicule =>
    match r.Save vehicule with
    | (_, _, some _) => []
    | (_, vehicule, none) => [vehicule.Id]
  | .saveMany vehicles => r.savedIdsMany vehicles
  | .updateVehicle _ => []
  | .delete _ => []

/-- The ids written by the successful calls of `Save` during a sequence of operations, in
the order of the calls. -/
def assigned (r : VehicleMap) : List Op → List Int
  | [] => []
  | op :: ops => r.savedIds op ++ (r.step op).assigned ops

/-- The number of live vehicles with the brand, model and fabrication year of `vehicule`. -/
def countKey (r : VehicleMap) (vehicule : Vehicle) : Nat :=
  r.db.entries.countP (fun kv => sameKey kv.2 vehicule)

/-- No two live vehicles have the same brand, model and fabrication year. -/
def UniqueKey (r : VehicleMap) : Prop :=
  r.db.entries.Pairwise (fun a b => sameKey a.2 b.2 = false)

instance (r : VehicleMap) : Decidable r.UniqueKey := by
  unfold UniqueKey; infer_instance

/-- Every key of the table is at most the id counter. -/
def KeysLeCounter (r : VehicleMap) : Prop :=
  ∀ k ∈ r.db.keys, k ≤ r.lastId

end VehicleMap

/-- Whether the operation is `UpdateVehicle`, the one mutating method that neither creates
nor removes a vehicle. -/
def Op.isUpdate : Op → Bool
  | .updateVehicle _ => true
  | _ => false

end repository

/-! ## The id counter in 64 bits

`Save` above computes `lastId++` in `Int`, which is what Go computes as long as the counter
is below the largest `int`. The definitions of this section are the same methods with the
increment wrapping around as Go's 64-bit `int` does. -/

namespace int64

/-- `math.MinInt64`. -/
def minInt : Int := -9223372036854775808

/-- `math.MaxInt64`. -/
def maxInt : Int := 9223372036854775807

/-- The Go `int` that an operation of exact result `x` yields: `x` reduced modulo `2^64`
into the range from `minInt` to `maxInt`. -/
def wrap (x : Int) : Int :=
  (x + 9223372036854775808) % 18446744073709551616 - 9223372036854775808

end int64

namespace repository

open internal

namespace VehicleMap

/-- `Save`, the increment `lastId++` being that of a 64-bit `int`. -/
def Save64 (r : VehicleMap) (vehicule : Vehicle) : VehicleMap × Vehicle × Option GoError :=
  if r.db.entries.any (fun kv => sameKey kv.2 vehicule) then
    (r, vehicule, some ErrAlreadyExists)
  else
    let lastId := int64.wrap (r.lastId + 1)
    let vehicule := { vehicule with Id := lastId }
    ({ db := r.db.insert vehicule.Id vehicule, lastId := lastId }, vehicule, none)

/-- `SaveMany` over `Save64`. -/
def SaveMany64 (r : VehicleMap) : List Vehicle → VehicleMap × Option GoError
  | [] => (r, none)
  | vehicle :: rest =>
    match r.Save64 vehicle with
    | (r1, _, some err) => (r1, some err)
    | (r1, _, none) => SaveMany64 r1 rest

/-- The ids that the calls of `Save64` made by `SaveMany64` write into their argument, in
order. -/
def savedIdsMany64 (r : VehicleMap) : List Vehicle → List Int
  | [] => []
  | vehicle :: rest =>
    match r.Save64 vehicle with
    | (_, _, some _) => []
    | (r1, vehicule, none) => vehicule.Id :: savedIdsMany64 r1 rest

/-- The store after `Save64` of each vehicle of a list in turn, whatever the calls
return. -/
def saveEach64 (r : VehicleMap) (vehicles : List Vehicle) : VehicleMap :=
  vehicles.foldl (fun s vehicle => (s.Save64 vehicle).1) r

/-- The store after one operation, whether it failed or not, with `Save64` for `Save`. -/
def step64 (r : VehicleMap) : Op → VehicleMap
  | .save vehicule => (r.Save64 vehicule).1
  | .saveMany vehicles => (r.SaveMany64 vehicles).1
  | .updateVehicle vehicle => (r.UpdateVehicle vehicle).1
  | .delete id => (r.Delete id).1

/-- The store after a sequence of operations, with `Save64` for `Save`. -/
def run64 (r : VehicleMap) (ops : List Op) : VehicleMap :=
  ops.foldl step64 r

end VehicleMap

/-- The number of vehicles that an operation hands to `Save`. -/
def Op.saves : Op → Nat
  | .save _ => 1
  | .saveMany vehicles => vehicles.length
  | .updateVehicle _ => 0
  | .delete _ => 0

end repository

/-! ## Queries and aggregates of the store -/

namespace internal

/-- A value of the Go type `float64` where it need not be finite: a finite value, by its
exact rational value, or one of NaN, `+Inf` and `-Inf`. The two zeros are one value. -/
inductive GoFloat64 where
  | finite (x : ℚ)
  | nan
  | posInf
  | negInf
  deriving DecidableEq, Repr

/-- The Go comparison `a < b` of two `float64` values: false when either is NaN. -/
def GoFloat64.lt : GoFloat64 → GoFloat64 → Bool
  | .finite x, .finite y => decide (x < y)
  | .finite _, .posInf => true
  | .negInf, .finite _ => true
  | .negInf, .posInf => true
  | _, _ => false

/-- The Go comparison `a > b`. -/
def GoFloat64.gt (a b : GoFloat64) : Bool := GoFloat64.lt b a

/-- The Go comparison `a <= b`: false when either is NaN. -/
def GoFloat64.le : GoFloat64 → GoFloat64 → Bool
  | .finite x, .finite y => decide (x ≤ y)
  | .finite _, .posInf => true
  | .negInf, .finite _ => true
  | .negInf, .posInf => true
  | .negInf, .negInf => true
  | .posInf, .posInf => true
  | _, _ => false

/-- A Go value of the interface type `any`, by its dynamic type: a `float64`, or a value of
one of the other types a criteria mapping can hold. -/
inductive GoAny where
  | float64 (x : GoFloat64)
  | int (n : Int)
  | string (s : String)
  | bool (b : Bool)
  | nil
  deriving DecidableEq, Repr

end internal

namespace repository

open internal

/-- The Go type `map[string]any`. The functions below only read the mapping (`len` and the
comma-ok index), for which a nil map is the empty map. -/
abbrev Query := AList (fun _ : String => GoAny)

/-- The two steps `v, ok := query[key]` and `f, ok := v.(float64)`: the float under `key`,
or `none` when either `ok` is false. -/
def Query.float64At (query : Query) (key : String) : Option GoFloat64 :=
  match query.lookup key with
  | none => none
  | some (.float64 x) => some x
  | some _ => none

namespace VehicleMap

/-- The loop of `FindQuery` over the entries still to visit, `vehicles` being the result map
so far. The four failing branches of each step all set `ErrInvalidQuery` and return. The
call of `fmt.Println` is left out. -/
def FindQueryLoop (query : Query) (querySet : Bool) :
    List (Sigma fun _ : Int => Vehicle) → Table → Table × Option GoError
  | [], vehicles => (vehicles, none)
  | ⟨id, item⟩ :: rest, vehicles =>
    if querySet then
      match query.float64At "min_length", query.float64At "max_length",
          query.float64At "min_width", query.float64At "max_width" with
      | some minLengthFloat, some maxLengthFloat, some minWidthFloat, some maxWidthFloat =>
        if GoFloat64.lt (.finite item.Height) minLengthFloat ||
            GoFloat64.gt (.finite item.Height) maxLengthFloat ||
            GoFloat64.lt (.finite item.Width) minWidthFloat ||
            GoFloat64.gt (.finite item.Width) maxWidthFloat then
          FindQueryLoop query querySet rest vehicles
        else FindQueryLoop query querySet rest (vehicles.insert id item)
      | _, _, _, _ => (vehicles, some ErrInvalidQuery)
    else FindQueryLoop query querySet rest (vehicles.insert id item)

/-- `FindQuery`. -/
def FindQuery (r : VehicleMap) (query : Query) : Table × Option GoError :=
  let vehicles : Table := ∅
  let querySet := decide (query.entries.length > 0)
  FindQueryLoop query querySet r.db.entries vehicles

/-- The loop of `FilterByWeight`, as `FindQueryLoop`. -/
def FilterByWeightLoop (query : Query) (querySet : Bool) :
    List (Sigma fun _ : Int => Vehicle) → Table → Table × Option GoError
  | [], vehicles => (vehicles, none)
  | ⟨id, item⟩ :: rest, vehicles =>
    if querySet then
      match query.float64At "weight_min", query.float64At "weight_max" with
      | some weightMinFloat, some weightMaxFloat =>
        if GoFloat64.lt (.finite item.Weight) weightMinFloat ||
            GoFloat64.gt (.finite item.Weight) weightMaxFloat then
          FilterByWeightLoop query querySet rest vehicles
        else FilterByWeightLoop query querySet rest (vehicles.insert id item)
      | _, _ => (vehicles, some ErrInvalidQuery)
    else FilterByWeightLoop query querySet rest (vehicles.insert id item)

/-- `FilterByWeight`. -/
def FilterByWeight (r : VehicleMap) (query : Query) : Table × Option GoError :=
  let vehicles : Table := ∅
  let querySet := decide (query.entries.length > 0)
  FilterByWeightLoop query querySet r.db.entries vehicles

/-- The loop of `VelocityAveragebyBrand`: the state is the map `vehicle`, the running sum
`velocity` and the result `average`. -/
def VelocityAverageLoop (rnd : ℚ → ℚ) (brand : String) :
    List (Sigma fun _ : Int => Vehicle) → Table × ℚ × ℚ → Table × ℚ × ℚ
  | [], st => st
  | ⟨key, value⟩ :: rest, (vehicle, velocity, average) =>
    if value.Brand = brand then
      let vehicle := vehicle.insert key value
      let velocity := rnd (velocity + value.MaxSpeed)
      let average := rnd (velocity / rnd (vehicle.entries.length : ℚ))
      VelocityAverageLoop rnd brand rest (vehicle, velocity, average)
    else VelocityAverageLoop rnd brand rest (vehicle, velocity, average)

/-- `VelocityAveragebyBrand`, with the rounding `rnd` of float64 arithmetic. -/
def VelocityAveragebyBrand (r : VehicleMap) (rnd : ℚ → ℚ) (brand : String) :
    ℚ × Option GoError :=
  match VelocityAverageLoop rnd brand r.db.entries (∅, 0, 0) with
  | (vehicle, _, average) =>
    if vehicle.entries.length = 0 then (average, some ErrorNotFound) else (average, none)

/-- The loop of `CapacityAveragebyBrand`: as `VelocityAverageLoop`, the term added being
`float64(value.Capacity)`. -/
def CapacityAverageLoop (rnd : ℚ → ℚ) (brand : String) :
    List (Sigma fun _ : Int => Vehicle) → Table × ℚ × ℚ → Table × ℚ × ℚ
  | [], st => st
  | ⟨key, value⟩ :: rest, (vehicle, capacity, average) =>
    if value.Brand = brand then
      let vehicle := vehicle.insert key value
      let capacity := rnd (capacity + rnd (value.Capacity : ℚ))
      let average := rnd (capacity / rnd (vehicle.entries.length : ℚ))
      CapacityAverageLoop rnd brand rest (vehicle, capacity, average)
    else CapacityAverageLoop rnd brand rest (vehicle, capacity, average)

/-- `CapacityAveragebyBrand`, with the rounding `rnd` of float64 arithmetic. -/
def CapacityAveragebyBrand (r : VehicleMap) (rnd : ℚ → ℚ) (brand : String) :
    ℚ × Option GoError :=
  match CapacityAverageLoop rnd brand r.db.entries (∅, 0, 0) with
  | (vehicle, _, average) =>
    if vehicle.entries.length = 0 then (average, some ErrorNotFound) else (average, none)

/-- What the loops of `FindQuery` and `FilterByWeight` build when no step fails: the entries
whose vehicle passes `keep`, written one by one into `vehicles`. -/
def collect (keep : Vehicle → Bool) :
    List (Sigma fun _ : Int => Vehicle) → Table → Table
  | [], vehicles => vehicles
  | ⟨id, item⟩ :: rest, vehicles =>
    if keep item then collect keep rest (vehicles.insert id item)
    else collect keep rest vehicles

/-- The common shape of the loops of the two averages, `term` being the float that a
vehicle adds to the running sum. -/
def averageLoop (rnd : ℚ → ℚ) (brand : String) (term : Vehicle → ℚ) :
    List (Sigma fun _ : Int => Vehicle) → Table × ℚ × ℚ → Table × ℚ × ℚ
  | [], st => st
  | ⟨key, value⟩ :: rest, (vehicle, total, average) =>
    if value.Brand = brand then
      averageLoop rnd brand term rest
        (vehicle.insert key value, rnd (total + term value),
          rnd (rnd (total + term value) / rnd ((vehicle.insert key value).entries.length : ℚ)))
    else averageLoop rnd brand term rest (vehicle, total, average)

/-- The live vehicles of a brand, in the order the table is visited. -/
def ofBrand (r : VehicleMap) (brand : String) : List Vehicle :=
  (r.db.entries.filter (fun kv => kv.2.Brand = brand)).map (fun kv => kv.2)

/-- A float64 sum: the terms added one by one from `0`, each addition rounded. -/
def roundedSum (rnd : ℚ → ℚ) (terms : List ℚ) : ℚ :=
  terms.foldl (fun acc x => rnd (acc + x)) 0

end VehicleMap

end repository

/-! ## The other reads of the store, and the reads of the service -/

namespace repository

open internal

namespace VehicleMap

/-- `FindAll`, by value: a new map, filled with every entry of the table.
`VehicleMapRef.FindAll` is the same method on a heap of map objects. -/
def FindAll (r : VehicleMap) : Table × Option GoError :=
  (collect (fun _ => true) r.db.entries ∅, none)

/-- `FindByColorAndYear`. -/
def FindByColorAndYear (r : VehicleMap) (color : String) (year : Int) :
    Table × Option GoError :=
  let vehicle := collect (fun value => value.FabricationYear = year ∧ value.Color = color)
    r.db.entries ∅
  if vehicle.entries.length = 0 then (vehicle, some ErrorNotFound) else (vehicle, none)

/-- `FindByBrandAndYearRange`, the array `yearRange` being the pair of its two elements. -/
def FindByBrandAndYearRange (r : VehicleMap) (brand : String) (yearRange : Int × Int) :
    Table × Option GoError :=
  let vehicle := collect
    (fun value => value.FabricationYear ≥ yearRange.1 ∧ value.FabricationYear ≤ yearRange.2 ∧
      value.Brand = brand) r.db.entries ∅
  if vehicle.entries.length = 0 then (vehicle, some ErrorNotFound) else (vehicle, none)

/-- `FindByFuelType`. -/
def FindByFuelType (r : VehicleMap) (fuelType : String) : Table × Option GoError :=
  let vehicle := collect (fun value => value.FuelType = fuelType) r.db.entries ∅
  if vehicle.entries.length = 0 then (vehicle, some ErrorNotFound) else (vehicle, none)

/-- `FindByTransmission`. -/
def FindByTransmission (r : VehicleMap) (transmission : String) : Table × Option GoError :=
  let vehicle := collect (fun value => value.Transmission = transmission) r.db.entries ∅
  if vehicle.entries.length = 0 then (vehicle, some ErrorNotFound) else (vehicle, none)

end VehicleMap

end repository

namespace service

open internal repository

/-- The `switch err` of the service methods with its single `case`: an error equal to
`target` is replaced by `fmt.Errorf("%w" ++ sep ++ "%s", wrapper, err.Error())`, any
other error is returned as it is. -/
def translate (err target wrapper : GoError) (sep : String) : GoError :=
  if err = target then Errorf wrapper (sep ++ err.Error) else err

namespace VehicleDefault

/-- The service `FindAll`. -/
def FindAll (s : VehicleDefault) : Table × Option GoError :=
  s.rp.FindAll

/-- The service `GetByID`. -/
def GetByID (s : VehicleDefault) (id : Int) : Vehicle × Option GoError :=
  match s.rp.GetbyID id with
  | (vehicle, some err) => (vehicle, some (translate err ErrorNotFound ErrNotFound ": "))
  | (vehicle, none) => (vehicle, none)

/-- The service `FindByColorAndYear`. -/
def FindByColorAndYear (s : VehicleDefault) (color : String) (year : Int) :
    Table × Option GoError :=
  match s.rp.FindByColorAndYear color year with
  | (vehicle, some err) => (vehicle, some (translate err ErrorNotFound ErrNotFound ": "))
  | (vehicle, none) => (vehicle, none)

/-- The service `FindByBrandAndYearRange`. -/
def FindByBrandAndYearRange (s : VehicleDefault) (brand : String) (yearRange : Int × Int) :
    Table × Option GoError :=
  match s.rp.FindByBrandAndYearRange brand yearRange with
  | (vehicle, some err) => (vehicle, some (translate err ErrorNotFound ErrNotFound ": "))
  | (vehicle, none) => (vehicle, none)

/-- The service `VelocityAveragebyBrand`. -/
def VelocityAveragebyBrand (s : VehicleDefault) (rnd : ℚ → ℚ) (brand : String) :
    ℚ × Option GoError :=
  match s.rp.VelocityAveragebyBrand rnd brand with
  | (average, some err) => (average, some (translate err ErrorNotFound ErrNotFound ": "))
  | (average, none) => (average, none)

/-- The service `FindByFuelType`. -/
def FindByFuelType (s : VehicleDefault) (fueltype : String) : Table × Option GoError :=
  match s.rp.FindByFuelType fueltype with
  | (vehicle, some err) =>
    (vehicle, some (translate err ErrorNotFound ErrNotFound ":FuelType"))
  | (vehicle, none) => (vehicle, none)

/-- The service `FindByTransmission`. -/
def FindByTransmission (s : VehicleDefault) (transmission : String) : Table × Option GoError :=
  match s.rp.FindByTransmission transmission with
  | (vehicle, some err) =>
    (vehicle, some (translate err ErrorNotFound ErrNotFound ":Transmission"))
  | (vehicle, none) => (vehicle, none)

/-- The service `CapacityAveragebyBrand`. -/
def CapacityAveragebyBrand (s : VehicleDefault) (rnd : ℚ → ℚ) (brand : String) :
    ℚ × Option GoError :=
  match s.rp.CapacityAveragebyBrand rnd brand with
  | (average, some err) => (average, some (translate err ErrorNotFound ErrNotFound ": "))
  | (average, none) => (average, none)

/-- The service `FindQuery`. -/
def FindQuery (s : VehicleDefault) (query : Query) : Table × Option GoError :=
  match s.rp.FindQuery query with
  | (vehicle, some err) => (vehicle, some (translate err ErrInvalidQuery ErrNotFound ": "))
  | (vehicle, none) => (vehicle, none)

/-- The service `FilterByWeight`. -/
def FilterByWeight (s : VehicleDefault) (query : Query) : Table × Option GoError :=
  match s.rp.FilterByWeight query with
  | (vehicle, some err) => (vehicle, some (translate err ErrInvalidQuery ErrNotFound ": "))
  | (vehicle, none) => (vehicle, none)

end VehicleDefault

end service

namespace service

open internal

/-- What a read of the service makes of the result of the store: without error the result
is handed on as it is; with an error, which is `ErrorNotFound` or `ErrInvalidQuery`, the
value is handed on and the error returned is one that `errors.Is` finds to wrap
`ErrNotFound`. -/
def HandsOn {α : Type} (store service : α × Option GoError) : Prop :=
  (store.2 = none → service = (store.1, none)) ∧
  (∀ err, store.2 = some err →
    (err = ErrorNotFound ∨ err = ErrInvalidQuery) ∧ service.1 = store.1 ∧
    ∃ e, service.2 = some e ∧ errorsIs e .ErrNotFound = true)

end service

/-! ## The rounding of float64 arithmetic -/

namespace float64

/-- The power `2 ^ e` for an integer exponent. -/
def pow2 : Int → ℚ
  | Int.ofNat n => ((2 ^ n : Nat) : ℚ)
  | Int.negSucc n => 1 / ((2 ^ (n + 1) : Nat) : ℚ)

/-- The integer part of the binary logarithm of a positive natural number, by halving;
`fuel` bounds the number of halvings and any `fuel ≥ n` is enough. -/
def log2Halving : Nat → Nat → Nat
  | 0, _ => 0
  | fuel + 1, n => if n < 2 then 0 else log2Halving fuel (n / 2) + 1

/-- The integer part of the binary logarithm of a positive rational. -/
def ilog2 (a : ℚ) : Int :=
  let e0 : Int :=
    (log2Halving a.num.natAbs a.num.natAbs : Int) - (log2Halving a.den a.den : Int)
  if pow2 e0 ≤ a then e0 else e0 - 1

/-- The integer nearest to a non-negative rational, a tie going to the even one. -/
def roundHalfEven (x : ℚ) : Int :=
  let f : Int := x.floor
  if x - f < 1 / 2 then f
  else if x - f > 1 / 2 then f + 1
  else if f % 2 = 0 then f else f + 1

/-- The float64 nearest to a rational, as Go rounds the result of every float64 operation
and the decimal literal of a JSON number: IEEE 754 binary64, round to nearest, ties to
even, with 53 significant bits, and fewer below `2^-1022`, where the floats are `2^-1074`
apart. The exponent is not bounded above here: a result beyond the largest float64 is what
`ofRat` turns into an infinity. -/
def round (q : ℚ) : ℚ :=
  if q = 0 then 0
  else
    let a := |q|
    let ulp := pow2 (max (ilog2 a - 52) (-1074))
    let m := roundHalfEven (a / ulp)
    if q < 0 then -((m : ℚ) * ulp) else (m : ℚ) * ulp

open internal

/-- The largest finite float64, `math.MaxFloat64 = (2^53 - 1) * 2^971`. -/
def maxFloat : ℚ := (((2 ^ 53 - 1) * 2 ^ 971 : Nat) : ℚ)

/-- The float64 result of an operation whose exact result is `q`: `q` rounded, and an
infinity when the rounded value is beyond the largest float64. -/
def ofRat (q : ℚ) : GoFloat64 :=
  if maxFloat < round q then .posInf
  else if round q < -maxFloat then .negInf
  else .finite (round q)

/-- The conversion `float64(n)` of an integer. -/
def ofInt (n : Int) : GoFloat64 := ofRat (n : ℚ)

/-- The float64 addition `a + b`. -/
def add : GoFloat64 → GoFloat64 → GoFloat64
  | .finite x, .finite y => ofRat (x + y)
  | .nan, _ => .nan
  | _, .nan => .nan
  | .posInf, .negInf => .nan
  | .negInf, .posInf => .nan
  | .posInf, _ => .posInf
  | _, .posInf => .posInf
  | .negInf, _ => .negInf
  | _, .negInf => .negInf

/-- The float64 division `a / b`. A zero divisor is taken as `+0`, the only zero that the
conversion of an integer gives. -/
def div : GoFloat64 → GoFloat64 → GoFloat64
  | .finite x, .finite y =>
    if y = 0 then (if x = 0 then .nan else if 0 < x then .posInf else .negInf)
    else ofRat (x / y)
  | .nan, _ => .nan
  | _, .nan => .nan
  | .finite _, .posInf => .finite 0
  | .finite _, .negInf => .finite 0
  | .posInf, .finite y => if y < 0 then .negInf else .posInf
  | .negInf, .finite y => if y < 0 then .posInf else .negInf
  | .posInf, .posInf => .nan
  | .posInf, .negInf => .nan
  | .negInf, .posInf => .nan
  | .negInf, .negInf => .nan

end float64

/-! ## The averages in float64 arithmetic

The two averages once more, with the float64 operations of `float64.add`, `float64.div` and
`float64.ofInt` in place of a rounding parameter: the running sum can reach an infinity. -/

namespace repository

open internal

namespace VehicleMap

/-- The loop of `VelocityAveragebyBrand`: the state is the map `vehicle`, the running sum
`velocity` and the result `average`. -/
def VelocityAverageLoop64 (brand : String) :
    List (Sigma fun _ : Int => Vehicle) → Table × GoFloat64 × GoFloat64 →
      Table × GoFloat64 × GoFloat64
  | [], st => st
  | ⟨key, value⟩ :: rest, (vehicle, velocity, average) =>
    if value.Brand = brand then
      let vehicle := vehicle.insert key value
      let velocity := float64.add velocity (.finite value.MaxSpeed)
      let average := float64.div velocity (float64.ofInt (vehicle.entries.length : Int))
      VelocityAverageLoop64 brand rest (vehicle, velocity, average)
    else VelocityAverageLoop64 brand rest (vehicle, velocity, average)

/-- `VelocityAveragebyBrand` in float64 arithmetic. -/
def VelocityAveragebyBrand64 (r : VehicleMap) (brand : String) : GoFloat64 × Option GoError :=
  match VelocityAverageLoop64 brand r.db.entries (∅, .finite 0, .finite 0) with
  | (vehicle, _, average) =>
    if vehicle.entries.length = 0 then (average, some ErrorNotFound) else (average, none)

/-- The loop of `CapacityAveragebyBrand`: as `VelocityAverageLoop64`, the term added being
`float64(value.Capacity)`. -/
def CapacityAverageLoop64 (brand : String) :
    List (Sigma fun _ : Int => Vehicle) → Table × GoFloat64 × GoFloat64 →
      Table × GoFloat64 × GoFloat64
  | [], st => st
  | ⟨key, value⟩ :: rest, (vehicle, capacity, average) =>
    if value.Brand = brand then
      let vehicle := vehicle.insert key value
      let capacity := float64.add capacity (float64.ofInt value.Capacity)
      let average := float64.div capacity (float64.ofInt (vehicle.entries.length : Int))
      CapacityAverageLoop64 brand rest (vehicle, capacity, average)
    else CapacityAverageLoop64 brand rest (vehicle, capacity, average)

/-- `CapacityAveragebyBrand` in float64 arithmetic. -/
def CapacityAveragebyBrand64 (r : VehicleMap) (brand : String) : GoFloat64 × Option GoError :=
  match CapacityAverageLoop64 brand r.db.entries (∅, .finite 0, .finite 0) with
  | (vehicle, _, average) =>
    if vehicle.entries.length = 0 then (average, some ErrorNotFound) else (average, none)

/-- The common shape of the two loops, `term` being the float that a vehicle adds to the
running sum. -/
def averageLoop64 (brand : String) (term : Vehicle → GoFloat64) :
    List (Sigma fun _ : Int => Vehicle) → Table × GoFloat64 × GoFloat64 →
      Table × GoFloat64 × GoFloat64
  | [], st => st
  | ⟨key, value⟩ :: rest, (vehicle, total, average) =>
    if value.Brand = brand then
      averageLoop64 brand term rest
        (vehicle.insert key value, float64.add total (term value),
          float64.div (float64.add total (term value))
            (float64.ofInt ((vehicle.insert key value).entries.length : Int)))
    else averageLoop64 brand term rest (vehicle, total, average)

/-- A float64 sum: the terms added one by one from `0`, in list order. -/
def sum64 (terms : List GoFloat64) : GoFloat64 :=
  terms.foldl float64.add (.finite 0)

end VehicleMap

end repository

/-! ## The keys of the table and the id counter -/

namespace repository

open internal

namespace VehicleMap

/-- Every key of the table holds a vehicle whose `Id` is the key. -/
def IdIsKey (r : VehicleMap) : Prop :=
  ∀ k v, r.db.lookup k = some v → v.Id = k

/-- Every key holds a vehicle with that `Id`, and every key is at most the id counter. -/
def WellKeyed (r : VehicleMap) : Prop :=
  r.IdIsKey ∧ r.KeysLeCounter

/-- The number of live vehicles, `len(r.db)`. -/
def size (r : VehicleMap) : Nat :=
  r.db.entries.length

end VehicleMap

end repository

/-! ## Maps as references

A Go map value is a reference to a map object: two variables can hold the same reference,
and a write through one is then seen through the other. Where this matters, the map objects
live in a heap and a map value is an address in it. -/

namespace repository

open internal

/-- The map objects that exist, the object at address `a` being the element of index
`a`. -/
abbrev Heap := List Table

namespace Heap

/-- `make(map[int]internal.Vehicle)`: the heap with a new empty map object, and its
address. -/
def make (heap : Heap) : Heap × Nat :=
  (heap ++ [∅], heap.length)

/-- The map object at an address, if there is one. -/
def read (heap : Heap) (a : Nat) : Option Table :=
  heap[a]?

/-- `m[key] = value` for the map value `m` of address `a`. -/
def assign (heap : Heap) (a : Nat) (key : Int) (value : Vehicle) : Heap :=
  match heap[a]? with
  | some m => heap.set a (m.insert key value)
  | none => heap

/-- `delete(m, key)` for the map value `m` of address `a`. -/
def delete (heap : Heap) (a : Nat) (key : Int) : Heap :=
  match heap[a]? with
  | some m => heap.set a (m.erase key)
  | none => heap

end Heap

/-- The struct `VehicleMap`, its field `db` being the address of a map object. -/
structure VehicleMapRef where
  db : Nat
  lastId : Int
  deriving DecidableEq

/-- What a call of `FindAll` leaves: the heap, the receiver, the map value `v` and the
error. -/
structure FindAllResult where
  heap : Heap
  r : VehicleMapRef
  v : Nat
  err : Option GoError

namespace VehicleMapRef

/-- The store as a value: the table is the map object that `db` refers to. -/
def deref (r : VehicleMapRef) (heap : Heap) : Option VehicleMap :=
  match heap.read r.db with
  | some db => some { db := db, lastId := r.lastId }
  | none => none

/-- The loop of `FindAll` over the entries still to visit: each is written into the map of
address `v`. -/
def FindAllLoop (v : Nat) : List (Sigma fun _ : Int => Vehicle) → Heap → Heap
  | [], heap => heap
  | ⟨key, value⟩ :: rest, heap => FindAllLoop v rest (heap.assign v key value)

/-- `FindAll`, on a heap. The entries of `r.db` are read when the loop starts, which is
what `range` visits as long as the loop does not write to `r.db`. -/
def FindAll (r : VehicleMapRef) (heap : Heap) : FindAllResult :=
  let db : Table := (heap.read r.db).getD ∅
  match heap.make with
  | (heap, v) => { heap := FindAllLoop v db.entries heap, r := r, v := v, err := none }

end VehicleMapRef

end repository

/-! ## Sample data -/

namespace sample

open internal repository

def corolla : Vehicle :=
  { Id := 0, Brand := "Toyota", Model := "Corolla", Registration := "ABC123", Color := "red",
    FabricationYear := 2020, Capacity := 5, MaxSpeed := 180, FuelType := "gasoline",
    Transmission := "manual", Weight := 1300, Height := 1.4, Length := 4.6, Width := 1.8 }

def civic : Vehicle :=
  { Id := 0, Brand := "Honda", Model := "Civic", Registration := "XYZ789", Color := "blue",
    FabricationYear := 2019, Capacity := 5, MaxSpeed := 200, FuelType := "gasoline",
    Transmission := "automatic", Weight := 1250, Height := 1.4, Length := 4.5, Width := 1.8 }

/-- The vehicle `corolla` with `max_speed` zero, every other attribute as before. -/
def corollaNoSpeed : Vehicle := { corolla with MaxSpeed := 0 }

/-- A vehicle with no attribute set. -/
def blank : Vehicle := Vehicle.zero

def camry : Vehicle :=
  { Id := 0, Brand := "Toyota", Model := "Camry", Registration := "CAM456", Color := "white",
    FabricationYear := 2021, Capacity := 4, MaxSpeed := 175, FuelType := "hybrid",
    Transmission := "automatic", Weight := 1500, Height := 1.5, Length := 4.9, Width := 1.9 }

/-- The criteria mapping `{min_length: 1.0}`. -/
def onlyMinLength : Query := AList.singleton "min_length" (GoAny.float64 (.finite 1))

/-- The criteria mapping `{weight_min: 1000.0}`. -/
def onlyWeightMin : Query := AList.singleton "weight_min" (GoAny.float64 (.finite 1000))

/-- The criteria mapping `{min_length: 1.45, max_length: 2.0, min_width: 1.0, max_width: 2.0}`. -/
def tallOnes : Query :=
  (((AList.singleton "min_length" (GoAny.float64 (.finite 1.45))).insert "max_length"
    (GoAny.float64 (.finite 2))).insert "min_width" (GoAny.float64 (.finite 1))).insert
    "max_width" (GoAny.float64 (.finite 2))

/-- The criteria mapping `{min_length: NaN, max_length: 2.0, min_width: 1.0, max_width: 2.0}`,
which the handler builds from the query string `min_length=NaN&max_length=2&...`. -/
def nanMinLength : Query :=
  (((AList.singleton "min_length" (GoAny.float64 .nan)).insert "max_length"
    (GoAny.float64 (.finite 2))).insert "min_width" (GoAny.float64 (.finite 1))).insert
    "max_width" (GoAny.float64 (.finite 2))

/-- The criteria mapping `{weight_min: NaN, weight_max: NaN}`. -/
def nanWeights : Query :=
  (AList.singleton "weight_min" (GoAny.float64 .nan)).insert "weight_max" (GoAny.float64 .nan)

/-- The criteria mapping `{weight_min: 1000.0, weight_max: 1300.0}`. -/
def lightOnes : Query :=
  (AList.singleton "weight_min" (GoAny.float64 (.finite 1000))).insert "weight_max"
    (GoAny.float64 (.finite 1300))

/-- A store with no vehicle and counter `0`. -/
def emptyStore : VehicleMap := NewVehicleMap none 0

/-- The store reached from the empty one by saving `corolla` (id 1) and `civic` (id 2) and
then updating the vehicle of id 2 to the attributes of `corolla`. -/
def twoCorollas : VehicleMap :=
  emptyStore.run [.save corolla, .save civic, .updateVehicle { corolla with Id := 2 }]

/-- The store reached from the empty one by saving `corolla` (id 1), `civic` (id 2) and
`camry` (id 3). -/
def garage : VehicleMap :=
  emptyStore.run [.save corolla, .save civic, .save camry]

/-- The vehicle of the scenario of section 8 of the specification: the six attributes the
scenario lists, every other attribute at its zero value. -/
def scenarioVehicle : Vehicle :=
  { Vehicle.zero with
    Brand := "Toyota", Model := "Corolla", FabricationYear := 2020, Capacity := 5,
    Transmission := "manual", MaxSpeed := 180 }

/-- The scenario vehicle given a color, with the id 1. -/
def scenarioSaved (color : String) : Vehicle :=
  { scenarioVehicle with Color := color, Id := 1 }

/-- The service after it saved, on the empty store, the scenario vehicle given a color. -/
def scenarioService (color : String) : service.VehicleDefault :=
  ((service.VehicleDefault.mk emptyStore).Save { scenarioVehicle with Color := color }).1

/-- Three vehicles of one brand whose maximum speeds are the float64 values of the JSON
numbers `180.5`, `150.1` and `150.3` (`float64.round` of these decimals). -/
def fast : Vehicle := { corolla with Id := 1, MaxSpeed := 361 / 2 }

def medium : Vehicle :=
  { corolla with Id := 2, Model := "Yaris", MaxSpeed := 5281174250533683 / 35184372088832 }

def slow : Vehicle :=
  { corolla with Id := 3, Model := "Hilux", MaxSpeed := 2644105562475725 / 17592186044416 }

/-- A table of the three vehicles, visited in the order of the ids 3, 2, 1. -/
def fleet : Table :=
  (((∅ : Table).insert 1 fast).insert 2 medium).insert 3 slow

/-- The same table, visited in the order of the ids 1, 2, 3. -/
def fleetReordered : Table :=
  (((∅ : Table).insert 3 slow).insert 2 medium).insert 1 fast

/-- A table of two vehicles of one brand whose maximum speed is the largest float64. -/
def rockets : Table :=
  ((∅ : Table).insert 1 { corolla with Id := 1, MaxSpeed := float64.maxFloat }).insert 2
    { corolla with Id := 2, Model := "Yaris", MaxSpeed := float64.maxFloat }

/-- A table of one vehicle whose capacity is `2^53 + 1`. -/
def bus : Table :=
  (∅ : Table).insert 1 { corolla with Id := 1, Capacity := 9007199254740993 }

/-- A heap whose only map object is the table of `garage`. -/
def garageHeap : Heap := [garage.db]

/-- The store `garage` on `garageHeap`: its table is the map object of address 0. -/
def garageRef : VehicleMapRef := { db := 0, lastId := 3 }

/-- The store `NewVehicleMap(db, math.MaxInt64)` for a table `db` that holds `corolla`
under key 5. -/
def fullCounter : VehicleMap :=
  NewVehicleMap (some (AList.singleton 5 { corolla with Id := 5 })) int64.maxInt

/-- The store `NewVehicleMap(db, math.MaxInt64)` for a table `db` that holds `corolla`
under the key `math.MinInt64`. -/
def lowestKey : VehicleMap :=
  NewVehicleMap (some (AList.singleton int64.minInt { corolla with Id := int64.minInt }))
    int64.maxInt

/-- The store `NewVehicleMap(db, 0)` for a table `db` that holds `corolla` under key 1:
the counter is below a live key. -/
def staleCounter : VehicleMap :=
  NewVehicleMap (some (AList.singleton 1 { corolla with Id := 1 })) 0

end sample

/-! ## Theorems -/

namespace repository

open internal

namespace VehicleMap

theorem Save_of_any {r : VehicleMap} {e : Vehicle}
    (h : r.db.entries.any (fun kv => sameKey kv.2 e) = true) :
    r.Save e = (r, e, some ErrAlreadyExists) := by
  simp only [Save, h, if_true]

theorem Save_of_not_any {r : VehicleMap} {e : Vehicle}
    (h : r.db.entries.any (fun kv => sameKey kv.2 e) = false) :
    r.Save e = ({ db := r.db.insert (r.lastId + 1) { e with Id := r.lastId + 1 },
                  lastId := r.lastId + 1 }, { e with Id := r.lastId + 1 }, none) := by
  simp [Save, h]

theorem Save_cases (r : VehicleMap) (e : Vehicle) :
    (r.db.entries.any (fun kv => sameKey kv.2 e) = true ∧
      r.Save e = (r, e, some ErrAlreadyExists)) ∨
    (r.db.entries.any (fun kv => sameKey kv.2 e) = false ∧
      r.Save e = ({ db := r.db.insert (r.lastId + 1) { e with Id := r.lastId + 1 },
                    lastId := r.lastId + 1 }, { e with Id := r.lastId + 1 }, none)) := by
  cases h : r.db.entries.any (fun kv => sameKey kv.2 e)
  · exact Or.inr ⟨rfl, Save_of_not_any h⟩
  · exact Or.inl ⟨rfl, Save_of_any h⟩

theorem UpdateVehicle_lastId (r : VehicleMap) (v : Vehicle) :
    (r.UpdateVehicle v).1.lastId = r.lastId := by
  unfold UpdateVehicle; split <;> rfl

theorem Delete_lastId (r : VehicleMap) (id : Int) : (r.Delete id).1.lastId = r.lastId := by
  unfold Delete; split <;> rfl

theorem Save_lastId_le (r : VehicleMap) (e : Vehicle) : r.lastId ≤ (r.Save e).1.lastId := by
  rcases Save_cases r e with ⟨_, hs⟩ | ⟨_, hs⟩ <;> simp [hs]

theorem SaveMany_cons_of_ok {r : VehicleMap} {e : Vehicle} {vs : List Vehicle}
    (h : (r.Save e).2.2 = none) : r.SaveMany (e :: vs) = (r.Save e).1.SaveMany vs := by
  rcases hr : r.Save e with ⟨r1, e1, err⟩
  rw [hr] at h
  simp only at h; subst h
  simp [SaveMany, hr]

theorem SaveMany_cons_of_err {r : VehicleMap} {e : Vehicle} {vs : List Vehicle} (err : GoError)
    (h : (r.Save e).2.2 = some err) : r.SaveMany (e :: vs) = ((r.Save e).1, some err) := by
  rcases hr : r.Save e with ⟨r1, e1, err1⟩
  rw [hr] at h
  simp only at h; subst h
  simp [SaveMany, hr]

theorem savedIdsMany_cons_of_ok {r : VehicleMap} {e : Vehicle} {vs : List Vehicle}
    (h : (r.Save e).2.2 = none) :
    r.savedIdsMany (e :: vs) = (r.Save e).2.1.Id :: (r.Save e).1.savedIdsMany vs := by
  rcases hr : r.Save e with ⟨r1, e1, err⟩
  rw [hr] at h
  simp only at h; subst h
  simp [savedIdsMany, hr]

theorem savedIdsMany_cons_of_err {r : VehicleMap} {e : Vehicle} {vs : List Vehicle}
    (err : GoError) (h : (r.Save e).2.2 = some err) : r.savedIdsMany (e :: vs) = [] := by
  rcases hr : r.Save e with ⟨r1, e1, err1⟩
  rw [hr] at h
  simp only at h; subst h
  simp [savedIdsMany, hr]

theorem SaveMany_lastId_le (vs : List Vehicle) :
    ∀ r : VehicleMap, r.lastId ≤ (r.SaveMany vs).1.lastId := by
  induction vs with
  | nil => intro r; simp [SaveMany]
  | cons e vs ih =>
    intro r
    rcases Save_cases r e with ⟨_, hs⟩ | ⟨_, hs⟩
    · rw [SaveMany_cons_of_err ErrAlreadyExists (by rw [hs]), hs]
    · rw [SaveMany_cons_of_ok (by rw [hs])]
      exact le_trans (Save_lastId_le r e) (ih _)

theorem step_lastId_le (r : VehicleMap) (op : Op) : r.lastId ≤ (r.step op).lastId := by
  cases op with
  | save e => exact Save_lastId_le r e
  | saveMany vs => exact SaveMany_lastId_le vs r
  | updateVehicle v => exact le_of_eq (UpdateVehicle_lastId r v).symm
  | delete id => exact le_of_eq (Delete_lastId r id).symm

/-- The ids written during `SaveMany` increase, lie above the counter before the call and
at most at the counter after it. -/
theorem savedIdsMany_bounds (vs : List Vehicle) :
    ∀ r : VehicleMap, (r.savedIdsMany vs).Pairwise (· < ·) ∧
      ∀ i ∈ r.savedIdsMany vs, r.lastId < i ∧ i ≤ (r.SaveMany vs).1.lastId := by
  induction vs with
  | nil => intro r; simp [savedIdsMany]
  | cons e vs ih =>
    intro r
    rcases Save_cases r e with ⟨_, hs⟩ | ⟨_, hs⟩
    · rw [savedIdsMany_cons_of_err ErrAlreadyExists (by rw [hs])]; simp
    · have hok : (r.Save e).2.2 = none := by rw [hs]
      rw [savedIdsMany_cons_of_ok hok, SaveMany_cons_of_ok hok]
      obtain ⟨hp, hb⟩ := ih (r.Save e).1
      have hid : (r.Save e).2.1.Id = r.lastId + 1 := by rw [hs]
      have hl : (r.Save e).1.lastId = r.lastId + 1 := by rw [hs]
      refine ⟨List.pairwise_cons.2 ⟨fun i hi => ?_, hp⟩, fun i hi => ?_⟩
      · have := (hb i hi).1; omega
      · rcases List.mem_cons.1 hi with rfl | hi
        · have := SaveMany_lastId_le vs (r.Save e).1
          omega
        · have := hb i hi; omega

theorem savedIds_bounds (r : VehicleMap) (op : Op) :
    (r.savedIds op).Pairwise (· < ·) ∧
      ∀ i ∈ r.savedIds op, r.lastId < i ∧ i ≤ (r.step op).lastId := by
  cases op with
  | save e =>
    rcases Save_cases r e with ⟨_, hs⟩ | ⟨_, hs⟩
    · simp [savedIds, hs]
    · simp [savedIds, step, hs]
  | saveMany vs => exact savedIdsMany_bounds vs r
  | updateVehicle v => simp [savedIds]
  | delete id => simp [savedIds]

theorem assigned_gt (ops : List Op) :
    ∀ r : VehicleMap, ∀ i ∈ r.assigned ops, r.lastId < i := by
  induction ops with
  | nil => intro r i hi; simp [assigned] at hi
  | cons op ops ih =>
    intro r i hi
    simp only [assigned, List.mem_append] at hi
    rcases hi with hi | hi
    · exact ((savedIds_bounds r op).2 i hi).1
    · exact lt_of_le_of_lt (step_lastId_le r op) (ih _ i hi)

theorem assigned_pairwise (ops : List Op) :
    ∀ r : VehicleMap, (r.assigned ops).Pairwise (· < ·) := by
  induction ops with
  | nil => intro r; simp [assigned]
  | cons op ops ih =>
    intro r
    simp only [assigned]
    refine List.pairwise_append.2 ⟨(savedIds_bounds r op).1, ih _, fun i hi j hj => ?_⟩
    exact lt_of_le_of_lt ((savedIds_bounds r op).2 i hi).2 (assigned_gt ops _ j hj)

theorem Save_keysLeCounter {r : VehicleMap} (h : r.KeysLeCounter) (e : Vehicle) :
    (r.Save e).1.KeysLeCounter := by
  rcases Save_cases r e with ⟨_, hs⟩ | ⟨_, hs⟩
  · rw [hs]; exact h
  · rw [hs]
    intro k hk
    rw [← AList.mem_keys, AList.mem_insert] at hk
    rcases hk with rfl | hk
    · exact le_refl _
    · have := h k (AList.mem_keys.1 hk)
      show k ≤ r.lastId + 1
      omega

theorem SaveMany_keysLeCounter (vs : List Vehicle) :
    ∀ r : VehicleMap, r.KeysLeCounter → (r.SaveMany vs).1.KeysLeCounter := by
  induction vs with
  | nil => intro r h; exact h
  | cons e vs ih =>
    intro r h
    rcases Save_cases r e with ⟨_, hs⟩ | ⟨_, hs⟩
    · rw [SaveMany_cons_of_err ErrAlreadyExists (by rw [hs]), hs]; exact h
    · rw [SaveMany_cons_of_ok (by rw [hs])]
      exact ih _ (Save_keysLeCounter h e)

theorem UpdateVehicle_keysLeCounter {r : VehicleMap} (h : r.KeysLeCounter) (v : Vehicle) :
    (r.UpdateVehicle v).1.KeysLeCounter := by
  unfold UpdateVehicle
  split
  · exact h
  · rename_i w hw
    intro k hk
    rw [← AList.mem_keys, AList.mem_insert] at hk
    rcases hk with rfl | hk
    · exact h _ (AList.mem_keys.1 (AList.lookup_isSome.1 (by rw [hw]; rfl)))
    · exact h k (AList.mem_keys.1 hk)

theorem Delete_keysLeCounter {r : VehicleMap} (h : r.KeysLeCounter) (id : Int) :
    (r.Delete id).1.KeysLeCounter := by
  unfold Delete
  split
  · exact h
  · intro k hk
    rw [← AList.mem_keys, AList.mem_erase] at hk
    exact h k (AList.mem_keys.1 hk.2)

theorem step_keysLeCounter {r : VehicleMap} (h : r.KeysLeCounter) (op : Op) :
    (r.step op).KeysLeCounter := by
  cases op with
  | save e => exact Save_keysLeCounter h e
  | saveMany vs => exact SaveMany_keysLeCounter vs r h
  | updateVehicle v => exact UpdateVehicle_keysLeCounter h v
  | delete id => exact Delete_keysLeCounter h id

theorem run_keysLeCounter (ops : List Op) :
    ∀ r : VehicleMap, r.KeysLeCounter → (r.run ops).KeysLeCounter := by
  induction ops with
  | nil => intro r h; exact h
  | cons op ops ih => intro r h; exact ih _ (step_keysLeCounter h op)

theorem assigned_append (pre post : List Op) :
    ∀ r : VehicleMap, r.assigned (pre ++ post) = r.assigned pre ++ (r.run pre).assigned post := by
  induction pre with
  | nil => intro r; simp [assigned, run]
  | cons op pre ih =>
    intro r
    rw [List.cons_append]
    simp only [assigned]
    rw [ih, List.append_assoc]
    rfl

theorem sameKey_iff (a b : Vehicle) :
    sameKey a b = true ↔
      a.Brand = b.Brand ∧ a.Model = b.Model ∧ a.FabricationYear = b.FabricationYear := by
  simp only [sameKey, Bool.and_eq_true, beq_iff_eq, decide_eq_true_eq]
  tauto

theorem sameKey_comm (a b : Vehicle) : sameKey a b = sameKey b a := by
  rw [Bool.eq_iff_iff, sameKey_iff, sameKey_iff]
  constructor <;> (rintro ⟨h1, h2, h3⟩; exact ⟨h1.symm, h2.symm, h3.symm⟩)

theorem sameKey_congr_right {e1 e2 : Vehicle} (hb : e1.Brand = e2.Brand)
    (hm : e1.Model = e2.Model) (hy : e1.FabricationYear = e2.FabricationYear) (a : Vehicle) :
    sameKey a e1 = sameKey a e2 := by
  rw [Bool.eq_iff_iff, sameKey_iff, sameKey_iff, hb, hm, hy]

theorem any_sameKey_iff (r : VehicleMap) (e : Vehicle) :
    r.db.entries.any (fun kv => sameKey kv.2 e) = true ↔
      ∃ k v, r.db.lookup k = some v ∧
        v.Brand = e.Brand ∧ v.Model = e.Model ∧ v.FabricationYear = e.FabricationYear := by
  rw [List.any_eq_true]
  constructor
  · rintro ⟨⟨k, v⟩, hmem, hk⟩
    exact ⟨k, v, AList.mem_lookup_iff.2 hmem, (sameKey_iff v e).1 hk⟩
  · rintro ⟨k, v, hl, hk⟩
    exact ⟨⟨k, v⟩, AList.mem_lookup_iff.1 hl, (sameKey_iff v e).2 hk⟩

theorem countKey_eq_zero {r : VehicleMap} {e : Vehicle}
    (h : r.db.entries.any (fun kv => sameKey kv.2 e) = false) : r.countKey e = 0 := by
  unfold countKey
  rw [List.countP_eq_zero]
  intro kv hkv hp
  have : r.db.entries.any (fun kv => sameKey kv.2 e) = true :=
    List.any_eq_true.2 ⟨kv, hkv, hp⟩
  rw [h] at this
  exact Bool.noConfusion this

theorem countKey_pos {r : VehicleMap} {e : Vehicle}
    (h : r.db.entries.any (fun kv => sameKey kv.2 e) = true) : 0 < r.countKey e := by
  unfold countKey
  rw [List.countP_pos_iff]
  obtain ⟨kv, hkv, hp⟩ := List.any_eq_true.1 h
  exact ⟨kv, hkv, hp⟩

/-- After a successful `Save` of `e` exactly one live vehicle has the key of `e`. -/
theorem countKey_Save_of_not_any {r : VehicleMap} {e : Vehicle}
    (h : r.db.entries.any (fun kv => sameKey kv.2 e) = false) :
    (r.Save e).1.countKey e = 1 := by
  rw [Save_of_not_any h]
  unfold countKey
  rw [AList.insert_entries, List.countP_cons]
  have h0 := countKey_eq_zero h
  unfold countKey at h0
  have hle := (List.kerase_sublist (r.lastId + 1) r.db.entries).countP_le
    (fun kv : (_ : Int) × Vehicle => sameKey kv.2 e)
  have hhead : sameKey { e with Id := r.lastId + 1 } e = true := by
    rw [sameKey_iff]; exact ⟨rfl, rfl, rfl⟩
  simp only [hhead, if_true]
  omega

theorem Save_uniqueKey {r : VehicleMap} (h : r.UniqueKey) (e : Vehicle) :
    (r.Save e).1.UniqueKey := by
  rcases Save_cases r e with ⟨_, hs⟩ | ⟨hn, hs⟩
  · rw [hs]; exact h
  · rw [hs]
    unfold UniqueKey
    rw [AList.insert_entries, List.pairwise_cons]
    have hsub := List.kerase_sublist (r.lastId + 1) r.db.entries
    refine ⟨fun b hb => ?_, List.Pairwise.sublist hsub h⟩
    cases hk : sameKey { e with Id := r.lastId + 1 } b.2
    · rfl
    · have hk2 : sameKey b.2 e = true := by
        rw [sameKey_comm] at hk
        rw [sameKey_iff] at hk ⊢
        exact hk
      have : r.db.entries.any (fun kv => sameKey kv.2 e) = true :=
        List.any_eq_true.2 ⟨b, hsub.subset hb, hk2⟩
      rw [hn] at this
      exact Bool.noConfusion this

theorem SaveMany_uniqueKey (vs : List Vehicle) :
    ∀ r : VehicleMap, r.UniqueKey → (r.SaveMany vs).1.UniqueKey := by
  induction vs with
  | nil => intro r h; exact h
  | cons e vs ih =>
    intro r h
    rcases Save_cases r e with ⟨_, hs⟩ | ⟨_, hs⟩
    · rw [SaveMany_cons_of_err ErrAlreadyExists (by rw [hs]), hs]; exact h
    · rw [SaveMany_cons_of_ok (by rw [hs])]
      exact ih _ (Save_uniqueKey h e)

theorem Delete_uniqueKey {r : VehicleMap} (h : r.UniqueKey) (id : Int) :
    (r.Delete id).1.UniqueKey := by
  unfold Delete
  split
  · exact h
  · exact List.Pairwise.sublist (List.kerase_sublist id r.db.entries) h

theorem run_uniqueKey (ops : List Op) :
    ∀ r : VehicleMap, r.UniqueKey → (∀ op ∈ ops, op.isUpdate = false) →
      (r.run ops).UniqueKey := by
  induction ops with
  | nil => intro r h _; exact h
  | cons op ops ih =>
    intro r h hops
    refine ih (r.step op) ?_ (fun o ho => hops o (List.mem_cons_of_mem _ ho))
    have hop := hops op (List.mem_cons_self _ _)
    cases op with
    | save e => exact Save_uniqueKey h e
    | saveMany vs => exact SaveMany_uniqueKey vs r h
    | updateVehicle v => simp [Op.isUpdate] at hop
    | delete id => exact Delete_uniqueKey h id

theorem newVehicleMap_keysLeCounter : (NewVehicleMap none 0).KeysLeCounter := by
  intro k hk
  simp [NewVehicleMap] at hk

end VehicleMap

/-- C1: whenever the store's `Save` of `e` succeeds, `GetbyID` of the id it assigned, run
on the resulting store, succeeds and returns `e` with its id field set to the assigned id
and every other field as in `e`. -/
theorem Save_GetbyID (r : VehicleMap) (e : Vehicle) (h : (r.Save e).2.2 = none) :
    (r.Save e).1.GetbyID (r.Save e).2.1.Id =
      ({ e with Id := (r.Save e).2.1.Id }, none) := by
  rcases VehicleMap.Save_cases r e with ⟨_, hs⟩ | ⟨_, hs⟩
  · rw [hs] at h; simp at h
  · rw [hs]; simp [VehicleMap.GetbyID, AList.lookup_insert]

theorem Save_GetbyID_witness :
    (sample.emptyStore.Save sample.corolla).2.2 = none ∧
    (sample.emptyStore.Save sample.corolla).1.GetbyID 1 =
      ({ sample.corolla with Id := 1 }, none) :=
  ⟨by decide, Save_GetbyID sample.emptyStore sample.corolla (by decide)⟩

/-- C2: in every sequence of `Save`, `SaveMany`, `UpdateVehicle` and `Delete` run from the
empty store with counter `0`, the ids written by the successful calls of `Save` (those made
by `SaveMany` included) are strictly increasing in the order of the calls, and an id that
a successful `Delete` removed is not written by any later `Save`. -/
theorem Save_ids_strictly_increasing (ops : List Op) :
    ((NewVehicleMap none 0).assigned ops).Pairwise (· < ·) ∧
    ∀ (pre : List Op) (id : Int) (post : List Op), ops = pre ++ Op.delete id :: post →
      (((NewVehicleMap none 0).run pre).Delete id).2 = none →
      id ∉ (((NewVehicleMap none 0).run pre).Delete id).1.assigned post := by
  refine ⟨VehicleMap.assigned_pairwise ops _, ?_⟩
  intro pre id post _ hdel hmem
  have hinv := VehicleMap.run_keysLeCounter pre _ VehicleMap.newVehicleMap_keysLeCounter
  have hgt := VehicleMap.assigned_gt post _ id hmem
  rw [VehicleMap.Delete_lastId] at hgt
  have hin : id ∈ ((NewVehicleMap none 0).run pre).db.keys := by
    rw [← AList.mem_keys, ← AList.lookup_isSome]
    unfold VehicleMap.Delete at hdel
    split at hdel
    · simp at hdel
    · rename_i w hw; rw [hw]; rfl
  have := hinv id hin
  omega

theorem Save_ids_strictly_increasing_witness :
    (NewVehicleMap none 0).assigned
        [.save sample.corolla, .delete 1, .save sample.corolla, .saveMany [sample.civic]]
      = [1, 2, 3] ∧
    (1 : Int) ∉ (((NewVehicleMap none 0).run [.save sample.corolla]).Delete 1).1.assigned
        [.save sample.corolla, .saveMany [sample.civic]] :=
  ⟨by decide,
   (Save_ids_strictly_increasing
      [.save sample.corolla, .delete 1, .save sample.corolla, .saveMany [sample.civic]]).2
      [.save sample.corolla] 1 [.save sample.corolla, .saveMany [sample.civic]] rfl
      (by decide)⟩

/-- C3: the store's `Save` of `e` fails with `ErrAlreadyExists` exactly when some live
vehicle has the brand, model and fabrication year of `e`; and whenever it fails, the table,
the id counter and the id field of `e` are unchanged. -/
theorem Save_AlreadyExists_iff (r : VehicleMap) (e : Vehicle) :
    ((r.Save e).2.2 = some ErrAlreadyExists ↔
      ∃ k v, r.db.lookup k = some v ∧
        v.Brand = e.Brand ∧ v.Model = e.Model ∧ v.FabricationYear = e.FabricationYear) ∧
    ((r.Save e).2.2 ≠ none →
      (r.Save e).1.db = r.db ∧ (r.Save e).1.lastId = r.lastId ∧ (r.Save e).2.1.Id = e.Id) := by
  rw [← VehicleMap.any_sameKey_iff]
  rcases VehicleMap.Save_cases r e with ⟨ha, hs⟩ | ⟨ha, hs⟩
  · rw [hs, ha]; simp
  · rw [hs, ha]; simp

/-- C4, as stated, fails on the store `sample.twoCorollas`, where two live vehicles already
have the key of `sample.corolla`: saving `sample.corolla` twice fails both times with
`ErrAlreadyExists`, and the table then holds two vehicles with that key, not one. -/
theorem Save_twice_counterexample :
    ((sample.twoCorollas.Save sample.corolla).1.Save sample.corolla).2.2
        = some ErrAlreadyExists ∧
    ((sample.twoCorollas.Save sample.corolla).1.Save sample.corolla).1.countKey sample.corolla
        = 2 := by
  decide

/-- C4, amended: on a store where at most one live vehicle has the brand, model and
fabrication year of `e1`, and for `e2` with the same three fields, saving `e1` and then `e2`
fails with `ErrAlreadyExists` on the second `Save`, and afterwards exactly one live vehicle
has those three fields. -/
theorem Save_twice_exactly_one (r : VehicleMap) (e1 e2 : Vehicle)
    (hb : e1.Brand = e2.Brand) (hm : e1.Model = e2.Model)
    (hy : e1.FabricationYear = e2.FabricationYear) (hu : r.countKey e1 ≤ 1) :
    ((r.Save e1).1.Save e2).2.2 = some ErrAlreadyExists ∧
    ((r.Save e1).1.Save e2).1.countKey e1 = 1 := by
  have hcongr : ∀ s : VehicleMap, s.db.entries.any (fun kv => VehicleMap.sameKey kv.2 e2)
      = s.db.entries.any (fun kv => VehicleMap.sameKey kv.2 e1) := by
    intro s
    congr 1
    funext kv
    exact (VehicleMap.sameKey_congr_right hb hm hy kv.2).symm
  have hsecond : ∀ s : VehicleMap, 0 < s.countKey e1 →
      s.Save e2 = (s, e2, some ErrAlreadyExists) := by
    intro s hs
    apply VehicleMap.Save_of_any
    rw [hcongr]
    cases ha : s.db.entries.any (fun kv => VehicleMap.sameKey kv.2 e1)
    · rw [VehicleMap.countKey_eq_zero ha] at hs; exact absurd hs (lt_irrefl 0)
    · rfl
  rcases VehicleMap.Save_cases r e1 with ⟨ha, hs⟩ | ⟨ha, hs⟩
  · have hpos := VehicleMap.countKey_pos ha
    rw [hs, hsecond r hpos]
    exact ⟨rfl, by show r.countKey e1 = 1; omega⟩
  · have hone := VehicleMap.countKey_Save_of_not_any ha
    rw [hsecond (r.Save e1).1 (by omega)]
    exact ⟨rfl, hone⟩

theorem Save_twice_exactly_one_witness :
    ((sample.emptyStore.Save sample.corolla).1.Save { sample.corolla with Color := "black" }).2.2
        = some ErrAlreadyExists ∧
    ((sample.emptyStore.Save sample.corolla).1.Save
        { sample.corolla with Color := "black" }).1.countKey sample.corolla = 1 :=
  Save_twice_exactly_one sample.emptyStore sample.corolla { sample.corolla with Color := "black" }
    rfl rfl rfl (by decide)

/-- C5: `Save`, `SaveMany` and `Delete` each preserve the property that no two live vehicles
share brand, model and fabrication year, and the property holds in every store reached
from the empty store by a sequence of these operations. -/
theorem UniqueKey_preserved :
    (∀ (r : VehicleMap) (e : Vehicle), r.UniqueKey → (r.Save e).1.UniqueKey) ∧
    (∀ (r : VehicleMap) (vs : List Vehicle), r.UniqueKey → (r.SaveMany vs).1.UniqueKey) ∧
    (∀ (r : VehicleMap) (id : Int), r.UniqueKey → (r.Delete id).1.UniqueKey) ∧
    (∀ ops : List Op, (∀ op ∈ ops, op.isUpdate = false) →
      ((NewVehicleMap none 0).run ops).UniqueKey) :=
  ⟨fun _ e h => VehicleMap.Save_uniqueKey h e,
   fun r vs h => VehicleMap.SaveMany_uniqueKey vs r h,
   fun _ id h => VehicleMap.Delete_uniqueKey h id,
   fun ops h => VehicleMap.run_uniqueKey ops _ List.Pairwise.nil h⟩

theorem UniqueKey_preserved_witness :
    ((NewVehicleMap none 0).run
      [.save sample.corolla, .saveMany [sample.civic, sample.corolla], .delete 1,
        .save sample.corolla]).UniqueKey :=
  UniqueKey_preserved.2.2.2
    [.save sample.corolla, .saveMany [sample.civic, sample.corolla], .delete 1,
      .save sample.corolla] (by decide)

end repository

namespace service

open internal repository

theorem ValidateVehicle_ok_iff' (vehicle : Vehicle) :
    ValidateVehicle vehicle = none ↔
      vehicle.Brand ≠ "" ∧ vehicle.Model ≠ "" ∧ vehicle.Color ≠ "" ∧
      vehicle.Transmission ≠ "" ∧ vehicle.FabricationYear ≠ 0 ∧ vehicle.Capacity ≠ 0 ∧
      vehicle.MaxSpeed ≠ 0 := by
  unfold ValidateVehicle
  split_ifs <;> simp_all

/-- C6: `ValidateVehicle` returns no error exactly when brand, model, color and transmission
are non-empty and fabrication year, capacity and max speed are non-zero. -/
theorem ValidateVehicle_ok_iff (vehicle : Vehicle) :
    ValidateVehicle vehicle = none ↔
      vehicle.Brand ≠ "" ∧ vehicle.Model ≠ "" ∧ vehicle.Color ≠ "" ∧
      vehicle.Transmission ≠ "" ∧ vehicle.FabricationYear ≠ 0 ∧ vehicle.Capacity ≠ 0 ∧
      vehicle.MaxSpeed ≠ 0 := by
  unfold ValidateVehicle
  split_ifs <;> simp_all

/-- C7: the result of `ValidateVehicle` is the error of the first violated check in the
order brand, model, color, fabricationYear, capacity, transmission, maxSpeed (no error when
no check is violated), its text ending in the field name of that check; whenever brand is
empty, model empty or not, the error is the one for `Brand`, which wraps `ErrFieldRequired`,
reads `field required: Brand` and differs from the one for `Model`. -/
theorem ValidateVehicle_first_violation (vehicle : Vehicle) :
    ValidateVehicle vehicle = (firstViolation vehicle).map Check.error ∧
    (∀ c, firstViolation vehicle = some c →
      ∃ err, ValidateVehicle vehicle = some err ∧
        err.Error = (GoError.var c.errVar).Error ++ ": " ++ c.label) ∧
    (vehicle.Brand = "" →
      ValidateVehicle vehicle = some (Errorf ErrFieldRequired ": Brand") ∧
      ValidateVehicle vehicle ≠ some (Errorf ErrFieldRequired ": Model") ∧
      errorsIs (Errorf ErrFieldRequired ": Brand") .ErrFieldRequired = true ∧
      (Errorf ErrFieldRequired ": Brand").Error = "field required: Brand") := by
  have hmain : ValidateVehicle vehicle = (firstViolation vehicle).map Check.error := by
    unfold ValidateVehicle firstViolation Check.order
    by_cases h1 : vehicle.Brand = ""
    · rw [if_pos h1, List.find?_cons_of_pos _ (by simp [Check.violated, h1])]; rfl
    rw [if_neg h1, List.find?_cons_of_neg _ (by simp [Check.violated, h1])]
    by_cases h2 : vehicle.Model = ""
    · rw [if_pos h2, List.find?_cons_of_pos _ (by simp [Check.violated, h2])]; rfl
    rw [if_neg h2, List.find?_cons_of_neg _ (by simp [Check.violated, h2])]
    by_cases h3 : vehicle.Color = ""
    · rw [if_pos h3, List.find?_cons_of_pos _ (by simp [Check.violated, h3])]; rfl
    rw [if_neg h3, List.find?_cons_of_neg _ (by simp [Check.violated, h3])]
    by_cases h4 : vehicle.FabricationYear = 0
    · rw [if_pos h4, List.find?_cons_of_pos _ (by simp [Check.violated, h4])]; rfl
    rw [if_neg h4, List.find?_cons_of_neg _ (by simp [Check.violated, h4])]
    by_cases h5 : vehicle.Capacity = 0
    · rw [if_pos h5, List.find?_cons_of_pos _ (by simp [Check.violated, h5])]; rfl
    rw [if_neg h5, List.find?_cons_of_neg _ (by simp [Check.violated, h5])]
    by_cases h6 : vehicle.Transmission = ""
    · rw [if_pos h6, List.find?_cons_of_pos _ (by simp [Check.violated, h6])]; rfl
    rw [if_neg h6, List.find?_cons_of_neg _ (by simp [Check.violated, h6])]
    by_cases h7 : vehicle.MaxSpeed = 0
    · rw [if_pos h7, List.find?_cons_of_pos _ (by simp [Check.violated, h7])]; rfl
    rw [if_neg h7, List.find?_cons_of_neg _ (by simp [Check.violated, h7])]
    rfl
  refine ⟨hmain, ?_, ?_⟩
  · intro c hc
    refine ⟨c.error, by rw [hmain, hc]; rfl, ?_⟩
    simp [Check.error, Errorf, GoError.Error, String.append_assoc]
  · intro hb
    have : ValidateVehicle vehicle = some (Errorf ErrFieldRequired ": Brand") := by
      simp [ValidateVehicle, hb]
    rw [this]
    exact ⟨rfl, by decide, by decide, by decide⟩

/-- C8: evaluation at `sample.corollaNoSpeed`, whose only violated check is the one of max
speed. `ValidateVehicle` returns an error wrapping `ErrVelocityOutOfRange`; `errors.Is` with
`ErrFieldRequired` is false for it, and the `Save` handler answers it with status 500, where
an error wrapping `ErrFieldRequired` gets 400. -/
theorem ValidateVehicle_maxSpeed_zero :
    (Check.order.filter (Check.violated sample.corollaNoSpeed) = [Check.maxSpeed]) ∧
    ValidateVehicle sample.corollaNoSpeed = some (Errorf ErrVelocityOutOfRange ": Max Speed") ∧
    errorsIs (Errorf ErrVelocityOutOfRange ": Max Speed") .ErrFieldRequired = false ∧
    handler.saveStatus (ValidateVehicle sample.corollaNoSpeed) = 500 ∧
    handler.saveStatus (ValidateVehicle { sample.corolla with Capacity := 0 }) = 400 := by
  decide

/-- C9: evaluation at `SaveMany [sample.blank]` on the empty store. `sample.blank` fails
`ValidateVehicle`, the service `Save` rejects it and leaves the table empty, yet the service
`SaveMany` succeeds and the table then holds it under id 1, a live vehicle that does not
satisfy the required-attribute predicate. -/
theorem SaveMany_skips_validation :
    ValidateVehicle sample.blank = some (Errorf ErrFieldRequired ": Brand") ∧
    ((VehicleDefault.mk sample.emptyStore).Save sample.blank).1.rp.db.entries = [] ∧
    ((VehicleDefault.mk sample.emptyStore).SaveMany [sample.blank]).2 = none ∧
    ((VehicleDefault.mk sample.emptyStore).SaveMany [sample.blank]).1.rp.db.lookup 1
      = some { sample.blank with Id := 1 } ∧
    ¬ Required { sample.blank with Id := 1 } := by
  decide

/-- C10: when `ValidateVehicle` fails on `e` with `err`, the service `Save` and the service
`UpdateVehicle` both return `err`, the store (table and id counter) is the one before the
call, and `Save` hands `e` back with every field, the id included, unchanged. -/
theorem validation_error_before_mutation (s : VehicleDefault) (e : Vehicle) (err : GoError)
    (h : ValidateVehicle e = some err) :
    s.Save e = (s, e, some err) ∧ s.UpdateVehicle e = (s, some err) := by
  constructor
  · simp only [VehicleDefault.Save, h]
  · simp only [VehicleDefault.UpdateVehicle, h]

theorem validation_error_before_mutation_witness :
    (VehicleDefault.mk sample.twoCorollas).Save sample.corollaNoSpeed
      = (VehicleDefault.mk sample.twoCorollas, sample.corollaNoSpeed,
          some (Errorf ErrVelocityOutOfRange ": Max Speed")) ∧
    (VehicleDefault.mk sample.twoCorollas).UpdateVehicle sample.corollaNoSpeed
      = (VehicleDefault.mk sample.twoCorollas,
          some (Errorf ErrVelocityOutOfRange ": Max Speed")) :=
  validation_error_before_mutation (VehicleDefault.mk sample.twoCorollas)
    sample.corollaNoSpeed (Errorf ErrVelocityOutOfRange ": Max Speed") (by decide)

end service


namespace repository

open internal

namespace VehicleMap

theorem lookup_collect (keep : Vehicle → Bool) (k : Int) :
    ∀ (l : List (Sigma fun _ : Int => Vehicle)) (acc : Table), l.NodupKeys →
      (collect keep l acc).lookup k =
        match (l.dlookup k).filter keep with
        | some v => some v
        | none => acc.lookup k := by
  intro l
  induction l with
  | nil => intro acc _; simp [collect]
  | cons kv rest ih =>
    intro acc hnd
    obtain ⟨k0, v0⟩ := kv
    rw [List.nodupKeys_cons] at hnd
    obtain ⟨hk0, hrest⟩ := hnd
    by_cases hk : k = k0
    · subst hk
      have hnone : rest.dlookup k = none := List.dlookup_eq_none.2 hk0
      by_cases hkeep : keep v0 = true
      · simp [collect, hkeep, ih _ hrest, hnone, List.dlookup_cons_eq, Option.filter]
      · simp [collect, hkeep, ih _ hrest, hnone, List.dlookup_cons_eq, Option.filter]
    · have hne : k ≠ k0 := hk
      rw [List.dlookup_cons_ne rest (Sigma.mk k0 v0) hne]
      by_cases hkeep : keep v0 = true
      · simp only [collect, hkeep, if_true]
        rw [ih _ hrest, AList.lookup_insert_ne hne]
      · simp only [collect, hkeep]
        exact ih _ hrest

/-- The lookups of the map built from the whole table and the empty result map. -/
theorem lookup_collect_db (keep : Vehicle → Bool) (r : VehicleMap) (k : Int) (v : Vehicle) :
    (collect keep r.db.entries ∅).lookup k = some v ↔
      r.db.lookup k = some v ∧ keep v = true := by
  rw [lookup_collect keep k r.db.entries ∅ r.db.nodupKeys]
  show (match (r.db.lookup k).filter keep with
      | some v => some v
      | none => (∅ : Table).lookup k) = some v ↔ _
  cases h : r.db.lookup k with
  | none => simp [Option.filter]
  | some w =>
    by_cases hw : keep w = true
    · simp only [Option.filter, hw, if_true, Option.some.injEq]
      constructor
      · rintro rfl; exact ⟨rfl, hw⟩
      · rintro ⟨h1, _⟩; exact h1
    · simp only [Option.filter, hw, AList.lookup_empty]
      constructor
      · intro h0; exact absurd h0 (by simp)
      · rintro ⟨h1, h2⟩
        rw [Option.some.injEq] at h1
        subst h1
        exact absurd h2 hw

theorem collect_true_perm (r : VehicleMap) :
    (collect (fun _ => true) r.db.entries ∅).entries.Perm r.db.entries := by
  apply List.lookup_ext (AList.nodupKeys _) r.db.nodupKeys
  intro k v
  show (collect (fun _ => true) r.db.entries ∅).lookup k = some v ↔ r.db.lookup k = some v
  rw [lookup_collect_db]
  simp

theorem collect_eq_empty (keep : Vehicle → Bool) (r : VehicleMap)
    (h : ∀ k v, r.db.lookup k = some v → keep v = false) :
    collect keep r.db.entries ∅ = ∅ := by
  apply AList.ext
  rw [AList.empty_entries]
  cases hent : (collect keep r.db.entries ∅).entries with
  | nil => rfl
  | cons kv rest =>
    obtain ⟨k, v⟩ := kv
    have hmem : Sigma.mk k v ∈ (collect keep r.db.entries ∅).entries := by
      rw [hent]; exact List.mem_cons_self _ _
    have hl := (lookup_collect_db keep r k v).1 (AList.mem_lookup_iff.2 hmem)
    rw [h k v hl.1] at hl
    exact absurd hl.2 (by simp)

theorem float64At_of_lookup {query : Query} {key : String} {x : GoFloat64}
    (h : query.lookup key = some (GoAny.float64 x)) : query.float64At key = some x := by
  simp [Query.float64At, h]

theorem float64At_eq_none_iff (query : Query) (key : String) :
    query.float64At key = none ↔
      ∀ x : GoFloat64, query.lookup key ≠ some (GoAny.float64 x) := by
  unfold Query.float64At
  cases h : query.lookup key with
  | none => simp
  | some w => cases w <;> simp

theorem FindQueryLoop_unset (query : Query) :
    ∀ (l : List (Sigma fun _ : Int => Vehicle)) (acc : Table),
      FindQueryLoop query false l acc = (collect (fun _ => true) l acc, none) := by
  intro l
  induction l with
  | nil => intro acc; rfl
  | cons kv rest ih =>
    intro acc
    obtain ⟨k, v⟩ := kv
    simp [FindQueryLoop, collect, ih]

theorem FindQueryLoop_bounds {query : Query} {a b c d : GoFloat64}
    (h1 : query.float64At "min_length" = some a) (h2 : query.float64At "max_length" = some b)
    (h3 : query.float64At "min_width" = some c) (h4 : query.float64At "max_width" = some d) :
    ∀ (l : List (Sigma fun _ : Int => Vehicle)) (acc : Table),
      FindQueryLoop query true l acc =
        (collect (fun v => !(GoFloat64.lt (.finite v.Height) a ||
            GoFloat64.gt (.finite v.Height) b || GoFloat64.lt (.finite v.Width) c ||
            GoFloat64.gt (.finite v.Width) d))
          l acc, none) := by
  intro l
  induction l with
  | nil => intro acc; rfl
  | cons kv rest ih =>
    intro acc
    obtain ⟨k, v⟩ := kv
    simp only [FindQueryLoop, h1, h2, h3, h4, if_true, collect]
    by_cases hv : (GoFloat64.lt (.finite v.Height) a || GoFloat64.gt (.finite v.Height) b ||
        GoFloat64.lt (.finite v.Width) c || GoFloat64.gt (.finite v.Width) d) = true
    · rw [if_pos hv, ih]
      simp [hv]
    · rw [if_neg hv, ih]
      rw [Bool.not_eq_true] at hv
      simp [hv]

theorem FindQueryLoop_invalid {query : Query}
    (h : query.float64At "min_length" = none ∨ query.float64At "max_length" = none ∨
      query.float64At "min_width" = none ∨ query.float64At "max_width" = none)
    (kv : Sigma fun _ : Int => Vehicle) (rest : List (Sigma fun _ : Int => Vehicle))
    (acc : Table) :
    FindQueryLoop query true (kv :: rest) acc = (acc, some ErrInvalidQuery) := by
  obtain ⟨k, v⟩ := kv
  unfold FindQueryLoop
  rcases h with h | h | h | h
  · simp [h]
  · cases h1 : query.float64At "min_length" <;> simp [h]
  · cases h1 : query.float64At "min_length" <;> cases h2 : query.float64At "max_length" <;>
      simp [h]
  · cases h1 : query.float64At "min_length" <;> cases h2 : query.float64At "max_length" <;>
      cases h3 : query.float64At "min_width" <;> simp [h]

theorem FilterByWeightLoop_unset (query : Query) :
    ∀ (l : List (Sigma fun _ : Int => Vehicle)) (acc : Table),
      FilterByWeightLoop query false l acc = (collect (fun _ => true) l acc, none) := by
  intro l
  induction l with
  | nil => intro acc; rfl
  | cons kv rest ih =>
    intro acc
    obtain ⟨k, v⟩ := kv
    simp [FilterByWeightLoop, collect, ih]

theorem FilterByWeightLoop_bounds {query : Query} {a b : GoFloat64}
    (h1 : query.float64At "weight_min" = some a) (h2 : query.float64At "weight_max" = some b) :
    ∀ (l : List (Sigma fun _ : Int => Vehicle)) (acc : Table),
      FilterByWeightLoop query true l acc =
        (collect (fun v => !(GoFloat64.lt (.finite v.Weight) a ||
            GoFloat64.gt (.finite v.Weight) b)) l acc, none) := by
  intro l
  induction l with
  | nil => intro acc; rfl
  | cons kv rest ih =>
    intro acc
    obtain ⟨k, v⟩ := kv
    simp only [FilterByWeightLoop, h1, h2, if_true, collect]
    by_cases hv : (GoFloat64.lt (.finite v.Weight) a ||
        GoFloat64.gt (.finite v.Weight) b) = true
    · rw [if_pos hv, ih]
      simp [hv]
    · rw [if_neg hv, ih]
      rw [Bool.not_eq_true] at hv
      simp [hv]

theorem FilterByWeightLoop_invalid {query : Query}
    (h : query.float64At "weight_min" = none ∨ query.float64At "weight_max" = none)
    (kv : Sigma fun _ : Int => Vehicle) (rest : List (Sigma fun _ : Int => Vehicle))
    (acc : Table) :
    FilterByWeightLoop query true (kv :: rest) acc = (acc, some ErrInvalidQuery) := by
  obtain ⟨k, v⟩ := kv
  unfold FilterByWeightLoop
  rcases h with h | h
  · simp [h]
  · cases h1 : query.float64At "weight_min" <;> simp [h]

theorem querySet_of_entries_ne_nil {query : Query} (h : query.entries ≠ []) :
    decide (query.entries.length > 0) = true := by
  rw [decide_eq_true_eq]
  exact List.length_pos.2 h

theorem querySet_of_lookup {query : Query} {key : String} {w : GoAny}
    (h : query.lookup key = some w) : decide (query.entries.length > 0) = true := by
  apply querySet_of_entries_ne_nil
  intro he
  have : query = ∅ := AList.ext (by rw [he, AList.empty_entries])
  rw [this, AList.lookup_empty] at h
  exact absurd h (by simp)

end VehicleMap

namespace VehicleMap

theorem VelocityAverageLoop_eq (rnd : ℚ → ℚ) (brand : String) :
    ∀ (l : List (Sigma fun _ : Int => Vehicle)) (st : Table × ℚ × ℚ),
      VelocityAverageLoop rnd brand l st = averageLoop rnd brand (fun v => v.MaxSpeed) l st := by
  intro l
  induction l with
  | nil => intro st; rfl
  | cons kv rest ih =>
    intro st
    obtain ⟨k, v⟩ := kv
    obtain ⟨vehicle, total, average⟩ := st
    simp only [VelocityAverageLoop, averageLoop, ih]

theorem CapacityAverageLoop_eq (rnd : ℚ → ℚ) (brand : String) :
    ∀ (l : List (Sigma fun _ : Int => Vehicle)) (st : Table × ℚ × ℚ),
      CapacityAverageLoop rnd brand l st =
        averageLoop rnd brand (fun v => rnd (v.Capacity : ℚ)) l st := by
  intro l
  induction l with
  | nil => intro st; rfl
  | cons kv rest ih =>
    intro st
    obtain ⟨k, v⟩ := kv
    obtain ⟨vehicle, total, average⟩ := st
    simp only [CapacityAverageLoop, averageLoop, ih]

/-- The state of an average loop at its end: the map has one more entry for each vehicle
of the brand, the sum is the rounded sum of their terms, and the average is the quotient
computed at the last of them. -/
theorem averageLoop_spec (rnd : ℚ → ℚ) (brand : String) (term : Vehicle → ℚ) :
    ∀ (l : List (Sigma fun _ : Int => Vehicle)) (vehicle : Table) (total average : ℚ),
      l.NodupKeys → (∀ kv ∈ l, kv.1 ∉ vehicle) →
      (averageLoop rnd brand term l (vehicle, total, average)).1.entries.length =
        vehicle.entries.length + (l.filter (fun kv => kv.2.Brand = brand)).length ∧
      (averageLoop rnd brand term l (vehicle, total, average)).2.1 =
        ((l.filter (fun kv => kv.2.Brand = brand)).map (fun kv => term kv.2)).foldl
          (fun acc x => rnd (acc + x)) total ∧
      (averageLoop rnd brand term l (vehicle, total, average)).2.2 =
        if l.filter (fun kv => kv.2.Brand = brand) = [] then average
        else rnd ((averageLoop rnd brand term l (vehicle, total, average)).2.1 /
          rnd ((averageLoop rnd brand term l (vehicle, total, average)).1.entries.length : ℚ)) := by
  intro l
  induction l with
  | nil => intro vehicle total average _ _; simp [averageLoop]
  | cons kv rest ih =>
    intro vehicle total average hnd hdisj
    obtain ⟨k, v⟩ := kv
    rw [List.nodupKeys_cons] at hnd
    obtain ⟨hk, hrest⟩ := hnd
    have hkv : k ∉ vehicle := hdisj ⟨k, v⟩ (List.mem_cons_self _ _)
    by_cases hb : v.Brand = brand
    · have hdisj1 : ∀ kv ∈ rest, kv.1 ∉ vehicle.insert k v := by
        intro kv hmem hin
        rw [AList.mem_insert] at hin
        rcases hin with heq | hin
        · have hkeys : kv.1 ∈ rest.keys := List.mem_keys.2 ⟨kv.2, hmem⟩
          rw [heq] at hkeys
          exact hk hkeys
        · exact hdisj kv (List.mem_cons_of_mem _ hmem) hin
      obtain ⟨ih1, ih2, ih3⟩ := ih (vehicle.insert k v) (rnd (total + term v))
        (rnd (rnd (total + term v) / rnd ((vehicle.insert k v).entries.length : ℚ)))
        hrest hdisj1
      have hlen : (vehicle.insert k v).entries.length = vehicle.entries.length + 1 := by
        rw [AList.insert_entries_of_neg hkv]; rfl
      have hstep : averageLoop rnd brand term (⟨k, v⟩ :: rest) (vehicle, total, average) =
          averageLoop rnd brand term rest
            (vehicle.insert k v, rnd (total + term v),
              rnd (rnd (total + term v) / rnd ((vehicle.insert k v).entries.length : ℚ))) := by
        simp only [averageLoop, hb, if_true]
      have hfilter : (List.filter (fun kv : (Sigma fun _ : Int => Vehicle) =>
          decide (kv.2.Brand = brand)) (⟨k, v⟩ :: rest)) =
          ⟨k, v⟩ :: List.filter (fun kv => decide (kv.2.Brand = brand)) rest := by
        rw [List.filter_cons_of_pos]; simp [hb]
      rw [hstep, hfilter]
      refine ⟨?_, ?_, ?_⟩
      · rw [ih1, hlen, List.length_cons]; omega
      · rw [ih2]; rfl
      · rw [ih3]
        by_cases hnil : List.filter (fun kv : (Sigma fun _ : Int => Vehicle) =>
            decide (kv.2.Brand = brand)) rest = []
        · rw [if_pos hnil, if_neg (List.cons_ne_nil _ _)]
          rw [ih2, ih1, hnil]
          simp
        · rw [if_neg hnil, if_neg (List.cons_ne_nil _ _)]
    · have hdisj1 : ∀ kv ∈ rest, kv.1 ∉ vehicle :=
        fun kv hmem => hdisj kv (List.mem_cons_of_mem _ hmem)
      have hstep : averageLoop rnd brand term (⟨k, v⟩ :: rest) (vehicle, total, average) =
          averageLoop rnd brand term rest (vehicle, total, average) := by
        simp only [averageLoop, hb, if_false]
      have hfilter : (List.filter (fun kv : (Sigma fun _ : Int => Vehicle) =>
          decide (kv.2.Brand = brand)) (⟨k, v⟩ :: rest)) =
          List.filter (fun kv => decide (kv.2.Brand = brand)) rest := by
        rw [List.filter_cons_of_neg]; simp [hb]
      rw [hstep, hfilter]
      exact ih vehicle total average hrest hdisj1

theorem ofBrand_length (r : VehicleMap) (brand : String) :
    (r.ofBrand brand).length = (r.db.entries.filter (fun kv => kv.2.Brand = brand)).length := by
  simp [ofBrand]

theorem mem_ofBrand (r : VehicleMap) (brand : String) (v : Vehicle) :
    v ∈ r.ofBrand brand ↔ ∃ k, r.db.lookup k = some v ∧ v.Brand = brand := by
  simp only [ofBrand, List.mem_map, List.mem_filter, decide_eq_true_eq]
  constructor
  · rintro ⟨⟨k, w⟩, ⟨hmem, hb⟩, rfl⟩
    exact ⟨k, AList.mem_lookup_iff.2 hmem, hb⟩
  · rintro ⟨k, hl, hb⟩
    exact ⟨⟨k, v⟩, ⟨AList.mem_lookup_iff.1 hl, hb⟩, rfl⟩

theorem ofBrand_eq_nil_iff (r : VehicleMap) (brand : String) :
    r.ofBrand brand = [] ↔ ¬ ∃ k v, r.db.lookup k = some v ∧ v.Brand = brand := by
  rw [List.eq_nil_iff_forall_not_mem]
  constructor
  · rintro h ⟨k, v, hl, hb⟩
    exact h v ((mem_ofBrand r brand v).2 ⟨k, hl, hb⟩)
  · intro h v hv
    obtain ⟨k, hl, hb⟩ := (mem_ofBrand r brand v).1 hv
    exact h ⟨k, v, hl, hb⟩

theorem filter_eq_nil_iff_ofBrand (r : VehicleMap) (brand : String) :
    r.db.entries.filter (fun kv => kv.2.Brand = brand) = [] ↔ r.ofBrand brand = [] := by
  simp [ofBrand]

/-- The result of an average loop run on the whole table from the initial state. -/
theorem averageLoop_db (rnd : ℚ → ℚ) (brand : String) (term : Vehicle → ℚ) (r : VehicleMap) :
    (averageLoop rnd brand term r.db.entries (∅, 0, 0)).1.entries.length =
        (r.ofBrand brand).length ∧
      (averageLoop rnd brand term r.db.entries (∅, 0, 0)).2.2 =
        if r.ofBrand brand = [] then 0
        else rnd (roundedSum rnd ((r.ofBrand brand).map term) /
          rnd ((r.ofBrand brand).length : ℚ)) := by
  obtain ⟨h1, h2, h3⟩ := averageLoop_spec rnd brand term r.db.entries ∅ 0 0 r.db.nodupKeys
    (fun kv _ => AList.not_mem_empty kv.1)
  have hlen : (averageLoop rnd brand term r.db.entries (∅, 0, 0)).1.entries.length =
      (r.ofBrand brand).length := by
    rw [h1, ofBrand_length]; simp
  refine ⟨hlen, ?_⟩
  rw [h3, h2, hlen]
  by_cases hnil : r.ofBrand brand = []
  · rw [if_pos hnil, if_pos ((filter_eq_nil_iff_ofBrand r brand).2 hnil)]
  · rw [if_neg hnil, if_neg (fun h => hnil ((filter_eq_nil_iff_ofBrand r brand).1 h))]
    simp [roundedSum, ofBrand, List.map_map, Function.comp_def]

theorem roundedSum_id (terms : List ℚ) : roundedSum id terms = terms.sum := by
  have h : ∀ (l : List ℚ) (a : ℚ), l.foldl (fun acc x => id (acc + x)) a = a + l.sum := by
    intro l
    induction l with
    | nil => intro a; simp
    | cons x l ih =>
      intro a
      rw [List.foldl_cons, ih, List.sum_cons]
      show a + x + l.sum = a + (x + l.sum)
      ring
  rw [roundedSum, h, zero_add]

end VehicleMap

/-- C11: evaluation at `FindQuery({min_length: 1.0})` on the empty store, a non-empty
criteria mapping without `max_length`: the call returns the empty mapping and no error. The
same holds for every criteria mapping on every empty table, the checks being made inside the
loop over the table; on every non-empty table a non-empty criteria mapping in which one of
the four bounds is missing or is not a float fails with `ErrInvalidQuery`. -/
theorem FindQuery_incomplete_criteria :
    (sample.onlyMinLength.entries.length = 1 ∧
      sample.onlyMinLength.float64At "max_length" = none) ∧
    (sample.emptyStore.FindQuery sample.onlyMinLength).2 = none ∧
    (sample.emptyStore.FindQuery sample.onlyMinLength).1.entries = [] ∧
    (∀ (r : VehicleMap) (query : Query), r.db.entries = [] →
      r.FindQuery query = (∅, none)) ∧
    (∀ (r : VehicleMap) (query : Query), r.db.entries ≠ [] → query.entries ≠ [] →
      (query.float64At "min_length" = none ∨ query.float64At "max_length" = none ∨
        query.float64At "min_width" = none ∨ query.float64At "max_width" = none) →
      r.FindQuery query = (∅, some ErrInvalidQuery)) := by
  refine ⟨by decide, by decide, by decide, ?_, ?_⟩
  · intro r query hr
    simp [VehicleMap.FindQuery, hr, VehicleMap.FindQueryLoop]
  · intro r query hr hq h
    unfold VehicleMap.FindQuery
    simp only [VehicleMap.querySet_of_entries_ne_nil hq]
    cases hent : r.db.entries with
    | nil => exact absurd hent hr
    | cons kv rest => exact VehicleMap.FindQueryLoop_invalid h kv rest ∅

/-- C12: evaluation at `FilterByWeight({weight_min: 1000.0})` on the empty store, a non-empty
criteria mapping without `weight_max`: the call returns the empty mapping and no error. The
same holds for every criteria mapping on every empty table; on every non-empty table a
non-empty criteria mapping in which one of the two bounds is missing or is not a float fails
with `ErrInvalidQuery`. -/
theorem FilterByWeight_incomplete_criteria :
    (sample.onlyWeightMin.entries.length = 1 ∧
      sample.onlyWeightMin.float64At "weight_max" = none) ∧
    (sample.emptyStore.FilterByWeight sample.onlyWeightMin).2 = none ∧
    (sample.emptyStore.FilterByWeight sample.onlyWeightMin).1.entries = [] ∧
    (∀ (r : VehicleMap) (query : Query), r.db.entries = [] →
      r.FilterByWeight query = (∅, none)) ∧
    (∀ (r : VehicleMap) (query : Query), r.db.entries ≠ [] → query.entries ≠ [] →
      (query.float64At "weight_min" = none ∨ query.float64At "weight_max" = none) →
      r.FilterByWeight query = (∅, some ErrInvalidQuery)) := by
  refine ⟨by decide, by decide, by decide, ?_, ?_⟩
  · intro r query hr
    simp [VehicleMap.FilterByWeight, hr, VehicleMap.FilterByWeightLoop]
  · intro r query hr hq h
    unfold VehicleMap.FilterByWeight
    simp only [VehicleMap.querySet_of_entries_ne_nil hq]
    cases hent : r.db.entries with
    | nil => exact absurd hent hr
    | cons kv rest => exact VehicleMap.FilterByWeightLoop_invalid h kv rest ∅

namespace VehicleMap

theorem not_lt_iff_le {b : GoFloat64} (hb : b ≠ .nan) (x : ℚ) :
    GoFloat64.lt (.finite x) b = false ↔ GoFloat64.le b (.finite x) = true := by
  cases b with
  | finite y => simp [GoFloat64.lt, GoFloat64.le]
  | nan => exact absurd rfl hb
  | posInf => simp [GoFloat64.lt, GoFloat64.le]
  | negInf => simp [GoFloat64.lt, GoFloat64.le]

theorem not_gt_iff_le {b : GoFloat64} (hb : b ≠ .nan) (x : ℚ) :
    GoFloat64.gt (.finite x) b = false ↔ GoFloat64.le (.finite x) b = true := by
  cases b with
  | finite y => simp [GoFloat64.gt, GoFloat64.lt, GoFloat64.le]
  | nan => exact absurd rfl hb
  | posInf => simp [GoFloat64.gt, GoFloat64.lt, GoFloat64.le]
  | negInf => simp [GoFloat64.gt, GoFloat64.lt, GoFloat64.le]

theorem FindQuery_eq_collect {r : VehicleMap} {query : Query} {a b c d : GoFloat64}
    (h1 : query.lookup "min_length" = some (GoAny.float64 a))
    (h2 : query.lookup "max_length" = some (GoAny.float64 b))
    (h3 : query.lookup "min_width" = some (GoAny.float64 c))
    (h4 : query.lookup "max_width" = some (GoAny.float64 d)) :
    r.FindQuery query =
      (collect (fun v => !(GoFloat64.lt (.finite v.Height) a ||
        GoFloat64.gt (.finite v.Height) b || GoFloat64.lt (.finite v.Width) c ||
        GoFloat64.gt (.finite v.Width) d)) r.db.entries ∅, none) := by
  unfold FindQuery
  simp only [querySet_of_lookup h1]
  exact FindQueryLoop_bounds (float64At_of_lookup h1) (float64At_of_lookup h2)
    (float64At_of_lookup h3) (float64At_of_lookup h4) _ _

theorem FilterByWeight_eq_collect {r : VehicleMap} {query : Query} {a b : GoFloat64}
    (h1 : query.lookup "weight_min" = some (GoAny.float64 a))
    (h2 : query.lookup "weight_max" = some (GoAny.float64 b)) :
    r.FilterByWeight query =
      (collect (fun v => !(GoFloat64.lt (.finite v.Weight) a ||
        GoFloat64.gt (.finite v.Weight) b)) r.db.entries ∅, none) := by
  unfold FilterByWeight
  simp only [querySet_of_lookup h1]
  exact FilterByWeightLoop_bounds (float64At_of_lookup h1) (float64At_of_lookup h2) _ _

end VehicleMap

/-- C13 (counterexample): the criteria mapping
`{min_length: NaN, max_length: 2.0, min_width: 1.0, max_width: 2.0}` holds the four bounds
as floats, and `FindQuery` on the store of three vehicles returns all three without error,
although no height `x` satisfies `NaN <= x`: no comparison with NaN is true, so the test
`Height < min_length` rejects nothing. -/
theorem FindQuery_NaN_bound_counterexample :
    (sample.nanMinLength.float64At "min_length" = some .nan ∧
      sample.nanMinLength.float64At "max_length" = some (.finite 2) ∧
      sample.nanMinLength.float64At "min_width" = some (.finite 1) ∧
      sample.nanMinLength.float64At "max_width" = some (.finite 2)) ∧
    (sample.garage.FindQuery sample.nanMinLength).2 = none ∧
    sample.garage.db.keys = [3, 2, 1] ∧
    (sample.garage.FindQuery sample.nanMinLength).1.lookup 1
      = some { sample.corolla with Id := 1 } ∧
    (sample.garage.FindQuery sample.nanMinLength).1.lookup 2
      = some { sample.civic with Id := 2 } ∧
    (sample.garage.FindQuery sample.nanMinLength).1.lookup 3
      = some { sample.camry with Id := 3 } ∧
    (∀ x : ℚ, GoFloat64.le .nan (.finite x) = false) := by
  refine ⟨by decide, by decide!, by decide, by decide!, by decide!, by decide!, fun _ => rfl⟩

/-- C13 (amended): when the criteria mapping holds the four bounds `min_length`,
`max_length`, `min_width`, `max_width` as floats `a`, `b`, `c`, `d`, `FindQuery` returns no
error and a mapping whose entry under `k` is `v` exactly when `v` is the live vehicle under
`k` and none of the comparisons `Height < a`, `Height > b`, `Width < c`, `Width > d` is
true. When no bound is NaN, these are exactly the live vehicles with `a ≤ Height ≤ b` and
`c ≤ Width ≤ d` (the field `Length` does not occur), and the mapping is empty when no live
vehicle is within the bounds; for finite bounds the comparisons are those of the rational
values. -/
theorem FindQuery_bounds_not_NaN (r : VehicleMap) (query : Query) (a b c d : GoFloat64)
    (h1 : query.lookup "min_length" = some (GoAny.float64 a))
    (h2 : query.lookup "max_length" = some (GoAny.float64 b))
    (h3 : query.lookup "min_width" = some (GoAny.float64 c))
    (h4 : query.lookup "max_width" = some (GoAny.float64 d)) :
    (r.FindQuery query).2 = none ∧
    (∀ k v, (r.FindQuery query).1.lookup k = some v ↔
      r.db.lookup k = some v ∧
        GoFloat64.lt (.finite v.Height) a = false ∧ GoFloat64.gt (.finite v.Height) b = false ∧
        GoFloat64.lt (.finite v.Width) c = false ∧ GoFloat64.gt (.finite v.Width) d = false) ∧
    (a ≠ .nan → b ≠ .nan → c ≠ .nan → d ≠ .nan →
      (∀ k v, (r.FindQuery query).1.lookup k = some v ↔
        r.db.lookup k = some v ∧
          GoFloat64.le a (.finite v.Height) = true ∧ GoFloat64.le (.finite v.Height) b = true ∧
          GoFloat64.le c (.finite v.Width) = true ∧ GoFloat64.le (.finite v.Width) d = true) ∧
      ((∀ k v, r.db.lookup k = some v →
          ¬ (GoFloat64.le a (.finite v.Height) = true ∧
            GoFloat64.le (.finite v.Height) b = true ∧
            GoFloat64.le c (.finite v.Width) = true ∧
            GoFloat64.le (.finite v.Width) d = true)) →
        (r.FindQuery query).1 = ∅)) ∧
    (∀ a0 b0 c0 d0 : ℚ, a = .finite a0 → b = .finite b0 → c = .finite c0 → d = .finite d0 →
      ∀ k v, (r.FindQuery query).1.lookup k = some v ↔
        r.db.lookup k = some v ∧ a0 ≤ v.Height ∧ v.Height ≤ b0 ∧ c0 ≤ v.Width ∧
          v.Width ≤ d0) := by
  have hq := VehicleMap.FindQuery_eq_collect (r := r) h1 h2 h3 h4
  have hkeep : ∀ k v, (r.FindQuery query).1.lookup k = some v ↔
      r.db.lookup k = some v ∧
        GoFloat64.lt (.finite v.Height) a = false ∧ GoFloat64.gt (.finite v.Height) b = false ∧
        GoFloat64.lt (.finite v.Width) c = false ∧
        GoFloat64.gt (.finite v.Width) d = false := by
    intro k v
    rw [hq, VehicleMap.lookup_collect_db]
    simp only [Bool.not_eq_true', Bool.or_eq_false_iff, and_assoc]
  have hle : a ≠ .nan → b ≠ .nan → c ≠ .nan → d ≠ .nan →
      ∀ k v, (r.FindQuery query).1.lookup k = some v ↔
        r.db.lookup k = some v ∧
          GoFloat64.le a (.finite v.Height) = true ∧ GoFloat64.le (.finite v.Height) b = true ∧
          GoFloat64.le c (.finite v.Width) = true ∧
          GoFloat64.le (.finite v.Width) d = true := by
    intro ha hb hc hd k v
    rw [hkeep, VehicleMap.not_lt_iff_le ha, VehicleMap.not_gt_iff_le hb,
      VehicleMap.not_lt_iff_le hc, VehicleMap.not_gt_iff_le hd]
  refine ⟨by rw [hq], hkeep, fun ha hb hc hd => ⟨hle ha hb hc hd, fun hnone => ?_⟩, ?_⟩
  · apply AList.ext
    rw [AList.empty_entries]
    cases hent : (r.FindQuery query).1.entries with
    | nil => rfl
    | cons kv rest =>
      obtain ⟨k, v⟩ := kv
      have hmem : Sigma.mk k v ∈ (r.FindQuery query).1.entries := by
        rw [hent]; exact List.mem_cons_self _ _
      have hl := (hle ha hb hc hd k v).1 (AList.mem_lookup_iff.2 hmem)
      exact absurd hl.2 (hnone k v hl.1)
  · intro a0 b0 c0 d0 ha hb hc hd k v
    subst ha hb hc hd
    rw [hle (by simp) (by simp) (by simp) (by simp)]
    simp [GoFloat64.le]

theorem FindQuery_bounds_not_NaN_witness :
    (sample.garage.FindQuery sample.tallOnes).2 = none ∧
    ((sample.garage.FindQuery sample.tallOnes).1.lookup 3 = some { sample.camry with Id := 3 } ↔
      sample.garage.db.lookup 3 = some { sample.camry with Id := 3 } ∧
        (1.45 : ℚ) ≤ ({ sample.camry with Id := 3 } : Vehicle).Height ∧
        ({ sample.camry with Id := 3 } : Vehicle).Height ≤ 2 ∧
        (1 : ℚ) ≤ ({ sample.camry with Id := 3 } : Vehicle).Width ∧
        ({ sample.camry with Id := 3 } : Vehicle).Width ≤ 2) :=
  have h := FindQuery_bounds_not_NaN sample.garage sample.tallOnes (.finite 1.45) (.finite 2)
    (.finite 1) (.finite 2) rfl rfl rfl rfl
  ⟨h.1, h.2.2.2 1.45 2 1 2 rfl rfl rfl rfl 3 { sample.camry with Id := 3 }⟩

/-- C14 (counterexample): the criteria mapping `{weight_min: NaN, weight_max: NaN}` holds
both bounds as floats, and `FilterByWeight` on the store of three vehicles returns all three
without error, although no weight `x` satisfies `NaN <= x` or `x <= NaN`. -/
theorem FilterByWeight_NaN_bound_counterexample :
    (sample.nanWeights.float64At "weight_min" = some .nan ∧
      sample.nanWeights.float64At "weight_max" = some .nan) ∧
    (sample.garage.FilterByWeight sample.nanWeights).2 = none ∧
    sample.garage.db.keys = [3, 2, 1] ∧
    (sample.garage.FilterByWeight sample.nanWeights).1.lookup 1
      = some { sample.corolla with Id := 1 } ∧
    (sample.garage.FilterByWeight sample.nanWeights).1.lookup 2
      = some { sample.civic with Id := 2 } ∧
    (sample.garage.FilterByWeight sample.nanWeights).1.lookup 3
      = some { sample.camry with Id := 3 } ∧
    (∀ x : ℚ, GoFloat64.le .nan (.finite x) = false ∧ GoFloat64.le (.finite x) .nan = false) := by
  refine ⟨by decide, by decide!, by decide, by decide!, by decide!, by decide!,
    fun _ => ⟨rfl, rfl⟩⟩

/-- C14 (amended): when the criteria mapping holds `weight_min` and `weight_max` as floats
`a` and `b`, `FilterByWeight` returns no error and a mapping whose entry under `k` is `v`
exactly when `v` is the live vehicle under `k` and neither `Weight < a` nor `Weight > b` is
true. When no bound is NaN, these are exactly the live vehicles with `a ≤ Weight ≤ b`; for
finite bounds the comparisons are those of the rational values. -/
theorem FilterByWeight_bounds_not_NaN (r : VehicleMap) (query : Query) (a b : GoFloat64)
    (h1 : query.lookup "weight_min" = some (GoAny.float64 a))
    (h2 : query.lookup "weight_max" = some (GoAny.float64 b)) :
    (r.FilterByWeight query).2 = none ∧
    (∀ k v, (r.FilterByWeight query).1.lookup k = some v ↔
      r.db.lookup k = some v ∧
        GoFloat64.lt (.finite v.Weight) a = false ∧
        GoFloat64.gt (.finite v.Weight) b = false) ∧
    (a ≠ .nan → b ≠ .nan →
      ∀ k v, (r.FilterByWeight query).1.lookup k = some v ↔
        r.db.lookup k = some v ∧
          GoFloat64.le a (.finite v.Weight) = true ∧
          GoFloat64.le (.finite v.Weight) b = true) ∧
    (∀ a0 b0 : ℚ, a = .finite a0 → b = .finite b0 →
      ∀ k v, (r.FilterByWeight query).1.lookup k = some v ↔
        r.db.lookup k = some v ∧ a0 ≤ v.Weight ∧ v.Weight ≤ b0) := by
  have hq := VehicleMap.FilterByWeight_eq_collect (r := r) h1 h2
  have hkeep : ∀ k v, (r.FilterByWeight query).1.lookup k = some v ↔
      r.db.lookup k = some v ∧
        GoFloat64.lt (.finite v.Weight) a = false ∧
        GoFloat64.gt (.finite v.Weight) b = false := by
    intro k v
    rw [hq, VehicleMap.lookup_collect_db]
    simp only [Bool.not_eq_true', Bool.or_eq_false_iff]
  have hle : a ≠ .nan → b ≠ .nan →
      ∀ k v, (r.FilterByWeight query).1.lookup k = some v ↔
        r.db.lookup k = some v ∧
          GoFloat64.le a (.finite v.Weight) = true ∧
          GoFloat64.le (.finite v.Weight) b = true := by
    intro ha hb k v
    rw [hkeep, VehicleMap.not_lt_iff_le ha, VehicleMap.not_gt_iff_le hb]
  refine ⟨by rw [hq], hkeep, hle, ?_⟩
  intro a0 b0 ha hb k v
  subst ha hb
  rw [hle (by simp) (by simp)]
  simp [GoFloat64.le]

theorem FilterByWeight_bounds_not_NaN_witness :
    (sample.garage.FilterByWeight sample.lightOnes).2 = none ∧
    ((sample.garage.FilterByWeight sample.lightOnes).1.lookup 3 = some { sample.camry with Id := 3 } ↔
      sample.garage.db.lookup 3 = some { sample.camry with Id := 3 } ∧
        (1000 : ℚ) ≤ ({ sample.camry with Id := 3 } : Vehicle).Weight ∧
        ({ sample.camry with Id := 3 } : Vehicle).Weight ≤ 1300) :=
  have h := FilterByWeight_bounds_not_NaN sample.garage sample.lightOnes (.finite 1000)
    (.finite 1300) (by decide) (by decide)
  ⟨h.1, h.2.2.2 1000 1300 rfl rfl 3 { sample.camry with Id := 3 }⟩

/-- C15: with an empty criteria mapping (which is also what a nil mapping reads as),
`FindQuery` and `FilterByWeight` return no error and a mapping with the entries of the
table: every key reads as in the table, and the entries are those of the table up to their
order. -/
theorem no_criteria_returns_table (r : VehicleMap) :
    ((r.FindQuery ∅).2 = none ∧
      (∀ k, (r.FindQuery ∅).1.lookup k = r.db.lookup k) ∧
      (r.FindQuery ∅).1.entries.Perm r.db.entries) ∧
    ((r.FilterByWeight ∅).2 = none ∧
      (∀ k, (r.FilterByWeight ∅).1.lookup k = r.db.lookup k) ∧
      (r.FilterByWeight ∅).1.entries.Perm r.db.entries) := by
  have hall : ∀ k, (VehicleMap.collect (fun _ => true) r.db.entries ∅).lookup k
      = r.db.lookup k := by
    intro k
    apply Option.ext
    intro v
    rw [Option.mem_def, Option.mem_def, VehicleMap.lookup_collect_db]
    simp
  have h1 : r.FindQuery ∅ = (VehicleMap.collect (fun _ => true) r.db.entries ∅, none) := by
    unfold VehicleMap.FindQuery
    exact VehicleMap.FindQueryLoop_unset ∅ _ _
  have h2 : r.FilterByWeight ∅ =
      (VehicleMap.collect (fun _ => true) r.db.entries ∅, none) := by
    unfold VehicleMap.FilterByWeight
    exact VehicleMap.FilterByWeightLoop_unset ∅ _ _
  rw [h1, h2]
  exact ⟨⟨rfl, hall, VehicleMap.collect_true_perm r⟩, ⟨rfl, hall, VehicleMap.collect_true_perm r⟩⟩

namespace VehicleMap

theorem VelocityAveragebyBrand_eq (r : VehicleMap) (rnd : ℚ → ℚ) (brand : String) :
    r.VelocityAveragebyBrand rnd brand =
      if r.ofBrand brand = [] then (0, some ErrorNotFound)
      else (rnd (roundedSum rnd ((r.ofBrand brand).map (fun v => v.MaxSpeed)) /
        rnd ((r.ofBrand brand).length : ℚ)), none) := by
  obtain ⟨h1, h2⟩ := averageLoop_db rnd brand (fun v => v.MaxSpeed) r
  unfold VelocityAveragebyBrand
  rw [VelocityAverageLoop_eq]
  simp only [h1, h2, List.length_eq_zero]
  by_cases hnil : r.ofBrand brand = [] <;> simp [hnil]

theorem CapacityAveragebyBrand_eq (r : VehicleMap) (rnd : ℚ → ℚ) (brand : String) :
    r.CapacityAveragebyBrand rnd brand =
      if r.ofBrand brand = [] then (0, some ErrorNotFound)
      else (rnd (roundedSum rnd ((r.ofBrand brand).map (fun v => rnd (v.Capacity : ℚ))) /
        rnd ((r.ofBrand brand).length : ℚ)), none) := by
  obtain ⟨h1, h2⟩ := averageLoop_db rnd brand (fun v => rnd (v.Capacity : ℚ)) r
  unfold CapacityAveragebyBrand
  rw [CapacityAverageLoop_eq]
  simp only [h1, h2, List.length_eq_zero]
  by_cases hnil : r.ofBrand brand = [] <;> simp [hnil]

end VehicleMap

namespace VehicleMap

theorem VelocityAverageLoop64_eq (brand : String) :
    ∀ (l : List (Sigma fun _ : Int => Vehicle)) (st : Table × GoFloat64 × GoFloat64),
      VelocityAverageLoop64 brand l st =
        averageLoop64 brand (fun v => .finite v.MaxSpeed) l st := by
  intro l
  induction l with
  | nil => intro st; rfl
  | cons kv rest ih =>
    intro st
    obtain ⟨k, v⟩ := kv
    obtain ⟨vehicle, total, average⟩ := st
    simp only [VelocityAverageLoop64, averageLoop64, ih]

theorem CapacityAverageLoop64_eq (brand : String) :
    ∀ (l : List (Sigma fun _ : Int => Vehicle)) (st : Table × GoFloat64 × GoFloat64),
      CapacityAverageLoop64 brand l st =
        averageLoop64 brand (fun v => float64.ofInt v.Capacity) l st := by
  intro l
  induction l with
  | nil => intro st; rfl
  | cons kv rest ih =>
    intro st
    obtain ⟨k, v⟩ := kv
    obtain ⟨vehicle, total, average⟩ := st
    simp only [CapacityAverageLoop64, averageLoop64, ih]

/-- The state of a float64 average loop at its end: the map has one more entry for each
vehicle of the brand, the sum is the float64 sum of their terms, and the average is the
quotient computed at the last of them. -/
theorem averageLoop64_spec (brand : String) (term : Vehicle → GoFloat64) :
    ∀ (l : List (Sigma fun _ : Int => Vehicle)) (vehicle : Table) (total average : GoFloat64),
      l.NodupKeys → (∀ kv ∈ l, kv.1 ∉ vehicle) →
      (averageLoop64 brand term l (vehicle, total, average)).1.entries.length =
        vehicle.entries.length + (l.filter (fun kv => kv.2.Brand = brand)).length ∧
      (averageLoop64 brand term l (vehicle, total, average)).2.1 =
        ((l.filter (fun kv => kv.2.Brand = brand)).map (fun kv => term kv.2)).foldl
          float64.add total ∧
      (averageLoop64 brand term l (vehicle, total, average)).2.2 =
        if l.filter (fun kv => kv.2.Brand = brand) = [] then average
        else float64.div (averageLoop64 brand term l (vehicle, total, average)).2.1
          (float64.ofInt
            ((averageLoop64 brand term l (vehicle, total, average)).1.entries.length :
              Int)) := by
  intro l
  induction l with
  | nil => intro vehicle total average _ _; simp [averageLoop64]
  | cons kv rest ih =>
    intro vehicle total average hnd hdisj
    obtain ⟨k, v⟩ := kv
    rw [List.nodupKeys_cons] at hnd
    obtain ⟨hk, hrest⟩ := hnd
    have hkv : k ∉ vehicle := hdisj ⟨k, v⟩ (List.mem_cons_self _ _)
    by_cases hb : v.Brand = brand
    · have hdisj1 : ∀ kv ∈ rest, kv.1 ∉ vehicle.insert k v := by
        intro kv hmem hin
        rw [AList.mem_insert] at hin
        rcases hin with heq | hin
        · have hkeys : kv.1 ∈ rest.keys := List.mem_keys.2 ⟨kv.2, hmem⟩
          rw [heq] at hkeys
          exact hk hkeys
        · exact hdisj kv (List.mem_cons_of_mem _ hmem) hin
      obtain ⟨ih1, ih2, ih3⟩ := ih (vehicle.insert k v) (float64.add total (term v))
        (float64.div (float64.add total (term v))
          (float64.ofInt ((vehicle.insert k v).entries.length : Int)))
        hrest hdisj1
      have hlen : (vehicle.insert k v).entries.length = vehicle.entries.length + 1 := by
        rw [AList.insert_entries_of_neg hkv]; rfl
      have hstep : averageLoop64 brand term (⟨k, v⟩ :: rest) (vehicle, total, average) =
          averageLoop64 brand term rest
            (vehicle.insert k v, float64.add total (term v),
              float64.div (float64.add total (term v))
                (float64.ofInt ((vehicle.insert k v).entries.length : Int))) := by
        simp only [averageLoop64, hb, if_true]
      have hfilter : (List.filter (fun kv : (Sigma fun _ : Int => Vehicle) =>
          decide (kv.2.Brand = brand)) (⟨k, v⟩ :: rest)) =
          ⟨k, v⟩ :: List.filter (fun kv => decide (kv.2.Brand = brand)) rest := by
        rw [List.filter_cons_of_pos]; simp [hb]
      rw [hstep, hfilter]
      refine ⟨?_, ?_, ?_⟩
      · rw [ih1, hlen, List.length_cons]; omega
      · rw [ih2]; rfl
      · rw [ih3]
        by_cases hnil : List.filter (fun kv : (Sigma fun _ : Int => Vehicle) =>
            decide (kv.2.Brand = brand)) rest = []
        · rw [if_pos hnil, if_neg (List.cons_ne_nil _ _)]
          rw [ih2, ih1, hnil]
          simp
        · rw [if_neg hnil, if_neg (List.cons_ne_nil _ _)]
    · have hdisj1 : ∀ kv ∈ rest, kv.1 ∉ vehicle :=
        fun kv hmem => hdisj kv (List.mem_cons_of_mem _ hmem)
      have hstep : averageLoop64 brand term (⟨k, v⟩ :: rest) (vehicle, total, average) =
          averageLoop64 brand term rest (vehicle, total, average) := by
        simp only [averageLoop64, hb, if_false]
      have hfilter : (List.filter (fun kv : (Sigma fun _ : Int => Vehicle) =>
          decide (kv.2.Brand = brand)) (⟨k, v⟩ :: rest)) =
          List.filter (fun kv => decide (kv.2.Brand = brand)) rest := by
        rw [List.filter_cons_of_neg]; simp [hb]
      rw [hstep, hfilter]
      exact ih vehicle total average hrest hdisj1

/-- The result of a float64 average loop run on the whole table from the initial state. -/
theorem averageLoop64_db (brand : String) (term : Vehicle → GoFloat64) (r : VehicleMap) :
    (averageLoop64 brand term r.db.entries (∅, .finite 0, .finite 0)).1.entries.length =
        (r.ofBrand brand).length ∧
      (averageLoop64 brand term r.db.entries (∅, .finite 0, .finite 0)).2.2 =
        if r.ofBrand brand = [] then .finite 0
        else float64.div (sum64 ((r.ofBrand brand).map term))
          (float64.ofInt ((r.ofBrand brand).length : Int)) := by
  obtain ⟨h1, h2, h3⟩ := averageLoop64_spec brand term r.db.entries ∅ (.finite 0) (.finite 0)
    r.db.nodupKeys (fun kv _ => AList.not_mem_empty kv.1)
  have hlen : (averageLoop64 brand term r.db.entries (∅, .finite 0, .finite 0)).1.entries.length
      = (r.ofBrand brand).length := by
    rw [h1, ofBrand_length]; simp
  refine ⟨hlen, ?_⟩
  rw [h3, h2, hlen]
  by_cases hnil : r.ofBrand brand = []
  · rw [if_pos hnil, if_pos ((filter_eq_nil_iff_ofBrand r brand).2 hnil)]
  · rw [if_neg hnil, if_neg (fun h => hnil ((filter_eq_nil_iff_ofBrand r brand).1 h))]
    simp [sum64, ofBrand, List.map_map, Function.comp_def]

theorem VelocityAveragebyBrand64_eq (r : VehicleMap) (brand : String) :
    r.VelocityAveragebyBrand64 brand =
      if r.ofBrand brand = [] then (.finite 0, some ErrorNotFound)
      else (float64.div (sum64 ((r.ofBrand brand).map (fun v => .finite v.MaxSpeed)))
        (float64.ofInt ((r.ofBrand brand).length : Int)), none) := by
  obtain ⟨h1, h2⟩ := averageLoop64_db brand (fun v => .finite v.MaxSpeed) r
  unfold VelocityAveragebyBrand64
  rw [VelocityAverageLoop64_eq]
  simp only [h1, h2, List.length_eq_zero]
  by_cases hnil : r.ofBrand brand = [] <;> simp [hnil]

theorem CapacityAveragebyBrand64_eq (r : VehicleMap) (brand : String) :
    r.CapacityAveragebyBrand64 brand =
      if r.ofBrand brand = [] then (.finite 0, some ErrorNotFound)
      else (float64.div (sum64 ((r.ofBrand brand).map (fun v => float64.ofInt v.Capacity)))
        (float64.ofInt ((r.ofBrand brand).length : Int)), none) := by
  obtain ⟨h1, h2⟩ := averageLoop64_db brand (fun v => float64.ofInt v.Capacity) r
  unfold CapacityAveragebyBrand64
  rw [CapacityAverageLoop64_eq]
  simp only [h1, h2, List.length_eq_zero]
  by_cases hnil : r.ofBrand brand = [] <;> simp [hnil]

/-- The two forms of each average return the same error, whatever the rounding. -/
theorem VelocityAveragebyBrand64_err_eq (r : VehicleMap) (rnd : ℚ → ℚ) (brand : String) :
    (r.VelocityAveragebyBrand64 brand).2 = (r.VelocityAveragebyBrand rnd brand).2 := by
  rw [VelocityAveragebyBrand64_eq, VelocityAveragebyBrand_eq]
  by_cases hnil : r.ofBrand brand = [] <;> simp [hnil]

theorem CapacityAveragebyBrand64_err_eq (r : VehicleMap) (rnd : ℚ → ℚ) (brand : String) :
    (r.CapacityAveragebyBrand64 brand).2 = (r.CapacityAveragebyBrand rnd brand).2 := by
  rw [CapacityAveragebyBrand64_eq, CapacityAveragebyBrand_eq]
  by_cases hnil : r.ofBrand brand = [] <;> simp [hnil]

/-- A float64 sum none of whose additions rounds is the exact sum. -/
theorem foldl_add_exact : ∀ (l : List ℚ) (a : ℚ),
    (∀ n, n ≤ l.length → float64.ofRat (a + (l.take n).sum) = .finite (a + (l.take n).sum)) →
    (l.map GoFloat64.finite).foldl float64.add (.finite a) = .finite (a + l.sum) := by
  intro l
  induction l with
  | nil => intro a _; simp
  | cons x l ih =>
    intro a h
    have h1 := h 1 (by simp)
    simp only [List.take_succ_cons, List.take_zero, List.sum_cons, List.sum_nil, add_zero] at h1
    rw [List.map_cons, List.foldl_cons]
    have hadd : float64.add (.finite a) (.finite x) = .finite (a + x) := by
      show float64.ofRat (a + x) = _
      exact h1
    rw [hadd, ih (a + x), List.sum_cons, add_assoc]
    intro n hn
    have h2 := h (n + 1) (by simpa using hn)
    simp only [List.take_succ_cons, List.sum_cons] at h2
    rw [add_assoc]
    exact h2

theorem sum64_exact (l : List ℚ)
    (h : ∀ n, n ≤ l.length → float64.ofRat ((l.take n).sum) = .finite ((l.take n).sum)) :
    sum64 (l.map GoFloat64.finite) = .finite l.sum := by
  have := foldl_add_exact l 0 (by simpa using h)
  simpa [sum64] using this

end VehicleMap

/-- C16 (counterexample): `VelocityAveragebyBrand` does not return the arithmetic mean. On
the table of two vehicles of one brand whose maximum speed is the largest float64, the
running sum overflows and the call returns `+Inf` without error, while the mean of the two
speeds is the largest float64 itself. On `sample.fleet`, whose speeds are the float64
values of 180.5, 150.1 and 150.3, the call returns 160.29999999999998, which is neither
the mean of the three speeds nor the float64 nearest to that mean. -/
theorem VelocityAveragebyBrand_mean_counterexample :
    ((NewVehicleMap (some sample.rockets) 2).ofBrand "Toyota").map (fun v => v.MaxSpeed)
      = [float64.maxFloat, float64.maxFloat] ∧
    (NewVehicleMap (some sample.rockets) 2).VelocityAveragebyBrand64 "Toyota"
      = (.posInf, none) ∧
    (float64.maxFloat + float64.maxFloat) / 2 = float64.maxFloat ∧
    ((NewVehicleMap (some sample.fleet) 3).ofBrand "Toyota").map (fun v => v.MaxSpeed)
      = [sample.slow.MaxSpeed, sample.medium.MaxSpeed, sample.fast.MaxSpeed] ∧
    (NewVehicleMap (some sample.fleet) 3).VelocityAveragebyBrand64 "Toyota"
      = (.finite (5640054845839769 / 35184372088832), none) ∧
    (sample.slow.MaxSpeed + sample.medium.MaxSpeed + sample.fast.MaxSpeed) / 3
      = 16920164537519309 / 105553116266496 ∧
    float64.ofRat (16920164537519309 / 105553116266496)
      = .finite (2820027422919885 / 17592186044416) ∧
    (5640054845839769 / 35184372088832 : ℚ) ≠ 16920164537519309 / 105553116266496 ∧
    (5640054845839769 / 35184372088832 : ℚ) ≠ 2820027422919885 / 17592186044416 := by
  refine ⟨by decide!, by decide!, by decide!, by decide!, by decide!, by decide!, by decide!,
    by decide!, by decide!⟩

/-- C16 (amended): when some live vehicle has the brand, `VelocityAveragebyBrand` returns
no error and the quotient that its loop computed at the last vehicle of the brand: the
float64 sum of `MaxSpeed` over exactly the live vehicles of the brand, added one by one in
the order the table is visited, divided in float64 by their number. Each operation rounds
to the nearest float64 and gives an infinity beyond the largest one. When no partial sum,
nor the count, nor the quotient is changed by that rounding, the result is the arithmetic
mean. -/
theorem VelocityAveragebyBrand64_rounded_mean (r : VehicleMap) (brand : String)
    (h : ∃ k v, r.db.lookup k = some v ∧ v.Brand = brand) :
    r.VelocityAveragebyBrand64 brand =
      (float64.div (VehicleMap.sum64 ((r.ofBrand brand).map (fun v => .finite v.MaxSpeed)))
        (float64.ofInt ((r.ofBrand brand).length : Int)), none) ∧
    (∀ v, v ∈ r.ofBrand brand ↔ ∃ k, r.db.lookup k = some v ∧ v.Brand = brand) ∧
    ((∀ n, n ≤ (r.ofBrand brand).length →
        float64.ofRat ((((r.ofBrand brand).map (fun v => v.MaxSpeed)).take n).sum) =
          .finite ((((r.ofBrand brand).map (fun v => v.MaxSpeed)).take n).sum)) →
      float64.ofInt ((r.ofBrand brand).length : Int) = .finite ((r.ofBrand brand).length : ℚ) →
      float64.ofRat (((r.ofBrand brand).map (fun v => v.MaxSpeed)).sum /
          ((r.ofBrand brand).length : ℚ)) =
        .finite (((r.ofBrand brand).map (fun v => v.MaxSpeed)).sum /
          ((r.ofBrand brand).length : ℚ)) →
      r.VelocityAveragebyBrand64 brand =
        (.finite (((r.ofBrand brand).map (fun v => v.MaxSpeed)).sum /
          ((r.ofBrand brand).length : ℚ)), none)) := by
  have hne : r.ofBrand brand ≠ [] := fun hnil => (VehicleMap.ofBrand_eq_nil_iff r brand).1 hnil h
  have heq := VehicleMap.VelocityAveragebyBrand64_eq r brand
  rw [if_neg hne] at heq
  refine ⟨heq, VehicleMap.mem_ofBrand r brand, fun hsum hlen hquot => ?_⟩
  have hmap : (r.ofBrand brand).map (fun v => GoFloat64.finite v.MaxSpeed) =
      ((r.ofBrand brand).map (fun v => v.MaxSpeed)).map GoFloat64.finite := by
    rw [List.map_map]; rfl
  have hs := VehicleMap.sum64_exact ((r.ofBrand brand).map (fun v => v.MaxSpeed))
    (by simpa using hsum)
  have hpos : ((r.ofBrand brand).length : ℚ) ≠ 0 := by
    have : 0 < (r.ofBrand brand).length := List.length_pos.2 hne
    exact_mod_cast this.ne'
  rw [heq, hmap, hs, hlen]
  show (if ((r.ofBrand brand).length : ℚ) = 0 then _ else float64.ofRat _, none) = _
  rw [if_neg hpos, hquot]

theorem VelocityAveragebyBrand64_rounded_mean_witness :
    sample.garage.VelocityAveragebyBrand64 "Toyota" =
      (.finite (((sample.garage.ofBrand "Toyota").map (fun v => v.MaxSpeed)).sum /
        ((sample.garage.ofBrand "Toyota").length : ℚ)), none) ∧
    ((sample.garage.ofBrand "Toyota").map (fun v => v.MaxSpeed)).sum /
      ((sample.garage.ofBrand "Toyota").length : ℚ) = 355 / 2 := by
  have hlen : (sample.garage.ofBrand "Toyota").length = 2 := by decide!
  have h := (VelocityAveragebyBrand64_rounded_mean sample.garage "Toyota"
    ⟨1, { sample.corolla with Id := 1 }, by decide!, rfl⟩).2.2
    (by
      intro n hn
      rw [hlen] at hn
      have hn3 : n = 0 ∨ n = 1 ∨ n = 2 := by omega
      rcases hn3 with rfl | rfl | rfl <;> decide!)
    (by decide!) (by decide!)
  exact ⟨h, by decide!⟩

/-- C17: `VelocityAveragebyBrand` fails with `ErrorNotFound` exactly when no live vehicle
has the brand, and returns no error exactly when one has; with no vehicle of the brand the
result is the error together with the unset float, never a float without error. -/
theorem VelocityAveragebyBrand_NotFound_iff (r : VehicleMap) (rnd : ℚ → ℚ) (brand : String) :
    ((r.VelocityAveragebyBrand rnd brand).2 = some ErrorNotFound ↔
      ¬ ∃ k v, r.db.lookup k = some v ∧ v.Brand = brand) ∧
    ((r.VelocityAveragebyBrand rnd brand).2 = none ↔
      ∃ k v, r.db.lookup k = some v ∧ v.Brand = brand) ∧
    ((¬ ∃ k v, r.db.lookup k = some v ∧ v.Brand = brand) →
      r.VelocityAveragebyBrand rnd brand = (0, some ErrorNotFound)) := by
  rw [VehicleMap.VelocityAveragebyBrand_eq]
  by_cases hnil : r.ofBrand brand = []
  · have hno := (VehicleMap.ofBrand_eq_nil_iff r brand).1 hnil
    rw [if_pos hnil]
    exact ⟨⟨fun _ => hno, fun _ => rfl⟩, ⟨fun h => absurd h (by simp), fun h => absurd h hno⟩,
      fun _ => rfl⟩
  · have hex : ∃ k v, r.db.lookup k = some v ∧ v.Brand = brand :=
      not_not.1 (fun h => hnil ((VehicleMap.ofBrand_eq_nil_iff r brand).2 h))
    rw [if_neg hnil]
    exact ⟨⟨fun h => absurd h (by simp), fun h => absurd hex h⟩, ⟨fun _ => hex, fun _ => rfl⟩,
      fun h => absurd hex h⟩

/-- C18 (counterexample): `CapacityAveragebyBrand` does not return the sum of the integer
capacities divided by their count. On the table of one vehicle of capacity `2^53 + 1` the
call returns `2^53` without error: the conversion `float64(value.Capacity)` rounds. -/
theorem CapacityAveragebyBrand_mean_counterexample :
    ((NewVehicleMap (some sample.bus) 1).ofBrand "Toyota").map (fun v => v.Capacity)
      = [9007199254740993] ∧
    (NewVehicleMap (some sample.bus) 1).CapacityAveragebyBrand64 "Toyota"
      = (.finite 9007199254740992, none) ∧
    ((9007199254740993 : Int) : ℚ) / 1 ≠ 9007199254740992 := by
  refine ⟨by decide!, by decide!, by decide!⟩

/-- C18 (amended): `CapacityAveragebyBrand` fails with `ErrorNotFound` exactly when no live
vehicle has the brand; when one has, it returns no error and the float64 sum of the
capacities of the live vehicles of the brand, each converted to a float64 and added in the
order the table is visited, divided in float64 by their number. When no conversion, partial
sum or quotient is changed by the rounding to float64, the result is the sum of the integer
capacities divided by their count. -/
theorem CapacityAveragebyBrand64_rounded_mean (r : VehicleMap) (brand : String) :
    ((r.CapacityAveragebyBrand64 brand).2 = some ErrorNotFound ↔
      ¬ ∃ k v, r.db.lookup k = some v ∧ v.Brand = brand) ∧
    ((∃ k v, r.db.lookup k = some v ∧ v.Brand = brand) →
      r.CapacityAveragebyBrand64 brand =
        (float64.div
          (VehicleMap.sum64 ((r.ofBrand brand).map (fun v => float64.ofInt v.Capacity)))
          (float64.ofInt ((r.ofBrand brand).length : Int)), none) ∧
      ((∀ v ∈ r.ofBrand brand, float64.ofInt v.Capacity = .finite (v.Capacity : ℚ)) →
        (∀ n, n ≤ (r.ofBrand brand).length →
          float64.ofRat ((((r.ofBrand brand).map (fun v => (v.Capacity : ℚ))).take n).sum) =
            .finite ((((r.ofBrand brand).map (fun v => (v.Capacity : ℚ))).take n).sum)) →
        float64.ofInt ((r.ofBrand brand).length : Int) =
          .finite ((r.ofBrand brand).length : ℚ) →
        float64.ofRat ((((r.ofBrand brand).map (fun v => v.Capacity)).sum : ℚ) /
            ((r.ofBrand brand).length : ℚ)) =
          .finite ((((r.ofBrand brand).map (fun v => v.Capacity)).sum : ℚ) /
            ((r.ofBrand brand).length : ℚ)) →
        r.CapacityAveragebyBrand64 brand =
          (.finite ((((r.ofBrand brand).map (fun v => v.Capacity)).sum : ℚ) /
            ((r.ofBrand brand).length : ℚ)), none))) := by
  constructor
  · rw [VehicleMap.CapacityAveragebyBrand64_eq, ← VehicleMap.ofBrand_eq_nil_iff]
    by_cases hnil : r.ofBrand brand = []
    · simp [hnil]
    · simp [hnil]
  · intro h
    have hne : r.ofBrand brand ≠ [] :=
      fun hnil => (VehicleMap.ofBrand_eq_nil_iff r brand).1 hnil h
    have heq := VehicleMap.CapacityAveragebyBrand64_eq r brand
    rw [if_neg hne] at heq
    refine ⟨heq, fun hconv hsum hlen hquot => ?_⟩
    have hmap : (r.ofBrand brand).map (fun v => float64.ofInt v.Capacity) =
        ((r.ofBrand brand).map (fun v => (v.Capacity : ℚ))).map GoFloat64.finite := by
      rw [List.map_map]
      exact List.map_congr_left (fun v hv => hconv v hv)
    have hs := VehicleMap.sum64_exact ((r.ofBrand brand).map (fun v => (v.Capacity : ℚ)))
      (by simpa using hsum)
    have hcast : ((r.ofBrand brand).map (fun v => (v.Capacity : ℚ))).sum =
        (((r.ofBrand brand).map (fun v => v.Capacity)).sum : ℚ) := by
      induction r.ofBrand brand with
      | nil => simp
      | cons v l ih => simp only [List.map_cons, List.sum_cons, ih, Int.cast_add]
    have hpos : ((r.ofBrand brand).length : ℚ) ≠ 0 := by
      have : 0 < (r.ofBrand brand).length := List.length_pos.2 hne
      exact_mod_cast this.ne'
    rw [heq, hmap, hs, hlen, hcast]
    show (if ((r.ofBrand brand).length : ℚ) = 0 then _ else float64.ofRat _, none) = _
    rw [if_neg hpos, hquot]

theorem CapacityAveragebyBrand64_rounded_mean_witness :
    sample.garage.CapacityAveragebyBrand64 "Toyota" = (.finite (9 / 2), none) ∧
    (sample.garage.CapacityAveragebyBrand64 "Ford").2 = some ErrorNotFound := by
  have hlen : (sample.garage.ofBrand "Toyota").length = 2 := by decide!
  have hmem : ∀ v ∈ sample.garage.ofBrand "Toyota",
      v = { sample.camry with Id := 3 } ∨ v = { sample.corolla with Id := 1 } := by
    intro v hv
    have : v ∈ [{ sample.camry with Id := 3 }, { sample.corolla with Id := 1 }] := by
      have hl : sample.garage.ofBrand "Toyota" =
          [{ sample.camry with Id := 3 }, { sample.corolla with Id := 1 }] := by decide!
      rw [← hl]; exact hv
    simpa using this
  have h := ((CapacityAveragebyBrand64_rounded_mean sample.garage "Toyota").2
    ⟨1, { sample.corolla with Id := 1 }, by decide!, rfl⟩).2
    (by
      intro v hv
      rcases hmem v hv with rfl | rfl <;> decide!)
    (by
      intro n hn
      rw [hlen] at hn
      have hn3 : n = 0 ∨ n = 1 ∨ n = 2 := by omega
      rcases hn3 with rfl | rfl | rfl <;> decide!)
    (by decide!) (by decide!)
  have h2 := (CapacityAveragebyBrand64_rounded_mean sample.garage "Ford").1
  refine ⟨?_, h2.2 ((VehicleMap.ofBrand_eq_nil_iff sample.garage "Ford").1 (by decide!))⟩
  rw [h]
  decide!

/-- C19: `Delete` fails with `ErrorNotFound` exactly when `id` is not a key of the table,
and then leaves the store as it was; when `id` is a key it returns no error, and `GetbyID`
of `id` on the resulting store fails with `ErrorNotFound`. -/
theorem Delete_NotFound_iff (r : VehicleMap) (id : Int) :
    ((r.Delete id).2 = some ErrorNotFound ↔ id ∉ r.db.keys) ∧
    (id ∉ r.db.keys → (r.Delete id).1 = r) ∧
    (id ∈ r.db.keys →
      (r.Delete id).2 = none ∧ ((r.Delete id).1.GetbyID id).2 = some ErrorNotFound) := by
  rw [← AList.mem_keys, ← AList.lookup_isSome]
  unfold VehicleMap.Delete
  cases h : r.db.lookup id with
  | none => simp
  | some w => simp [VehicleMap.GetbyID, AList.lookup_erase]

/-- C20: `UpdateVehicle` fails with `ErrorNotFound` exactly when the id of `e` is not a key
of the table, and then leaves the store as it was; when it is a key the call returns no
error, and `GetbyID` of that id on the resulting store returns `e` itself, id included. -/
theorem UpdateVehicle_NotFound_iff (r : VehicleMap) (e : Vehicle) :
    ((r.UpdateVehicle e).2 = some ErrorNotFound ↔ e.Id ∉ r.db.keys) ∧
    (e.Id ∉ r.db.keys → (r.UpdateVehicle e).1 = r) ∧
    (e.Id ∈ r.db.keys →
      (r.UpdateVehicle e).2 = none ∧ (r.UpdateVehicle e).1.GetbyID e.Id = (e, none)) := by
  rw [← AList.mem_keys, ← AList.lookup_isSome]
  unfold VehicleMap.UpdateVehicle
  cases h : r.db.lookup e.Id with
  | none => simp
  | some w => simp [VehicleMap.GetbyID, AList.lookup_insert]

end repository

namespace repository

open internal

namespace VehicleMap

/-- The entries and the emptiness of the map that a filtering loop builds from the table. -/
theorem collect_db_spec (keep : Vehicle → Bool) (r : VehicleMap) :
    (∀ k v, (collect keep r.db.entries ∅).lookup k = some v ↔
      r.db.lookup k = some v ∧ keep v = true) ∧
    ((collect keep r.db.entries ∅).entries.length = 0 ↔
      ¬ ∃ k v, r.db.lookup k = some v ∧ keep v = true) := by
  refine ⟨lookup_collect_db keep r, ?_⟩
  constructor
  · rintro hlen ⟨k, v, hl, hk⟩
    have hmem := AList.mem_lookup_iff.1 ((lookup_collect_db keep r k v).2 ⟨hl, hk⟩)
    rw [List.length_eq_zero] at hlen
    rw [hlen] at hmem
    exact absurd hmem (List.not_mem_nil _)
  · intro hno
    have hempty := collect_eq_empty keep r (fun k v hl => by
      cases hk : keep v
      · rfl
      · exact absurd ⟨k, v, hl, hk⟩ hno)
    rw [hempty]
    rfl

/-- The result of a read that filters the table with `keep` and fails on an empty result:
its entries, and when it fails. -/
theorem find_spec (keep : Vehicle → Bool) (r : VehicleMap) (P : Vehicle → Prop)
    (hP : ∀ v, keep v = true ↔ P v) (out : Table × Option GoError)
    (hout : out = if (collect keep r.db.entries ∅).entries.length = 0
      then (collect keep r.db.entries ∅, some ErrorNotFound)
      else (collect keep r.db.entries ∅, none)) :
    (∀ k v, out.1.lookup k = some v ↔ r.db.lookup k = some v ∧ P v) ∧
    (out.2 = some ErrorNotFound ↔ ¬ ∃ k v, r.db.lookup k = some v ∧ P v) ∧
    (out.2 = none ↔ ∃ k v, r.db.lookup k = some v ∧ P v) := by
  obtain ⟨hl, hn⟩ := collect_db_spec keep r
  have hex : (∃ k v, r.db.lookup k = some v ∧ keep v = true) ↔
      ∃ k v, r.db.lookup k = some v ∧ P v := by
    constructor
    · rintro ⟨k, v, h1, h2⟩; exact ⟨k, v, h1, (hP v).1 h2⟩
    · rintro ⟨k, v, h1, h2⟩; exact ⟨k, v, h1, (hP v).2 h2⟩
  rw [hex] at hn
  by_cases hlen : (collect keep r.db.entries ∅).entries.length = 0
  · rw [if_pos hlen] at hout
    have hno := hn.1 hlen
    subst hout
    refine ⟨fun k v => ?_, ⟨fun _ => hno, fun _ => rfl⟩,
      ⟨fun h => absurd h (by simp), fun h => absurd h hno⟩⟩
    rw [← hP v]; exact hl k v
  · rw [if_neg hlen] at hout
    have hyes : ∃ k v, r.db.lookup k = some v ∧ P v :=
      not_not.1 (fun h => hlen (hn.2 h))
    subst hout
    refine ⟨fun k v => ?_, ⟨fun h => absurd h (by simp), fun h => absurd hyes h⟩,
      ⟨fun _ => hyes, fun _ => rfl⟩⟩
    rw [← hP v]; exact hl k v

end VehicleMap

/-- C21: on a store where `i` is a key and another key `j` holds `vj`, `UpdateVehicle` of a
vehicle with id `i` and the brand, model and fabrication year of `vj` returns no error;
afterwards the table holds that vehicle under `i` and still `vj` under `j`, two live
vehicles with the same three fields. -/
theorem UpdateVehicle_no_uniqueness_check (r : VehicleMap) (i j : Int) (vj e : Vehicle)
    (hi : i ∈ r.db.keys) (hj : r.db.lookup j = some vj) (hij : i ≠ j) (he : e.Id = i)
    (hk : e.Brand = vj.Brand ∧ e.Model = vj.Model ∧
      e.FabricationYear = vj.FabricationYear) :
    (r.UpdateVehicle e).2 = none ∧
    (r.UpdateVehicle e).1.db.lookup i = some e ∧
    (r.UpdateVehicle e).1.db.lookup j = some vj ∧
    ¬ (r.UpdateVehicle e).1.UniqueKey := by
  subst he
  have hsome : (r.db.lookup e.Id).isSome := AList.lookup_isSome.2 (AList.mem_keys.2 hi)
  have hup : r.UpdateVehicle e = ({ r with db := r.db.insert e.Id e }, none) := by
    unfold VehicleMap.UpdateVehicle
    cases h : r.db.lookup e.Id with
    | none => rw [h] at hsome; exact absurd hsome (by simp)
    | some w => rfl
  rw [hup]
  have h1 : (r.db.insert e.Id e).lookup e.Id = some e := AList.lookup_insert _
  have h2 : (r.db.insert e.Id e).lookup j = some vj := by
    rw [AList.lookup_insert_ne (Ne.symm hij)]; exact hj
  refine ⟨rfl, h1, h2, ?_⟩
  intro hu
  have hsymm : Symmetric (fun a b : (Sigma fun _ : Int => Vehicle) =>
      VehicleMap.sameKey a.2 b.2 = false) := by
    intro a b hab
    rw [VehicleMap.sameKey_comm]; exact hab
  have hfalse := List.Pairwise.forall hsymm hu (AList.mem_lookup_iff.1 h1)
    (AList.mem_lookup_iff.1 h2) (by
      intro heq
      exact hij (congrArg Sigma.fst heq))
  have htrue : VehicleMap.sameKey e vj = true := (VehicleMap.sameKey_iff e vj).2 hk
  rw [htrue] at hfalse
  exact Bool.noConfusion hfalse

theorem UpdateVehicle_no_uniqueness_check_witness :
    (sample.garage.UpdateVehicle { sample.corolla with Id := 2 }).2 = none ∧
    (sample.garage.UpdateVehicle { sample.corolla with Id := 2 }).1.db.lookup 2
      = some { sample.corolla with Id := 2 } ∧
    (sample.garage.UpdateVehicle { sample.corolla with Id := 2 }).1.db.lookup 1
      = some { sample.corolla with Id := 1 } ∧
    ¬ (sample.garage.UpdateVehicle { sample.corolla with Id := 2 }).1.UniqueKey :=
  UpdateVehicle_no_uniqueness_check sample.garage 2 1 { sample.corolla with Id := 1 }
    { sample.corolla with Id := 2 } (by decide) (by decide!) (by decide) rfl ⟨rfl, rfl, rfl⟩

/-- C23: `FindByBrandAndYearRange` returns a mapping whose entry under `k` is `v` exactly
when `v` is the live vehicle under `k`, has the brand, and has its fabrication year between
`startYear` and `endYear`, both included; it fails with `ErrorNotFound` exactly when no
live vehicle is such, returns no error exactly when one is, and fails in particular
whenever `startYear > endYear`. -/
theorem FindByBrandAndYearRange_spec (r : VehicleMap) (brand : String)
    (startYear endYear : Int) :
    (∀ k v, (r.FindByBrandAndYearRange brand (startYear, endYear)).1.lookup k = some v ↔
      r.db.lookup k = some v ∧ v.Brand = brand ∧
        startYear ≤ v.FabricationYear ∧ v.FabricationYear ≤ endYear) ∧
    ((r.FindByBrandAndYearRange brand (startYear, endYear)).2 = some ErrorNotFound ↔
      ¬ ∃ k v, r.db.lookup k = some v ∧ v.Brand = brand ∧
        startYear ≤ v.FabricationYear ∧ v.FabricationYear ≤ endYear) ∧
    ((r.FindByBrandAndYearRange brand (startYear, endYear)).2 = none ↔
      ∃ k v, r.db.lookup k = some v ∧ v.Brand = brand ∧
        startYear ≤ v.FabricationYear ∧ v.FabricationYear ≤ endYear) ∧
    (startYear > endYear →
      (r.FindByBrandAndYearRange brand (startYear, endYear)).2 = some ErrorNotFound) := by
  obtain ⟨h1, h2, h3⟩ := VehicleMap.find_spec
    (fun value => decide (value.FabricationYear ≥ startYear ∧ value.FabricationYear ≤ endYear ∧
      value.Brand = brand)) r
    (fun v => v.Brand = brand ∧ startYear ≤ v.FabricationYear ∧ v.FabricationYear ≤ endYear)
    (fun v => by
      rw [decide_eq_true_eq]
      constructor
      · rintro ⟨h1, h2, h3⟩; exact ⟨h3, h1, h2⟩
      · rintro ⟨h1, h2, h3⟩; exact ⟨h2, h3, h1⟩)
    (r.FindByBrandAndYearRange brand (startYear, endYear)) rfl
  refine ⟨h1, h2, h3, ?_⟩
  intro hgt
  rw [h2]
  rintro ⟨k, v, _, _, hge, hle⟩
  omega

/-- C24: each of `FindByColorAndYear`, `FindByFuelType` and `FindByTransmission` returns a
mapping whose entry under `k` is `v` exactly when `v` is the live vehicle under `k` and its
named fields equal the arguments; each fails with `ErrorNotFound` exactly when no live
vehicle matches, and returns no error exactly when one does. -/
theorem FindBy_exact_match (r : VehicleMap) (color : String) (year : Int)
    (fuelType transmission : String) :
    ((∀ k v, (r.FindByColorAndYear color year).1.lookup k = some v ↔
        r.db.lookup k = some v ∧ (v.Color = color ∧ v.FabricationYear = year)) ∧
      ((r.FindByColorAndYear color year).2 = some ErrorNotFound ↔
        ¬ ∃ k v, r.db.lookup k = some v ∧ (v.Color = color ∧ v.FabricationYear = year)) ∧
      ((r.FindByColorAndYear color year).2 = none ↔
        ∃ k v, r.db.lookup k = some v ∧ (v.Color = color ∧ v.FabricationYear = year))) ∧
    ((∀ k v, (r.FindByFuelType fuelType).1.lookup k = some v ↔
        r.db.lookup k = some v ∧ v.FuelType = fuelType) ∧
      ((r.FindByFuelType fuelType).2 = some ErrorNotFound ↔
        ¬ ∃ k v, r.db.lookup k = some v ∧ v.FuelType = fuelType) ∧
      ((r.FindByFuelType fuelType).2 = none ↔
        ∃ k v, r.db.lookup k = some v ∧ v.FuelType = fuelType)) ∧
    ((∀ k v, (r.FindByTransmission transmission).1.lookup k = some v ↔
        r.db.lookup k = some v ∧ v.Transmission = transmission) ∧
      ((r.FindByTransmission transmission).2 = some ErrorNotFound ↔
        ¬ ∃ k v, r.db.lookup k = some v ∧ v.Transmission = transmission) ∧
      ((r.FindByTransmission transmission).2 = none ↔
        ∃ k v, r.db.lookup k = some v ∧ v.Transmission = transmission)) := by
  refine ⟨?_, ?_, ?_⟩
  · exact VehicleMap.find_spec
      (fun value => decide (value.FabricationYear = year ∧ value.Color = color)) r
      (fun v => v.Color = color ∧ v.FabricationYear = year)
      (fun v => by rw [decide_eq_true_eq]; exact and_comm)
      (r.FindByColorAndYear color year) rfl
  · exact VehicleMap.find_spec (fun value => decide (value.FuelType = fuelType)) r
      (fun v => v.FuelType = fuelType) (fun v => decide_eq_true_iff)
      (r.FindByFuelType fuelType) rfl
  · exact VehicleMap.find_spec (fun value => decide (value.Transmission = transmission)) r
      (fun v => v.Transmission = transmission) (fun v => decide_eq_true_iff)
      (r.FindByTransmission transmission) rfl

namespace VehicleMap

/-- `SaveMany` as a sequence of calls of `Save`, `n` being the number of calls that
succeed. -/
theorem SaveMany_spec (vs : List Vehicle) :
    ∀ (r : VehicleMap) (n : Nat), (r.savedIdsMany vs).length = n →
      n ≤ vs.length ∧
      (r.SaveMany vs).1 = r.run ((vs.take n).map Op.save) ∧
      r.savedIdsMany vs = (List.range n).map (fun i : Nat => r.lastId + 1 + (i : Int)) ∧
      (∀ (i : Nat) (v : Vehicle), i < n → vs[i]? = some v →
        ((r.run ((vs.take i).map Op.save)).Save v).2.2 = none ∧
        (r.SaveMany vs).1.db.lookup (r.lastId + 1 + (i : Int)) =
          some { v with Id := r.lastId + 1 + (i : Int) }) ∧
      (r.SaveMany vs).1.lastId = r.lastId + (n : Int) ∧
      (∀ k : Int, (k ≤ r.lastId ∨ r.lastId + (n : Int) < k) →
        (r.SaveMany vs).1.db.lookup k = r.db.lookup k) ∧
      (n = vs.length → (r.SaveMany vs).2 = none) ∧
      (∀ v, vs[n]? = some v →
        (r.SaveMany vs).2 = some ErrAlreadyExists ∧
        ((r.SaveMany vs).1.Save v).2.2 = some ErrAlreadyExists) := by
  induction vs with
  | nil =>
    intro r n hn
    have h0 : n = 0 := by rw [← hn]; rfl
    subst h0
    refine ⟨le_refl _, rfl, rfl, ?_, ?_, ?_, ?_, ?_⟩
    · intro i v hi; exact absurd hi (Nat.not_lt_zero i)
    · show r.lastId = r.lastId + ((0 : Nat) : Int); simp
    · intro k _; rfl
    · intro _; rfl
    · intro v hv; simp at hv
  | cons v0 vs ih =>
    intro r n hn
    rcases Save_cases r v0 with ⟨_, hs⟩ | ⟨_, hs⟩
    · have hfail : (r.Save v0).2.2 = some ErrAlreadyExists := by rw [hs]
      have hids : r.savedIdsMany (v0 :: vs) = [] :=
        savedIdsMany_cons_of_err ErrAlreadyExists hfail
      have hsm : r.SaveMany (v0 :: vs) = (r, some ErrAlreadyExists) := by
        rw [SaveMany_cons_of_err ErrAlreadyExists hfail, hs]
      have h0 : n = 0 := by rw [← hn, hids]; rfl
      subst h0
      rw [hsm]
      refine ⟨Nat.zero_le _, rfl, by rw [hids]; rfl, ?_, ?_, ?_, ?_, ?_⟩
      · intro i v hi; exact absurd hi (Nat.not_lt_zero i)
      · show r.lastId = r.lastId + ((0 : Nat) : Int); simp
      · intro k _; rfl
      · intro h; simp at h
      · intro v hv
        have hv0 : v0 = v := by simpa using hv
        subst hv0
        exact ⟨rfl, hfail⟩
    · have hok : (r.Save v0).2.2 = none := by rw [hs]
      have hids : r.savedIdsMany (v0 :: vs) =
          (r.Save v0).2.1.Id :: (r.Save v0).1.savedIdsMany vs :=
        savedIdsMany_cons_of_ok hok
      have hsm : r.SaveMany (v0 :: vs) = (r.Save v0).1.SaveMany vs :=
        SaveMany_cons_of_ok hok
      have hid0 : (r.Save v0).2.1.Id = r.lastId + 1 := by rw [hs]
      have hl1 : (r.Save v0).1.lastId = r.lastId + 1 := by rw [hs]
      have hdb1 : (r.Save v0).1.db =
          r.db.insert (r.lastId + 1) { v0 with Id := r.lastId + 1 } := by rw [hs]
      have hn1 : n = ((r.Save v0).1.savedIdsMany vs).length + 1 := by
        rw [← hn, hids]; rfl
      subst hn1
      obtain ⟨ihA, ihB, ihC, ihD, ihE, ihF, ihG, ihH⟩ := ih (r.Save v0).1 _ rfl
      rw [hsm]
      refine ⟨?_, ?_, ?_, ?_, ?_, ?_, ?_, ?_⟩
      · rw [List.length_cons]; omega
      · rw [List.take_succ_cons, List.map_cons]
        exact ihB
      · rw [hids, hid0, List.range_succ_eq_map, List.map_cons, List.map_map]
        congr 1
        · simp
        · conv_lhs => rw [ihC]
          apply List.map_congr_left
          intro i _
          simp only [Function.comp, hl1]
          push_cast
          ring
      · intro i v hi hv
        cases i with
        | zero =>
          have hv0 : v0 = v := by simpa using hv
          subst hv0
          refine ⟨hok, ?_⟩
          have hk : (r.Save v0).1.SaveMany vs |>.1.db.lookup (r.lastId + 1)
              = (r.Save v0).1.db.lookup (r.lastId + 1) :=
            ihF (r.lastId + 1) (Or.inl (by rw [hl1]))
          have hcast : r.lastId + 1 + ((0 : Nat) : Int) = r.lastId + 1 := by simp
          rw [hcast, hk, hdb1, AList.lookup_insert]
        | succ i =>
          have hv1 : vs[i]? = some v := by simpa using hv
          obtain ⟨h1, h2⟩ := ihD i v (by omega) hv1
          have hcast : r.lastId + 1 + ((i + 1 : Nat) : Int)
              = (r.Save v0).1.lastId + 1 + (i : Int) := by
            rw [hl1]; push_cast; ring
          rw [hcast, List.take_succ_cons, List.map_cons]
          exact ⟨h1, h2⟩
      · rw [ihE, hl1]; push_cast; ring
      · intro k hk
        have hk1 : k ≠ r.lastId + 1 := by
          rcases hk with hk | hk
          · omega
          · push_cast at hk; omega
        have hk2 : k ≤ (r.Save v0).1.lastId ∨
            (r.Save v0).1.lastId + (((r.Save v0).1.savedIdsMany vs).length : Int) < k := by
          rw [hl1]
          rcases hk with hk | hk
          · left; omega
          · right; push_cast at hk; omega
        rw [ihF k hk2, hdb1, AList.lookup_insert_ne hk1]
      · intro hlen
        apply ihG
        rw [List.length_cons] at hlen
        omega
      · intro v hv
        exact ihH v (by simpa using hv)

end VehicleMap

end repository

namespace repository

open internal

namespace VehicleMap

theorem GetbyID_err (r : VehicleMap) (id : Int) :
    (r.GetbyID id).2 = none ∨ (r.GetbyID id).2 = some ErrorNotFound := by
  unfold GetbyID
  cases r.db.lookup id <;> simp

theorem find_err (vehicle : Table) (out : Table × Option GoError)
    (hout : out = if vehicle.entries.length = 0 then (vehicle, some ErrorNotFound)
      else (vehicle, none)) :
    out.2 = none ∨ out.2 = some ErrorNotFound := by
  subst hout
  split
  · exact Or.inr rfl
  · exact Or.inl rfl

theorem VelocityAveragebyBrand_err (r : VehicleMap) (rnd : ℚ → ℚ) (brand : String) :
    (r.VelocityAveragebyBrand rnd brand).2 = none ∨
      (r.VelocityAveragebyBrand rnd brand).2 = some ErrorNotFound := by
  rw [VelocityAveragebyBrand_eq]
  split
  · exact Or.inr rfl
  · exact Or.inl rfl

theorem CapacityAveragebyBrand_err (r : VehicleMap) (rnd : ℚ → ℚ) (brand : String) :
    (r.CapacityAveragebyBrand rnd brand).2 = none ∨
      (r.CapacityAveragebyBrand rnd brand).2 = some ErrorNotFound := by
  rw [CapacityAveragebyBrand_eq]
  split
  · exact Or.inr rfl
  · exact Or.inl rfl

theorem FindQueryLoop_err (query : Query) (querySet : Bool) :
    ∀ (l : List (Sigma fun _ : Int => Vehicle)) (acc : Table),
      (FindQueryLoop query querySet l acc).2 = none ∨
        (FindQueryLoop query querySet l acc).2 = some ErrInvalidQuery := by
  intro l
  induction l with
  | nil => intro acc; exact Or.inl rfl
  | cons kv rest ih =>
    intro acc
    obtain ⟨k, v⟩ := kv
    unfold FindQueryLoop
    split
    · split
      · split
        · exact ih _
        · exact ih _
      · exact Or.inr rfl
    · exact ih _

theorem FilterByWeightLoop_err (query : Query) (querySet : Bool) :
    ∀ (l : List (Sigma fun _ : Int => Vehicle)) (acc : Table),
      (FilterByWeightLoop query querySet l acc).2 = none ∨
        (FilterByWeightLoop query querySet l acc).2 = some ErrInvalidQuery := by
  intro l
  induction l with
  | nil => intro acc; exact Or.inl rfl
  | cons kv rest ih =>
    intro acc
    obtain ⟨k, v⟩ := kv
    unfold FilterByWeightLoop
    split
    · split
      · split
        · exact ih _
        · exact ih _
      · exact Or.inr rfl
    · exact ih _

end VehicleMap

end repository

namespace service

open internal repository

theorem errorsIs_translate (target : GoError) (sep : String) :
    errorsIs (translate target target ErrNotFound sep) .ErrNotFound = true := by
  simp [translate, Errorf, errorsIs, ErrNotFound]

/-- The shape shared by the reads of the service. -/
theorem handsOn_of {α : Type} (st : α × Option GoError) (target : GoError) (sep : String)
    (sv : α × Option GoError)
    (hsv : sv = match st with
      | (x, some err) => (x, some (translate err target ErrNotFound sep))
      | (x, none) => (x, none))
    (ht : target = ErrorNotFound ∨ target = ErrInvalidQuery)
    (hst : st.2 = none ∨ st.2 = some target) :
    HandsOn st sv := by
  obtain ⟨x, oerr⟩ := st
  subst hsv
  rcases hst with h | h
  · simp only at h
    subst h
    exact ⟨fun _ => rfl, fun err herr => absurd herr (by simp)⟩
  · simp only at h
    subst h
    refine ⟨fun h0 => absurd h0 (by simp), fun err herr => ?_⟩
    have he : target = err := by simpa using herr
    subst he
    exact ⟨ht, rfl, _, rfl, errorsIs_translate target sep⟩

/-- C25: each of the nine reads of the service hands on the result of the store: when the
store returns no error the service returns the same value and no error, and when the store
returns an error (`ErrorNotFound`, or `ErrInvalidQuery` for the two criteria reads) the
service returns an error that wraps `ErrNotFound`. -/
theorem service_reads_hand_on (s : VehicleDefault) (rnd : ℚ → ℚ) (id year : Int)
    (color brand fuelType transmission : String) (yearRange : Int × Int) (query : Query) :
    HandsOn (s.rp.GetbyID id) (s.GetByID id) ∧
    HandsOn (s.rp.FindByColorAndYear color year) (s.FindByColorAndYear color year) ∧
    HandsOn (s.rp.FindByBrandAndYearRange brand yearRange)
      (s.FindByBrandAndYearRange brand yearRange) ∧
    HandsOn (s.rp.FindByFuelType fuelType) (s.FindByFuelType fuelType) ∧
    HandsOn (s.rp.FindByTransmission transmission) (s.FindByTransmission transmission) ∧
    HandsOn (s.rp.VelocityAveragebyBrand rnd brand) (s.VelocityAveragebyBrand rnd brand) ∧
    HandsOn (s.rp.CapacityAveragebyBrand rnd brand) (s.CapacityAveragebyBrand rnd brand) ∧
    HandsOn (s.rp.FindQuery query) (s.FindQuery query) ∧
    HandsOn (s.rp.FilterByWeight query) (s.FilterByWeight query) := by
  refine ⟨?_, ?_, ?_, ?_, ?_, ?_, ?_, ?_, ?_⟩
  · refine handsOn_of (s.rp.GetbyID id) ErrorNotFound ": " (s.GetByID id) ?_ (Or.inl rfl)
      (VehicleMap.GetbyID_err _ _)
    unfold VehicleDefault.GetByID
    rcases s.rp.GetbyID id with ⟨x, _ | err⟩ <;> rfl
  · refine handsOn_of (s.rp.FindByColorAndYear color year) ErrorNotFound ": " (s.FindByColorAndYear color year) ?_ (Or.inl rfl)
      (VehicleMap.find_err _ _ rfl)
    unfold VehicleDefault.FindByColorAndYear
    rcases s.rp.FindByColorAndYear color year with ⟨x, _ | err⟩ <;> rfl
  · refine handsOn_of (s.rp.FindByBrandAndYearRange brand yearRange) ErrorNotFound ": " (s.FindByBrandAndYearRange brand yearRange) ?_ (Or.inl rfl)
      (VehicleMap.find_err _ _ rfl)
    unfold VehicleDefault.FindByBrandAndYearRange
    rcases s.rp.FindByBrandAndYearRange brand yearRange with ⟨x, _ | err⟩ <;> rfl
  · refine handsOn_of (s.rp.FindByFuelType fuelType) ErrorNotFound ":FuelType" (s.FindByFuelType fuelType) ?_ (Or.inl rfl)
      (VehicleMap.find_err _ _ rfl)
    unfold VehicleDefault.FindByFuelType
    rcases s.rp.FindByFuelType fuelType with ⟨x, _ | err⟩ <;> rfl
  · refine handsOn_of (s.rp.FindByTransmission transmission) ErrorNotFound ":Transmission" (s.FindByTransmission transmission) ?_ (Or.inl rfl)
      (VehicleMap.find_err _ _ rfl)
    unfold VehicleDefault.FindByTransmission
    rcases s.rp.FindByTransmission transmission with ⟨x, _ | err⟩ <;> rfl
  · refine handsOn_of (s.rp.VelocityAveragebyBrand rnd brand) ErrorNotFound ": " (s.VelocityAveragebyBrand rnd brand) ?_ (Or.inl rfl)
      (VehicleMap.VelocityAveragebyBrand_err _ _ _)
    unfold VehicleDefault.VelocityAveragebyBrand
    rcases s.rp.VelocityAveragebyBrand rnd brand with ⟨x, _ | err⟩ <;> rfl
  · refine handsOn_of (s.rp.CapacityAveragebyBrand rnd brand) ErrorNotFound ": " (s.CapacityAveragebyBrand rnd brand) ?_ (Or.inl rfl)
      (VehicleMap.CapacityAveragebyBrand_err _ _ _)
    unfold VehicleDefault.CapacityAveragebyBrand
    rcases s.rp.CapacityAveragebyBrand rnd brand with ⟨x, _ | err⟩ <;> rfl
  · refine handsOn_of (s.rp.FindQuery query) ErrInvalidQuery ": " (s.FindQuery query) ?_ (Or.inr rfl)
      (VehicleMap.FindQueryLoop_err _ _ _ _)
    unfold VehicleDefault.FindQuery
    rcases s.rp.FindQuery query with ⟨x, _ | err⟩ <;> rfl
  · refine handsOn_of (s.rp.FilterByWeight query) ErrInvalidQuery ": " (s.FilterByWeight query) ?_ (Or.inr rfl)
      (VehicleMap.FilterByWeightLoop_err _ _ _ _)
    unfold VehicleDefault.FilterByWeight
    rcases s.rp.FilterByWeight query with ⟨x, _ | err⟩ <;> rfl

/-- C26: for a vehicle that passes `ValidateVehicle`: when the store's `Save` fails with
`ErrAlreadyExists`, the service `Save` fails with an error that wraps
`ErrVehicleAlreadyExists` and whose text is the text of that variable, `": "`, and the text
of the store's error, so it ends with the store's message; and when the store's
`UpdateVehicle` fails with `ErrorNotFound`, the service `UpdateVehicle` fails with an error
that wraps `ErrNotFound`. -/
theorem service_write_errors (s : VehicleDefault) (e : Vehicle)
    (hv : ValidateVehicle e = none) :
    ((s.rp.Save e).2.2 = some ErrAlreadyExists →
      ∃ err, (s.Save e).2.2 = some err ∧
        errorsIs err .ErrVehicleAlreadyExists = true ∧
        err.Error = ErrVehicleAlreadyExists.Error ++ (": " ++ ErrAlreadyExists.Error) ∧
        ∃ pre, err.Error = pre ++ ErrAlreadyExists.Error) ∧
    ((s.rp.UpdateVehicle e).2 = some ErrorNotFound →
      ∃ err, (s.UpdateVehicle e).2 = some err ∧ errorsIs err .ErrNotFound = true) := by
  constructor
  · intro h
    rcases hr : s.rp.Save e with ⟨rp, v, oerr⟩
    rw [hr] at h
    simp only at h
    subst h
    refine ⟨Errorf ErrVehicleAlreadyExists (": " ++ ErrAlreadyExists.Error), ?_, by decide,
      rfl, ErrVehicleAlreadyExists.Error ++ ": ", ?_⟩
    · simp [VehicleDefault.Save, hv, hr]
    · simp [Errorf, GoError.Error, String.append_assoc]
  · intro h
    rcases hr : s.rp.UpdateVehicle e with ⟨rp, oerr⟩
    rw [hr] at h
    simp only at h
    subst h
    refine ⟨Errorf ErrNotFound (": " ++ ErrorNotFound.Error), ?_, by decide⟩
    simp [VehicleDefault.UpdateVehicle, hv, hr]

theorem service_write_errors_witness :
    (∃ err, ((VehicleDefault.mk sample.garage).Save sample.corolla).2.2 = some err ∧
      errorsIs err .ErrVehicleAlreadyExists = true ∧
      err.Error = ErrVehicleAlreadyExists.Error ++ (": " ++ ErrAlreadyExists.Error) ∧
      ∃ pre, err.Error = pre ++ ErrAlreadyExists.Error) ∧
    (∃ err, ((VehicleDefault.mk sample.garage).UpdateVehicle sample.corolla).2 = some err ∧
      errorsIs err .ErrNotFound = true) :=
  have h := service_write_errors (VehicleDefault.mk sample.garage) sample.corolla (by decide)
  ⟨h.1 (by decide), h.2 (by decide)⟩

end service

namespace service

open internal repository

/-- The store of the scenario after the first creation: one vehicle, under id 1. -/
theorem scenarioService_rp (color : String) (hc : color ≠ "") :
    (sample.scenarioService color).rp =
      { db := AList.singleton 1 (sample.scenarioSaved color), lastId := 1 } ∧
    ((VehicleDefault.mk sample.emptyStore).Save
        { sample.scenarioVehicle with Color := color }).2 =
      (sample.scenarioSaved color, none) := by
  have hval : ValidateVehicle { sample.scenarioVehicle with Color := color } = none := by
    rw [ValidateVehicle_ok_iff']
    refine ⟨?_, ?_, hc, ?_, ?_, ?_, ?_⟩
    · show sample.scenarioVehicle.Brand ≠ ""; decide
    · show sample.scenarioVehicle.Model ≠ ""; decide
    · show sample.scenarioVehicle.Transmission ≠ ""; decide
    · show sample.scenarioVehicle.FabricationYear ≠ 0; decide
    · show sample.scenarioVehicle.Capacity ≠ 0; decide
    · show sample.scenarioVehicle.MaxSpeed ≠ 0; decide
  have hany : sample.emptyStore.db.entries.any
      (fun kv => VehicleMap.sameKey kv.2 { sample.scenarioVehicle with Color := color })
        = false := rfl
  have hsave := VehicleMap.Save_of_not_any hany
  have hstep : (VehicleDefault.mk sample.emptyStore).Save
      { sample.scenarioVehicle with Color := color } =
      ({ rp := { db := AList.singleton 1 (sample.scenarioSaved color), lastId := 1 } },
        sample.scenarioSaved color, none) := by
    simp only [VehicleDefault.Save, hval, hsave]
    rfl
  unfold sample.scenarioService
  rw [hstep]
  exact ⟨rfl, rfl⟩

theorem lookup_singleton_iff (k : Int) (x v : Vehicle) :
    (AList.singleton 1 x : Table).lookup k = some v ↔ k = 1 ∧ v = x := by
  rw [← AList.insert_empty]
  by_cases hk : k = 1
  · subst hk
    rw [AList.lookup_insert]
    constructor
    · intro h; exact ⟨rfl, (Option.some.inj h).symm⟩
    · rintro ⟨_, rfl⟩; rfl
  · rw [AList.lookup_insert_ne hk, AList.lookup_empty]
    constructor
    · intro h; exact absurd h (by simp)
    · rintro ⟨h, _⟩; exact absurd h hk

/-- C27, as stated, fails at its first step: the vehicle of the scenario has no color, so
the service `Save` returns the error of the color check, assigns no id and leaves the table
empty. -/
theorem scenario_without_color_counterexample :
    ((VehicleDefault.mk sample.emptyStore).Save sample.scenarioVehicle).2.2
      = some (Errorf ErrFieldRequired ": color") ∧
    ((VehicleDefault.mk sample.emptyStore).Save sample.scenarioVehicle).2.1.Id = 0 ∧
    ((VehicleDefault.mk sample.emptyStore).Save sample.scenarioVehicle).1.rp.db.entries
      = [] := by
  decide

/-- C27, amended: the scenario with a non-empty color given to the vehicle. On the empty
store with counter 0 the service `Save` succeeds and writes id 1; `Save` of a second vehicle
that passes validation and has the same brand, model and fabrication year fails with an
error that wraps `ErrVehicleAlreadyExists`; `FindByBrandAndYearRange("Toyota", [2019, 2021])`
returns no error and exactly the entry of id 1; and `VelocityAveragebyBrand("Toyota")`
returns 180 without error, for every rounding that leaves the floats 180 and 1 as they
are. -/
theorem scenario_with_color (color : String) (rnd : ℚ → ℚ) (e2 : Vehicle)
    (hc : color ≠ "") (h180 : rnd 180 = 180) (h1 : rnd 1 = 1)
    (he2 : ValidateVehicle e2 = none)
    (hk : e2.Brand = "Toyota" ∧ e2.Model = "Corolla" ∧ e2.FabricationYear = 2020) :
    ((VehicleDefault.mk sample.emptyStore).Save
        { sample.scenarioVehicle with Color := color }).2 =
      ({ sample.scenarioVehicle with Color := color, Id := 1 }, none) ∧
    (∃ err, ((sample.scenarioService color).Save e2).2.2 = some err ∧
      errorsIs err .ErrVehicleAlreadyExists = true) ∧
    ((sample.scenarioService color).FindByBrandAndYearRange "Toyota" (2019, 2021)).2 = none ∧
    (∀ k v, ((sample.scenarioService color).FindByBrandAndYearRange
        "Toyota" (2019, 2021)).1.lookup k = some v ↔
      k = 1 ∧ v = { sample.scenarioVehicle with Color := color, Id := 1 }) ∧
    (sample.scenarioService color).VelocityAveragebyBrand rnd "Toyota" = (180, none) := by
  obtain ⟨hrp, hfirst⟩ := scenarioService_rp color hc
  refine ⟨hfirst, ?_, ?_⟩
  · -- the second creation
    have hany : (sample.scenarioService color).rp.db.entries.any
        (fun kv => VehicleMap.sameKey kv.2 e2) = true := by
      rw [hrp, List.any_eq_true]
      refine ⟨⟨1, sample.scenarioSaved color⟩, List.mem_singleton.2 rfl, ?_⟩
      rw [VehicleMap.sameKey_iff]
      exact ⟨hk.1.symm, hk.2.1.symm, hk.2.2.symm⟩
    have hst := VehicleMap.Save_of_any hany
    refine ⟨Errorf ErrVehicleAlreadyExists (": " ++ ErrAlreadyExists.Error), ?_, by decide⟩
    simp [VehicleDefault.Save, he2, hst]
  · -- the two reads
    have hfind := VehicleMap.find_spec
      (fun value => decide (value.FabricationYear ≥ 2019 ∧ value.FabricationYear ≤ 2021 ∧
        value.Brand = "Toyota")) (sample.scenarioService color).rp
      (fun v => v.FabricationYear ≥ 2019 ∧ v.FabricationYear ≤ 2021 ∧ v.Brand = "Toyota")
      (fun v => decide_eq_true_iff)
      ((sample.scenarioService color).rp.FindByBrandAndYearRange "Toyota" (2019, 2021)) rfl
    obtain ⟨hl, _, hnone⟩ := hfind
    have hlive : (sample.scenarioService color).rp.db.lookup 1
        = some (sample.scenarioSaved color) := by
      rw [hrp]; exact (lookup_singleton_iff 1 _ _).2 ⟨rfl, rfl⟩
    have hP : (sample.scenarioSaved color).FabricationYear ≥ 2019 ∧
        (sample.scenarioSaved color).FabricationYear ≤ 2021 ∧
        (sample.scenarioSaved color).Brand = "Toyota" := by
      refine ⟨?_, ?_, rfl⟩
      · show (2020 : Int) ≥ 2019; decide
      · show (2020 : Int) ≤ 2021; decide
    have herr : ((sample.scenarioService color).rp.FindByBrandAndYearRange
        "Toyota" (2019, 2021)).2 = none := hnone.2 ⟨1, _, hlive, hP⟩
    have hsv : (sample.scenarioService color).FindByBrandAndYearRange "Toyota" (2019, 2021)
        = (sample.scenarioService color).rp.FindByBrandAndYearRange "Toyota" (2019, 2021) := by
      unfold VehicleDefault.FindByBrandAndYearRange
      rcases hr : (sample.scenarioService color).rp.FindByBrandAndYearRange
        "Toyota" (2019, 2021) with ⟨x, _ | err⟩
      · rfl
      · rw [hr] at herr; exact absurd herr (by simp)
    have hof : (sample.scenarioService color).rp.ofBrand "Toyota"
        = [sample.scenarioSaved color] := by
      unfold VehicleMap.ofBrand
      rw [hrp]
      rfl
    have hvel : (sample.scenarioService color).rp.VelocityAveragebyBrand rnd "Toyota"
        = (180, none) := by
      rw [VehicleMap.VelocityAveragebyBrand_eq, hof, if_neg (List.cons_ne_nil _ _)]
      have hsum : VehicleMap.roundedSum rnd
          ([sample.scenarioSaved color].map (fun v => v.MaxSpeed)) = 180 := by
        show rnd (0 + (180 : ℚ)) = 180
        rw [zero_add, h180]
      have hlen : (([sample.scenarioSaved color].length : Nat) : ℚ) = 1 := by
        simp
      rw [hsum, hlen, h1, div_one, h180]
    refine ⟨?_, ?_, ?_⟩
    · rw [hsv]; exact herr
    · intro k v
      rw [hsv, hl, hrp]
      constructor
      · rintro ⟨h, _⟩; exact (lookup_singleton_iff k _ v).1 h
      · intro h
        have hkv := (lookup_singleton_iff k (sample.scenarioSaved color) v).2 h
        refine ⟨hkv, ?_⟩
        rw [h.2]
        exact hP
    · unfold VehicleDefault.VelocityAveragebyBrand
      rw [hvel]

theorem scenario_with_color_witness :
    ((VehicleDefault.mk sample.emptyStore).Save
        { sample.scenarioVehicle with Color := "red" }).2 =
      ({ sample.scenarioVehicle with Color := "red", Id := 1 }, none) ∧
    (sample.scenarioService "red").VelocityAveragebyBrand id "Toyota" = (180, none) :=
  have h := scenario_with_color "red" id sample.corolla (by decide) rfl rfl (by decide)
    ⟨rfl, rfl, rfl⟩
  ⟨h.1, h.2.2.2.2⟩

end service

namespace repository

open internal

namespace VehicleMap

theorem ofBrand_perm {r1 r2 : VehicleMap} (brand : String)
    (h : r1.db.entries.Perm r2.db.entries) : (r1.ofBrand brand).Perm (r2.ofBrand brand) :=
  (h.filter _).map _

theorem ofBrand_eq_nil_of_perm {r1 r2 : VehicleMap} (brand : String)
    (h : r1.db.entries.Perm r2.db.entries) :
    r1.ofBrand brand = [] ↔ r2.ofBrand brand = [] := by
  have hp := ofBrand_perm brand h
  constructor
  · intro h1; rw [h1] at hp; exact List.Perm.eq_nil hp.symm
  · intro h2; rw [h2] at hp; exact List.Perm.eq_nil hp

end VehicleMap

/-- C29, as stated, fails for the average of the maximum speeds: `sample.fleet` and
`sample.fleetReordered` hold the same three entries, whose speeds are the float64 values of
180.5, 150.1 and 150.3, in two visiting orders, and with float64 rounding the first order
yields 160.29999999999998 and the second 160.3 (the float64 nearest to 160.3). -/
theorem average_order_counterexample :
    sample.fleet.entries.Perm sample.fleetReordered.entries ∧
    (float64.round 180.5 = sample.fast.MaxSpeed ∧
      float64.round 150.1 = sample.medium.MaxSpeed ∧
      float64.round 150.3 = sample.slow.MaxSpeed) ∧
    (NewVehicleMap (some sample.fleet) 3).VelocityAveragebyBrand float64.round "Toyota"
      = (5640054845839769 / 35184372088832, none) ∧
    (NewVehicleMap (some sample.fleetReordered) 3).VelocityAveragebyBrand float64.round "Toyota"
      = (2820027422919885 / 17592186044416, none) ∧
    float64.round 160.3 = 2820027422919885 / 17592186044416 ∧
    (5640054845839769 / 35184372088832 : ℚ) ≠ 2820027422919885 / 17592186044416 := by
  refine ⟨by decide!, by decide!, by decide!, by decide!, by decide!, by decide!⟩

/-- C29, amended: for two stores whose tables hold the same entries in any two orders, both
averages return the same error, for every rounding of the float operations; and when no
operation rounds (`rnd = id`) they return the same average as well. -/
theorem averages_same_entries (r1 r2 : VehicleMap) (rnd : ℚ → ℚ) (brand : String)
    (h : r1.db.entries.Perm r2.db.entries) :
    (r1.VelocityAveragebyBrand rnd brand).2 = (r2.VelocityAveragebyBrand rnd brand).2 ∧
    (r1.CapacityAveragebyBrand rnd brand).2 = (r2.CapacityAveragebyBrand rnd brand).2 ∧
    r1.VelocityAveragebyBrand id brand = r2.VelocityAveragebyBrand id brand ∧
    r1.CapacityAveragebyBrand id brand = r2.CapacityAveragebyBrand id brand := by
  have hp := VehicleMap.ofBrand_perm brand h
  have hnil := VehicleMap.ofBrand_eq_nil_of_perm brand h
  have hlen : (r1.ofBrand brand).length = (r2.ofBrand brand).length := hp.length_eq
  simp only [VehicleMap.VelocityAveragebyBrand_eq, VehicleMap.CapacityAveragebyBrand_eq,
    VehicleMap.roundedSum_id]
  by_cases h1 : r1.ofBrand brand = []
  · have h2 := hnil.1 h1
    simp only [h1, h2, if_true, and_self]
  · have h2 : ¬ r2.ofBrand brand = [] := fun h2 => h1 (hnil.2 h2)
    simp only [h1, h2, if_false, hlen, true_and]
    have hs1 : ((r1.ofBrand brand).map (fun v => v.MaxSpeed)).sum
        = ((r2.ofBrand brand).map (fun v => v.MaxSpeed)).sum := (hp.map _).sum_eq
    have hs2 : ((r1.ofBrand brand).map (fun v => id ((v.Capacity : ℤ) : ℚ))).sum
        = ((r2.ofBrand brand).map (fun v => id ((v.Capacity : ℤ) : ℚ))).sum :=
      (hp.map _).sum_eq
    rw [hs1, hs2]
    exact ⟨rfl, rfl⟩

theorem averages_same_entries_witness :
    (NewVehicleMap (some sample.fleet) 3).VelocityAveragebyBrand id "Toyota"
      = (NewVehicleMap (some sample.fleetReordered) 3).VelocityAveragebyBrand id "Toyota" :=
  (averages_same_entries (NewVehicleMap (some sample.fleet) 3)
    (NewVehicleMap (some sample.fleetReordered) 3) id "Toyota" (by decide!)).2.2.1

end repository

namespace repository

open internal

namespace VehicleMap

theorem Save_idIsKey {r : VehicleMap} (h : r.IdIsKey) (e : Vehicle) :
    (r.Save e).1.IdIsKey := by
  rcases Save_cases r e with ⟨_, hs⟩ | ⟨_, hs⟩
  · rw [hs]; exact h
  · rw [hs]
    intro k v hl
    by_cases hk : k = r.lastId + 1
    · subst hk
      rw [AList.lookup_insert] at hl
      rw [← Option.some.inj hl]
    · rw [AList.lookup_insert_ne hk] at hl
      exact h k v hl

theorem SaveMany_idIsKey (vs : List Vehicle) :
    ∀ r : VehicleMap, r.IdIsKey → (r.SaveMany vs).1.IdIsKey := by
  induction vs with
  | nil => intro r h; exact h
  | cons e vs ih =>
    intro r h
    rcases Save_cases r e with ⟨_, hs⟩ | ⟨_, hs⟩
    · rw [SaveMany_cons_of_err ErrAlreadyExists (by rw [hs]), hs]; exact h
    · rw [SaveMany_cons_of_ok (by rw [hs])]
      exact ih _ (Save_idIsKey h e)

theorem UpdateVehicle_idIsKey {r : VehicleMap} (h : r.IdIsKey) (e : Vehicle) :
    (r.UpdateVehicle e).1.IdIsKey := by
  unfold UpdateVehicle
  split
  · exact h
  · intro k v hl
    by_cases hk : k = e.Id
    · subst hk
      rw [AList.lookup_insert] at hl
      rw [← Option.some.inj hl]
    · rw [AList.lookup_insert_ne hk] at hl
      exact h k v hl

theorem Delete_idIsKey {r : VehicleMap} (h : r.IdIsKey) (id : Int) :
    (r.Delete id).1.IdIsKey := by
  unfold Delete
  split
  · exact h
  · intro k v hl
    by_cases hk : k = id
    · subst hk
      rw [AList.lookup_erase] at hl
      exact absurd hl (by simp)
    · rw [AList.lookup_erase_ne hk] at hl
      exact h k v hl

end VehicleMap

/-- C33: a `Delete(id)` that returns no error leaves the key `id` absent, every other key
reading as before and the id counter as it was; an `UpdateVehicle(e)` that returns no error
leaves `e` under the key `e.Id`, every other key reading as before and the id counter as it
was. -/
theorem Delete_UpdateVehicle_frame (r : VehicleMap) (id : Int) (e : Vehicle) :
    ((r.Delete id).2 = none →
      (r.Delete id).1.db.lookup id = none ∧
      (∀ k, k ≠ id → (r.Delete id).1.db.lookup k = r.db.lookup k) ∧
      (r.Delete id).1.lastId = r.lastId) ∧
    ((r.UpdateVehicle e).2 = none →
      (r.UpdateVehicle e).1.db.lookup e.Id = some e ∧
      (∀ k, k ≠ e.Id → (r.UpdateVehicle e).1.db.lookup k = r.db.lookup k) ∧
      (r.UpdateVehicle e).1.lastId = r.lastId) := by
  constructor
  · intro _
    refine ⟨?_, ?_, VehicleMap.Delete_lastId r id⟩
    · unfold VehicleMap.Delete
      cases h : r.db.lookup id with
      | none => exact h
      | some w => exact AList.lookup_erase id r.db
    · intro k hk
      unfold VehicleMap.Delete
      cases h : r.db.lookup id with
      | none => rfl
      | some w => exact AList.lookup_erase_ne hk
  · intro hok
    refine ⟨?_, ?_, VehicleMap.UpdateVehicle_lastId r e⟩
    · unfold VehicleMap.UpdateVehicle at hok ⊢
      cases h : r.db.lookup e.Id with
      | none => rw [h] at hok; exact absurd hok (by simp)
      | some w => exact AList.lookup_insert r.db
    · intro k hk
      unfold VehicleMap.UpdateVehicle
      cases h : r.db.lookup e.Id with
      | none => rfl
      | some w => exact AList.lookup_insert_ne hk

theorem Delete_UpdateVehicle_frame_witness :
    ((sample.garage.Delete 2).1.db.lookup 2 = none ∧
      (sample.garage.Delete 2).1.db.lookup 3 = sample.garage.db.lookup 3 ∧
      (sample.garage.Delete 2).1.lastId = 3) ∧
    ((sample.garage.UpdateVehicle { sample.civic with Id := 3 }).1.db.lookup 3
        = some { sample.civic with Id := 3 } ∧
      (sample.garage.UpdateVehicle { sample.civic with Id := 3 }).1.db.lookup 1
        = sample.garage.db.lookup 1) :=
  have h := Delete_UpdateVehicle_frame sample.garage 2 { sample.civic with Id := 3 }
  have hd := h.1 (by decide)
  have hu := h.2 (by decide)
  ⟨⟨hd.1, hd.2.1 3 (by decide), hd.2.2⟩, ⟨hu.1, hu.2.1 1 (by decide)⟩⟩

end repository

/-! ## The id counter at the largest `int` -/

namespace repository

open internal

namespace VehicleMap

theorem wrap_eq_self {x : Int} (h1 : int64.minInt ≤ x) (h2 : x ≤ int64.maxInt) :
    int64.wrap x = x := by
  simp only [int64.wrap, int64.minInt, int64.maxInt] at *
  omega

theorem Save64_of_any {r : VehicleMap} {e : Vehicle}
    (h : r.db.entries.any (fun kv => sameKey kv.2 e) = true) :
    r.Save64 e = (r, e, some ErrAlreadyExists) := by
  simp only [Save64, h, if_true]

theorem Save64_of_not_any {r : VehicleMap} {e : Vehicle}
    (h : r.db.entries.any (fun kv => sameKey kv.2 e) = false) :
    r.Save64 e =
      ({ db := r.db.insert (int64.wrap (r.lastId + 1))
            { e with Id := int64.wrap (r.lastId + 1) },
         lastId := int64.wrap (r.lastId + 1) },
        { e with Id := int64.wrap (r.lastId + 1) }, none) := by
  simp [Save64, h]

theorem Save64_cases (r : VehicleMap) (e : Vehicle) :
    (r.db.entries.any (fun kv => sameKey kv.2 e) = true ∧
      r.Save64 e = (r, e, some ErrAlreadyExists)) ∨
    (r.db.entries.any (fun kv => sameKey kv.2 e) = false ∧
      r.Save64 e =
        ({ db := r.db.insert (int64.wrap (r.lastId + 1))
              { e with Id := int64.wrap (r.lastId + 1) },
           lastId := int64.wrap (r.lastId + 1) },
          { e with Id := int64.wrap (r.lastId + 1) }, none)) := by
  cases h : r.db.entries.any (fun kv => sameKey kv.2 e)
  · exact Or.inr ⟨rfl, Save64_of_not_any h⟩
  · exact Or.inl ⟨rfl, Save64_of_any h⟩

/-- Below the largest `int` the increment does not wrap, and `Save64` is `Save`. -/
theorem Save64_eq_Save {r : VehicleMap} (h1 : int64.minInt ≤ r.lastId)
    (h2 : r.lastId < int64.maxInt) (e : Vehicle) : r.Save64 e = r.Save e := by
  have hw : int64.wrap (r.lastId + 1) = r.lastId + 1 :=
    wrap_eq_self (by simp only [int64.minInt] at *; omega)
      (by simp only [int64.maxInt] at *; omega)
  unfold Save64 Save
  rw [hw]

/-- A failing `Save64` is a failing `Save`, whatever the counter. -/
theorem Save64_eq_Save_of_err {r : VehicleMap} {e : Vehicle} {err : GoError}
    (h : (r.Save64 e).2.2 = some err) : r.Save64 e = r.Save e := by
  rcases Save64_cases r e with ⟨ha, hs⟩ | ⟨_, hs⟩
  · rw [hs, Save_of_any ha]
  · rw [hs] at h; exact absurd h (by simp)

theorem SaveMany64_cons_of_ok {r : VehicleMap} {e : Vehicle} {vs : List Vehicle}
    (h : (r.Save64 e).2.2 = none) : r.SaveMany64 (e :: vs) = (r.Save64 e).1.SaveMany64 vs := by
  rcases hr : r.Save64 e with ⟨r1, e1, err⟩
  rw [hr] at h
  simp only at h; subst h
  simp [SaveMany64, hr]

theorem SaveMany64_cons_of_err {r : VehicleMap} {e : Vehicle} {vs : List Vehicle}
    (err : GoError) (h : (r.Save64 e).2.2 = some err) :
    r.SaveMany64 (e :: vs) = ((r.Save64 e).1, some err) := by
  rcases hr : r.Save64 e with ⟨r1, e1, err1⟩
  rw [hr] at h
  simp only at h; subst h
  simp [SaveMany64, hr]

theorem savedIdsMany64_cons_of_ok {r : VehicleMap} {e : Vehicle} {vs : List Vehicle}
    (h : (r.Save64 e).2.2 = none) :
    r.savedIdsMany64 (e :: vs) = (r.Save64 e).2.1.Id :: (r.Save64 e).1.savedIdsMany64 vs := by
  rcases hr : r.Save64 e with ⟨r1, e1, err⟩
  rw [hr] at h
  simp only at h; subst h
  simp [savedIdsMany64, hr]

theorem savedIdsMany64_cons_of_err {r : VehicleMap} {e : Vehicle} {vs : List Vehicle}
    (err : GoError) (h : (r.Save64 e).2.2 = some err) : r.savedIdsMany64 (e :: vs) = [] := by
  rcases hr : r.Save64 e with ⟨r1, e1, err1⟩
  rw [hr] at h
  simp only at h; subst h
  simp [savedIdsMany64, hr]

/-- `SaveMany64` is `Save64` of the vehicles in order up to the first failure, whatever the
counter. -/
theorem SaveMany64_refines (vs : List Vehicle) :
    ∀ (r : VehicleMap) (n : Nat), (r.savedIdsMany64 vs).length = n →
      n ≤ vs.length ∧
      (r.SaveMany64 vs).1 = r.saveEach64 (vs.take n) ∧
      (∀ (i : Nat) (v : Vehicle), i < n → vs[i]? = some v →
        ((r.saveEach64 (vs.take i)).Save64 v).2.2 = none) ∧
      (n = vs.length → (r.SaveMany64 vs).2 = none) ∧
      (∀ v, vs[n]? = some v →
        (r.SaveMany64 vs).2 = some ErrAlreadyExists ∧
        ((r.SaveMany64 vs).1.Save64 v).2.2 = some ErrAlreadyExists) := by
  induction vs with
  | nil =>
    intro r n hn
    have h0 : n = 0 := by rw [← hn]; rfl
    subst h0
    refine ⟨le_refl _, rfl, ?_, ?_, ?_⟩
    · intro i v hi; exact absurd hi (Nat.not_lt_zero i)
    · intro _; rfl
    · intro v hv; simp at hv
  | cons v0 vs ih =>
    intro r n hn
    rcases Save64_cases r v0 with ⟨_, hs⟩ | ⟨_, hs⟩
    · have hfail : (r.Save64 v0).2.2 = some ErrAlreadyExists := by rw [hs]
      have hids : r.savedIdsMany64 (v0 :: vs) = [] :=
        savedIdsMany64_cons_of_err ErrAlreadyExists hfail
      have hsm : r.SaveMany64 (v0 :: vs) = (r, some ErrAlreadyExists) := by
        rw [SaveMany64_cons_of_err ErrAlreadyExists hfail, hs]
      have h0 : n = 0 := by rw [← hn, hids]; rfl
      subst h0
      rw [hsm]
      refine ⟨Nat.zero_le _, rfl, ?_, ?_, ?_⟩
      · intro i v hi; exact absurd hi (Nat.not_lt_zero i)
      · intro h; simp at h
      · intro v hv
        have hv0 : v0 = v := by simpa using hv
        subst hv0
        exact ⟨rfl, hfail⟩
    · have hok : (r.Save64 v0).2.2 = none := by rw [hs]
      have hids : r.savedIdsMany64 (v0 :: vs) =
          (r.Save64 v0).2.1.Id :: (r.Save64 v0).1.savedIdsMany64 vs :=
        savedIdsMany64_cons_of_ok hok
      have hsm : r.SaveMany64 (v0 :: vs) = (r.Save64 v0).1.SaveMany64 vs :=
        SaveMany64_cons_of_ok hok
      have hn1 : n = ((r.Save64 v0).1.savedIdsMany64 vs).length + 1 := by
        rw [← hn, hids]; rfl
      subst hn1
      obtain ⟨ihA, ihB, ihD, ihG, ihH⟩ := ih (r.Save64 v0).1 _ rfl
      rw [hsm]
      refine ⟨?_, ?_, ?_, ?_, ?_⟩
      · rw [List.length_cons]; omega
      · rw [List.take_succ_cons]
        exact ihB
      · intro i v hi hv
        cases i with
        | zero =>
          have hv0 : v0 = v := by simpa using hv
          subst hv0
          exact hok
        | succ i =>
          have hv1 : vs[i]? = some v := by simpa using hv
          rw [List.take_succ_cons]
          exact ihD i v (by omega) hv1
      · intro hlen
        apply ihG
        rw [List.length_cons] at hlen
        omega
      · intro v hv
        exact ihH v (by simpa using hv)

/-- While the counter stays at most the largest `int`, `SaveMany64` is `SaveMany` and
writes the same ids. -/
theorem SaveMany64_eq_SaveMany (vs : List Vehicle) :
    ∀ r : VehicleMap, int64.minInt ≤ r.lastId →
      r.lastId + ((r.savedIdsMany64 vs).length : Int) ≤ int64.maxInt →
      r.SaveMany64 vs = r.SaveMany vs ∧ r.savedIdsMany64 vs = r.savedIdsMany vs := by
  induction vs with
  | nil => intro r _ _; exact ⟨rfl, rfl⟩
  | cons v0 vs ih =>
    intro r hlo hhi
    rcases Save64_cases r v0 with ⟨ha, hs⟩ | ⟨ha, hs⟩
    · have hfail : (r.Save64 v0).2.2 = some ErrAlreadyExists := by rw [hs]
      have hfail2 : (r.Save v0).2.2 = some ErrAlreadyExists := by rw [Save_of_any ha]
      rw [SaveMany64_cons_of_err ErrAlreadyExists hfail,
        SaveMany_cons_of_err ErrAlreadyExists hfail2,
        savedIdsMany64_cons_of_err ErrAlreadyExists hfail,
        savedIdsMany_cons_of_err ErrAlreadyExists hfail2, hs, Save_of_any ha]
      exact ⟨rfl, rfl⟩
    · have hok : (r.Save64 v0).2.2 = none := by rw [hs]
      have hids : r.savedIdsMany64 (v0 :: vs) =
          (r.Save64 v0).2.1.Id :: (r.Save64 v0).1.savedIdsMany64 vs :=
        savedIdsMany64_cons_of_ok hok
      rw [hids, List.length_cons] at hhi
      push_cast at hhi
      have hlt : r.lastId < int64.maxInt := by
        have : (0 : Int) ≤ (((r.Save64 v0).1.savedIdsMany64 vs).length : Int) :=
          Int.natCast_nonneg _
        omega
      have heq : r.Save64 v0 = r.Save v0 := Save64_eq_Save hlo hlt v0
      have hok2 : (r.Save v0).2.2 = none := by rw [← heq]; exact hok
      have hl1 : (r.Save v0).1.lastId = r.lastId + 1 := by
        rw [Save_of_not_any ha]
      have hih := ih (r.Save v0).1 (by rw [hl1]; omega)
        (by rw [hl1]; rw [heq] at hhi; omega)
      rw [SaveMany64_cons_of_ok hok, SaveMany_cons_of_ok hok2, hids,
        savedIdsMany_cons_of_ok hok2, heq]
      exact ⟨hih.1, by rw [hih.2]⟩

theorem Save64_wellKeyed {r : VehicleMap} (h : r.WellKeyed) (h1 : int64.minInt ≤ r.lastId)
    (h2 : r.lastId < int64.maxInt) (e : Vehicle) : (r.Save64 e).1.WellKeyed := by
  rw [Save64_eq_Save h1 h2]
  exact ⟨Save_idIsKey h.1 e, Save_keysLeCounter h.2 e⟩

theorem SaveMany64_wellKeyed {r : VehicleMap} (h : r.WellKeyed) (vs : List Vehicle)
    (h1 : int64.minInt ≤ r.lastId)
    (h2 : r.lastId + ((r.savedIdsMany64 vs).length : Int) ≤ int64.maxInt) :
    (r.SaveMany64 vs).1.WellKeyed := by
  rw [(SaveMany64_eq_SaveMany vs r h1 h2).1]
  exact ⟨SaveMany_idIsKey vs r h.1, SaveMany_keysLeCounter vs r h.2⟩

theorem Save_lastId_le_succ (r : VehicleMap) (e : Vehicle) :
    (r.Save e).1.lastId ≤ r.lastId + 1 := by
  rcases Save_cases r e with ⟨_, hs⟩ | ⟨_, hs⟩ <;> simp [hs]

/-- One operation whose calls of `Save` cannot take the counter past the largest `int`
keeps a well-keyed store well keyed, and advances the counter by at most the number of
vehicles it hands to `Save`. -/
theorem step64_wellKeyed {r : VehicleMap} (h : r.WellKeyed) (op : Op)
    (h1 : int64.minInt ≤ r.lastId) (h2 : r.lastId + (op.saves : Int) ≤ int64.maxInt) :
    (r.step64 op).WellKeyed ∧ r.lastId ≤ (r.step64 op).lastId ∧
      (r.step64 op).lastId ≤ r.lastId + (op.saves : Int) := by
  cases op with
  | save e =>
    have hlt : r.lastId < int64.maxInt := by
      have : ((Op.save e).saves : Int) = 1 := rfl
      omega
    refine ⟨Save64_wellKeyed h h1 hlt e, ?_, ?_⟩
    · show r.lastId ≤ (r.Save64 e).1.lastId
      rw [Save64_eq_Save h1 hlt]; exact Save_lastId_le r e
    · show (r.Save64 e).1.lastId ≤ r.lastId + ((1 : Nat) : Int)
      rw [Save64_eq_Save h1 hlt]; exact Save_lastId_le_succ r e
  | saveMany vs =>
    have hn := (SaveMany64_refines vs r _ rfl).1
    have hb : r.lastId + ((r.savedIdsMany64 vs).length : Int) ≤ int64.maxInt := by
      have : ((Op.saveMany vs).saves : Int) = (vs.length : Int) := rfl
      omega
    have heq := SaveMany64_eq_SaveMany vs r h1 hb
    refine ⟨SaveMany64_wellKeyed h vs h1 hb, ?_, ?_⟩
    · show r.lastId ≤ (r.SaveMany64 vs).1.lastId
      rw [heq.1]; exact SaveMany_lastId_le vs r
    · show (r.SaveMany64 vs).1.lastId ≤ r.lastId + ((vs.length : Nat) : Int)
      rw [heq.1, (SaveMany_spec vs r _ rfl).2.2.2.2.1, ← heq.2]
      omega
  | updateVehicle e =>
    refine ⟨⟨UpdateVehicle_idIsKey h.1 e, UpdateVehicle_keysLeCounter h.2 e⟩, ?_, ?_⟩
    · show r.lastId ≤ (r.UpdateVehicle e).1.lastId
      rw [UpdateVehicle_lastId]
    · show (r.UpdateVehicle e).1.lastId ≤ r.lastId + ((0 : Nat) : Int)
      rw [UpdateVehicle_lastId]; simp
  | delete id =>
    refine ⟨⟨Delete_idIsKey h.1 id, Delete_keysLeCounter h.2 id⟩, ?_, ?_⟩
    · show r.lastId ≤ (r.Delete id).1.lastId
      rw [Delete_lastId]
    · show (r.Delete id).1.lastId ≤ r.lastId + ((0 : Nat) : Int)
      rw [Delete_lastId]; simp

theorem run64_wellKeyed (ops : List Op) :
    ∀ r : VehicleMap, r.WellKeyed → int64.minInt ≤ r.lastId →
      r.lastId + (((ops.map Op.saves).sum : Nat) : Int) ≤ int64.maxInt →
      (r.run64 ops).WellKeyed := by
  induction ops with
  | nil => intro r h _ _; exact h
  | cons op ops ih =>
    intro r h h1 h2
    rw [List.map_cons, List.sum_cons, Nat.cast_add] at h2
    have hnn : (0 : Int) ≤ (((ops.map Op.saves).sum : Nat) : Int) := Int.natCast_nonneg _
    obtain ⟨hw, hlo, hhi⟩ := step64_wellKeyed h op h1 (by omega)
    exact ih (r.step64 op) hw (by omega) (by omega)

theorem newVehicleMap_wellKeyed : (NewVehicleMap none 0).WellKeyed := by
  refine ⟨?_, newVehicleMap_keysLeCounter⟩
  intro k v hl
  simp [NewVehicleMap] at hl

theorem lookup_singleton_at (k0 k : Int) (x v : Vehicle) :
    (AList.singleton k0 x : Table).lookup k = some v ↔ k = k0 ∧ v = x := by
  rw [← AList.insert_empty]
  by_cases hk : k = k0
  · subst hk
    rw [AList.lookup_insert]
    constructor
    · intro h; exact ⟨rfl, (Option.some.inj h).symm⟩
    · rintro ⟨_, rfl⟩; rfl
  · rw [AList.lookup_insert_ne hk, AList.lookup_empty]
    constructor
    · intro h; exact absurd h (by simp)
    · rintro ⟨h, _⟩; exact absurd h hk

end VehicleMap

/-- C22 (counterexample): on the store `NewVehicleMap(nil, math.MaxInt64 - 1)`, `SaveMany`
of two vehicles returns no error and writes the ids `math.MaxInt64` and `math.MinInt64`,
the counter wrapping around at the second call of `Save`: the two ids are not consecutive,
and the counter ends below where it started. -/
theorem SaveMany_wrap_counterexample :
    ((NewVehicleMap none (int64.maxInt - 1)).SaveMany64 [sample.corolla, sample.civic]).2
      = none ∧
    (NewVehicleMap none (int64.maxInt - 1)).savedIdsMany64 [sample.corolla, sample.civic]
      = [int64.maxInt, int64.minInt] ∧
    int64.minInt ≠ int64.maxInt + 1 ∧
    ((NewVehicleMap none (int64.maxInt - 1)).SaveMany64 [sample.corolla, sample.civic]).1.lastId
      = int64.minInt ∧
    int64.minInt < (NewVehicleMap none (int64.maxInt - 1)).lastId := by
  refine ⟨by decide, by decide, by decide, by decide, by decide⟩

/-- C22 (amended): `SaveMany(vs)` is `Save` applied to the vehicles of `vs` in order up to
the first failure. With `n` the number of ids it writes: the store it leaves is the one left
by `Save` of the first `n` vehicles, each of these calls succeeds, and the result is no
error when `n` is the length of `vs`, and otherwise `ErrAlreadyExists`, the error of `Save`
on the vehicle of index `n`. When the counter plus `n` is at most `math.MaxInt64`, the ids
written are the `n` integers following the counter, the `i`-th vehicle is live afterwards
under the `i`-th of them, the counter advances by `n`, and no other key of the table
changes, so neither the failing vehicle nor any after it is inserted. -/
theorem SaveMany64_sequential (r : VehicleMap) (vs : List Vehicle) :
    (r.savedIdsMany64 vs).length ≤ vs.length ∧
    (r.SaveMany64 vs).1 = r.saveEach64 (vs.take (r.savedIdsMany64 vs).length) ∧
    (∀ (i : Nat) (v : Vehicle), i < (r.savedIdsMany64 vs).length → vs[i]? = some v →
      ((r.saveEach64 (vs.take i)).Save64 v).2.2 = none) ∧
    ((r.savedIdsMany64 vs).length = vs.length → (r.SaveMany64 vs).2 = none) ∧
    (∀ v, vs[(r.savedIdsMany64 vs).length]? = some v →
      (r.SaveMany64 vs).2 = some ErrAlreadyExists ∧
      ((r.SaveMany64 vs).1.Save64 v).2.2 = some ErrAlreadyExists) ∧
    (int64.minInt ≤ r.lastId →
      r.lastId + ((r.savedIdsMany64 vs).length : Int) ≤ int64.maxInt →
      r.savedIdsMany64 vs =
        (List.range (r.savedIdsMany64 vs).length).map
          (fun i : Nat => r.lastId + 1 + (i : Int)) ∧
      (∀ (i : Nat) (v : Vehicle), i < (r.savedIdsMany64 vs).length → vs[i]? = some v →
        (r.SaveMany64 vs).1.db.lookup (r.lastId + 1 + (i : Int)) =
          some { v with Id := r.lastId + 1 + (i : Int) }) ∧
      (r.SaveMany64 vs).1.lastId = r.lastId + ((r.savedIdsMany64 vs).length : Int) ∧
      (∀ k : Int, (k ≤ r.lastId ∨ r.lastId + ((r.savedIdsMany64 vs).length : Int) < k) →
        (r.SaveMany64 vs).1.db.lookup k = r.db.lookup k)) := by
  obtain ⟨hA, hB, hD, hG, hH⟩ := VehicleMap.SaveMany64_refines vs r _ rfl
  refine ⟨hA, hB, hD, hG, hH, fun hlo hhi => ?_⟩
  obtain ⟨h1, h2⟩ := VehicleMap.SaveMany64_eq_SaveMany vs r hlo hhi
  obtain ⟨_, _, sC, sD, sE, sF, _, _⟩ := VehicleMap.SaveMany_spec vs r _ rfl
  rw [h1, h2]
  exact ⟨sC, fun i v hi hv => (sD i v hi hv).2, sE, sF⟩

theorem SaveMany64_sequential_witness :
    (sample.garage.savedIdsMany64
      [{ sample.camry with Model := "Yaris" }, sample.civic,
        { sample.camry with Model := "Hilux" }]) = [4] ∧
    (sample.garage.SaveMany64
      [{ sample.camry with Model := "Yaris" }, sample.civic,
        { sample.camry with Model := "Hilux" }]).2 = some ErrAlreadyExists ∧
    (sample.garage.SaveMany64
      [{ sample.camry with Model := "Yaris" }, sample.civic,
        { sample.camry with Model := "Hilux" }]).1.lastId = 4 ∧
    (sample.garage.SaveMany64
      [{ sample.camry with Model := "Yaris" }, sample.civic,
        { sample.camry with Model := "Hilux" }]).1.db.lookup 2
      = some { sample.civic with Id := 2 } :=
  have h := SaveMany64_sequential sample.garage
    [{ sample.camry with Model := "Yaris" }, sample.civic,
      { sample.camry with Model := "Hilux" }]
  have hb := h.2.2.2.2.2 (by decide) (by decide)
  ⟨by decide, (h.2.2.2.2.1 sample.civic (by decide!)).1, hb.2.2.1,
    (hb.2.2.2 2 (Or.inl (by decide))).trans (by decide!)⟩

/-- C31 (counterexample): the store `NewVehicleMap(db, math.MaxInt64)` whose table holds a
vehicle of id 5 under key 5 is well keyed; `Save` of a vehicle that no live one matches
returns no error, the counter wraps around to `math.MinInt64`, and the key 5 is then above
the counter: the store is no longer well keyed. -/
theorem WellKeyed_wrap_counterexample :
    sample.fullCounter.WellKeyed ∧
    (sample.fullCounter.Save64 sample.civic).2.2 = none ∧
    (sample.fullCounter.Save64 sample.civic).1.lastId = int64.minInt ∧
    (sample.fullCounter.Save64 sample.civic).1.db.lookup 5
      = some { sample.corolla with Id := 5 } ∧
    ¬ (sample.fullCounter.Save64 sample.civic).1.WellKeyed := by
  refine ⟨⟨?_, ?_⟩, by decide, by decide, by decide!, ?_⟩
  · intro k v hl
    have h := (VehicleMap.lookup_singleton_at 5 k _ v).1 hl
    rw [h.2, h.1]
  · intro k hk
    have hk5 : k = 5 := by
      have : k ∈ [(5 : Int)] := hk
      simpa using this
    rw [hk5]
    decide
  · intro h
    have := h.2 5 (by decide)
    revert this
    decide

/-- C31 (amended): the store built by `NewVehicleMap(nil, 0)` is well keyed (every key
holds a vehicle whose `Id` is the key, and every key is at most the id counter). A `Save`
on a counter below `math.MaxInt64`, a `SaveMany` that writes no more ids than there are
integers from the counter to `math.MaxInt64`, every `UpdateVehicle` and every `Delete`
leave a well-keyed store well keyed, whatever they return, and so does a failing `Save` at
any counter. So every store reached from `NewVehicleMap(nil, 0)` by operations that hand at
most `math.MaxInt64` vehicles to `Save` is well keyed. -/
theorem WellKeyed_below_MaxInt64 :
    (NewVehicleMap none 0).WellKeyed ∧
    (∀ (r : VehicleMap) (e : Vehicle), r.WellKeyed → int64.minInt ≤ r.lastId →
      r.lastId < int64.maxInt → (r.Save64 e).1.WellKeyed) ∧
    (∀ (r : VehicleMap) (e : Vehicle), r.WellKeyed → (r.Save64 e).2.2 ≠ none →
      (r.Save64 e).1.WellKeyed) ∧
    (∀ (r : VehicleMap) (vs : List Vehicle), r.WellKeyed → int64.minInt ≤ r.lastId →
      r.lastId + ((r.savedIdsMany64 vs).length : Int) ≤ int64.maxInt →
      (r.SaveMany64 vs).1.WellKeyed) ∧
    (∀ (r : VehicleMap) (e : Vehicle), r.WellKeyed → (r.UpdateVehicle e).1.WellKeyed) ∧
    (∀ (r : VehicleMap) (id : Int), r.WellKeyed → (r.Delete id).1.WellKeyed) ∧
    (∀ ops : List Op, (((ops.map Op.saves).sum : Nat) : Int) ≤ int64.maxInt →
      ((NewVehicleMap none 0).run64 ops).WellKeyed) := by
  refine ⟨VehicleMap.newVehicleMap_wellKeyed,
    fun r e h h1 h2 => VehicleMap.Save64_wellKeyed h h1 h2 e, ?_,
    fun r vs h h1 h2 => VehicleMap.SaveMany64_wellKeyed h vs h1 h2,
    fun r e h => ⟨VehicleMap.UpdateVehicle_idIsKey h.1 e,
      VehicleMap.UpdateVehicle_keysLeCounter h.2 e⟩,
    fun r id h => ⟨VehicleMap.Delete_idIsKey h.1 id, VehicleMap.Delete_keysLeCounter h.2 id⟩,
    ?_⟩
  · intro r e h herr
    rcases VehicleMap.Save64_cases r e with ⟨_, hs⟩ | ⟨_, hs⟩
    · rw [hs]; exact h
    · rw [hs] at herr; exact absurd rfl herr
  · intro ops hops
    apply VehicleMap.run64_wellKeyed ops _ VehicleMap.newVehicleMap_wellKeyed
    · show int64.minInt ≤ 0
      decide
    · show (0 : Int) + _ ≤ _
      rw [zero_add]; exact hops

theorem WellKeyed_below_MaxInt64_witness :
    ((NewVehicleMap none 0).run64
      [.save sample.corolla, .saveMany [sample.civic, sample.corolla], .delete 7,
        .updateVehicle { sample.camry with Id := 2 }, .delete 1]).WellKeyed :=
  WellKeyed_below_MaxInt64.2.2.2.2.2.2
    [.save sample.corolla, .saveMany [sample.civic, sample.corolla], .delete 7,
      .updateVehicle { sample.camry with Id := 2 }, .delete 1] (by decide)

/-- C32 (counterexample): in the store `NewVehicleMap(db, math.MaxInt64)` whose table holds
a vehicle under the key `math.MinInt64`, every key is at most the counter; yet `Save` of a
vehicle that no live one matches returns no error, writes the id `math.MinInt64`, the
counter having wrapped around, and replaces the live vehicle: the table has one entry as
before. -/
theorem Save_wrap_counterexample :
    sample.lowestKey.KeysLeCounter ∧
    sample.lowestKey.db.lookup int64.minInt = some { sample.corolla with Id := int64.minInt } ∧
    sample.lowestKey.size = 1 ∧
    (sample.lowestKey.Save64 sample.civic).2.2 = none ∧
    (sample.lowestKey.Save64 sample.civic).2.1.Id = int64.minInt ∧
    (sample.lowestKey.Save64 sample.civic).1.db.lookup int64.minInt
      = some { sample.civic with Id := int64.minInt } ∧
    (sample.lowestKey.Save64 sample.civic).1.size = 1 := by
  refine ⟨?_, by decide!, by decide, by decide, by decide, by decide!, by decide⟩
  intro k hk
  have hk5 : k = int64.minInt := by
    have : k ∈ [int64.minInt] := hk
    simpa using this
  rw [hk5]
  decide

/-- C32 (amended): on `sample.staleCounter`, built by `NewVehicleMap` from a table holding a
vehicle under key 1 and the counter 0, `Save` of `sample.civic`, whose brand, model and year
no live vehicle has, returns no error, writes the id 1, and the table then holds
`sample.civic` under 1 in place of the vehicle that was there, with one entry as before.
Whereas on every store whose keys are all at most the counter and whose counter is below
`math.MaxInt64`, a `Save` that returns no error leaves one entry more and every entry that
was there as it was. -/
theorem Save64_relies_on_counter :
    (sample.staleCounter.db.lookup 1 = some { sample.corolla with Id := 1 } ∧
      sample.staleCounter.size = 1 ∧ ¬ sample.staleCounter.KeysLeCounter ∧
      (sample.staleCounter.Save64 sample.civic).2.2 = none ∧
      (sample.staleCounter.Save64 sample.civic).2.1.Id = 1 ∧
      (sample.staleCounter.Save64 sample.civic).1.db.lookup 1
        = some { sample.civic with Id := 1 } ∧
      (sample.staleCounter.Save64 sample.civic).1.size = 1) ∧
    (∀ (r : VehicleMap) (e : Vehicle), r.KeysLeCounter → int64.minInt ≤ r.lastId →
      r.lastId < int64.maxInt → (r.Save64 e).2.2 = none →
      (r.Save64 e).1.size = r.size + 1 ∧
      (∀ k v, r.db.lookup k = some v → (r.Save64 e).1.db.lookup k = some v) ∧
      (∀ k, k ≠ (r.Save64 e).2.1.Id → (r.Save64 e).1.db.lookup k = r.db.lookup k)) := by
  constructor
  · refine ⟨by decide!, by decide, ?_, by decide!, by decide!, by decide!, by decide!⟩
    intro h
    have := h 1 (by decide)
    revert this
    decide
  · intro r e hinv hlo hhi hok
    rw [VehicleMap.Save64_eq_Save hlo hhi] at hok ⊢
    rcases VehicleMap.Save_cases r e with ⟨_, hs⟩ | ⟨_, hs⟩
    · rw [hs] at hok; exact absurd hok (by simp)
    · have hfresh : r.lastId + 1 ∉ r.db := by
        intro hmem
        have := hinv _ (AList.mem_keys.1 hmem)
        omega
      rw [hs]
      refine ⟨?_, ?_, ?_⟩
      · show (r.db.insert _ _).entries.length = r.db.entries.length + 1
        rw [AList.insert_entries_of_neg hfresh]
        rfl
      · intro k v hl
        have hk : k ≠ r.lastId + 1 := by
          intro hk
          subst hk
          exact hfresh (AList.lookup_isSome.1 (by rw [hl]; rfl))
        show (r.db.insert _ _).lookup k = some v
        rw [AList.lookup_insert_ne hk]
        exact hl
      · intro k hk
        exact AList.lookup_insert_ne hk

theorem Save64_relies_on_counter_witness :
    (sample.garage.Save64 { sample.camry with Model := "Yaris" }).1.size
      = sample.garage.size + 1 ∧
    (sample.garage.Save64 { sample.camry with Model := "Yaris" }).1.db.lookup 2
      = some { sample.civic with Id := 2 } :=
  have h := Save64_relies_on_counter.2 sample.garage { sample.camry with Model := "Yaris" }
    (by
      intro k hk
      have hk3 : k = 3 ∨ k = 2 ∨ k = 1 := by
        have : k ∈ [3, 2, 1] := hk
        simpa using this
      show k ≤ 3
      omega)
    (by decide) (by decide) (by decide)
  ⟨h.1, h.2.1 2 { sample.civic with Id := 2 } (by decide!)⟩

end repository

/-! ## The map that `FindAll` returns -/

namespace repository

open internal

namespace VehicleMapRef

theorem set_of_getElem? {heap : Heap} {v : Nat} {m : Table} (h : heap[v]? = some m) :
    heap.set v m = heap := by
  apply List.ext_getElem?
  intro n
  by_cases hn : v = n
  · subst hn
    rw [List.getElem?_set_self (List.getElem?_eq_some_iff.1 h).1, h]
  · rw [List.getElem?_set_ne hn]

theorem FindAllLoop_eq (v : Nat) :
    ∀ (l : List (Sigma fun _ : Int => Vehicle)) (heap : Heap) (m : Table),
      heap[v]? = some m →
      FindAllLoop v l heap = heap.set v (VehicleMap.collect (fun _ => true) l m) := by
  intro l
  induction l with
  | nil =>
    intro heap m hm
    show heap = heap.set v m
    exact (set_of_getElem? hm).symm
  | cons kv rest ih =>
    intro heap m hm
    obtain ⟨k, x⟩ := kv
    have hv : v < heap.length := (List.getElem?_eq_some_iff.1 hm).1
    have hstep : heap.assign v k x = heap.set v (m.insert k x) := by
      simp only [Heap.assign, hm]
    have hnext : (heap.set v (m.insert k x))[v]? = some (m.insert k x) := by
      rw [List.getElem?_set_self hv]
    show FindAllLoop v rest (heap.assign v k x) = _
    rw [hstep, ih _ _ hnext, List.set_set]
    rfl

theorem FindAll_eq {r : VehicleMapRef} {heap : Heap} {s : VehicleMap}
    (h : r.deref heap = some s) :
    r.FindAll heap =
      { heap := heap ++ [(s.FindAll).1], r := r, v := heap.length, err := none } := by
  unfold deref at h
  cases hdb : heap.read r.db with
  | none => rw [hdb] at h; exact absurd h (by simp)
  | some db =>
    rw [hdb] at h
    have hs : s = { db := db, lastId := r.lastId } := (Option.some.inj h).symm
    subst hs
    have hloop := FindAllLoop_eq heap.length db.entries (heap ++ [∅]) ∅
      (List.getElem?_concat_length heap ∅)
    simp only [FindAll, Heap.make, hdb, Option.getD_some, hloop]
    rw [List.set_append_right _ _ (le_refl _)]
    simp [VehicleMap.FindAll]

end VehicleMapRef

/-- C28: on every heap in which the table of the store exists, `FindAll` returns no error
and the address `v` of a map object that did not exist before the call, so it is not the
table; this new map holds the entries of the table: every key reads in it as in the table,
and its entries and keys are those of the table up to their order. The call leaves the
receiver, hence the id counter, and every map object that existed, hence the table, as they
were. A later write or delete through `v` does not change the store, and a later write to
the table does not change the map behind `v`. -/
theorem FindAll_snapshot (r : VehicleMapRef) (heap : Heap) (s : VehicleMap)
    (h : r.deref heap = some s) :
    (r.FindAll heap).err = none ∧
    (∃ m, (r.FindAll heap).heap.read (r.FindAll heap).v = some m ∧
      (∀ k, m.lookup k = s.db.lookup k) ∧ m.entries.Perm s.db.entries ∧
      m.keys.Perm s.db.keys) ∧
    ((r.FindAll heap).r = r ∧ (r.FindAll heap).r.deref (r.FindAll heap).heap = some s ∧
      ∀ a, a < heap.length → (r.FindAll heap).heap.read a = heap.read a) ∧
    (heap.read (r.FindAll heap).v = none ∧ (r.FindAll heap).v ≠ r.db) ∧
    (∀ key value,
      r.deref ((r.FindAll heap).heap.assign (r.FindAll heap).v key value) = some s) ∧
    (∀ key, r.deref ((r.FindAll heap).heap.delete (r.FindAll heap).v key) = some s) ∧
    (∀ key value,
      ((r.FindAll heap).heap.assign r.db key value).read (r.FindAll heap).v =
        (r.FindAll heap).heap.read (r.FindAll heap).v) := by
  have hlt : r.db < heap.length := by
    unfold VehicleMapRef.deref Heap.read at h
    cases hdb : heap[r.db]? with
    | none => rw [hdb] at h; exact absurd h (by simp)
    | some db => exact (List.getElem?_eq_some_iff.1 hdb).1
  have hne : heap.length ≠ r.db := fun heq => absurd hlt (by omega)
  have hold : ∀ a, a < heap.length → (heap ++ [(s.FindAll).1])[a]? = heap[a]? :=
    fun a ha => List.getElem?_append_left ha
  have hnew : (heap ++ [(s.FindAll).1])[heap.length]? = some (s.FindAll).1 :=
    List.getElem?_concat_length heap _
  have hderef : ∀ heap2 : Heap, heap2[r.db]? = heap[r.db]? → r.deref heap2 = some s := by
    intro heap2 h2
    rw [← h]
    simp only [VehicleMapRef.deref, Heap.read, h2]
  have hperm : (s.FindAll).1.entries.Perm s.db.entries := VehicleMap.collect_true_perm s
  rw [VehicleMapRef.FindAll_eq h]
  refine ⟨rfl, ⟨(s.FindAll).1, hnew, fun k => ?_, hperm, hperm.map _⟩,
    ⟨rfl, hderef _ (hold _ hlt), fun a ha => hold a ha⟩, ⟨?_, hne⟩, ?_, ?_, ?_⟩
  · apply Option.ext
    intro v
    rw [Option.mem_def, Option.mem_def]
    show (VehicleMap.collect (fun _ => true) s.db.entries ∅).lookup k = some v ↔ _
    rw [VehicleMap.lookup_collect_db]
    simp
  · show heap[heap.length]? = none
    exact List.getElem?_eq_none (le_refl _)
  · intro key value
    apply hderef
    simp only [Heap.assign, hnew]
    rw [List.getElem?_set_ne hne]
    exact hold _ hlt
  · intro key
    apply hderef
    simp only [Heap.delete, hnew]
    rw [List.getElem?_set_ne hne]
    exact hold _ hlt
  · intro key value
    show (Heap.assign (heap ++ [(s.FindAll).1]) r.db key value)[heap.length]? = _
    unfold Heap.assign
    cases (heap ++ [(s.FindAll).1])[r.db]? with
    | none => rfl
    | some m => exact List.getElem?_set_ne (Ne.symm hne)

theorem FindAll_snapshot_witness :
    (sample.garageRef.FindAll sample.garageHeap).err = none ∧
    (sample.garageRef.FindAll sample.garageHeap).v = 1 ∧
    sample.garageRef.deref
      ((sample.garageRef.FindAll sample.garageHeap).heap.delete
        (sample.garageRef.FindAll sample.garageHeap).v 2) = some sample.garage :=
  have h := FindAll_snapshot sample.garageRef sample.garageHeap sample.garage rfl
  ⟨h.1, rfl, h.2.2.2.2.2.1 2⟩

end repository
